import Mathlib

/-!
# turing-tech-backend: chat orchestration, authentication and the token gate

A shallow embedding of `src/managers/ChatManager.js`, `src/managers/AuthManager.js`,
`src/services/LLMService.js`, `src/middlewares/Base.js`, `src/utils/helpers.js` and of the
three Mongoose schemas under `src/models/`.

Conventions of the embedding.

* A JavaScript string is a list of characters (`JSString`); `jsLength` counts UTF-16 code
  units, as `String.prototype.length`, Joi's `min`/`max` and Mongoose's `minlength` /
  `maxlength` do.
* An `ObjectId` is a natural number.  `toString()` of an ObjectId is an injective rendering
  and is not modelled; ids reach the managers already cast.
* `await` is sequencing: every manager function is a function from the store before the call
  to the store after it, paired with `Except Thrown result` (a rejected promise is `error`).
  A function that throws half way returns the store as it stands at the throw.
* What the code reads from outside (the clock, `randomInt`, argon2, `String.toLowerCase`,
  `jwt.verify`, `process.env`) is an explicit argument.
-/

namespace TuringTech

set_option maxRecDepth 100000

/-! ## Strings -/

/-- A JavaScript string value. -/
abbrev JSString := List Char

/-- Number of UTF-16 code units of one character. -/
def utf16Size (c : Char) : Nat := if c.toNat < 0x10000 then 1 else 2

/-- The `length` property of a JavaScript string (UTF-16 code units). -/
def jsLength (s : JSString) : Nat := (s.map utf16Size).sum

/-- ECMAScript `WhiteSpace` and `LineTerminator` code points: what `trim` strips. -/
def isWhiteSpace (c : Char) : Bool :=
  let n := c.toNat
  n == 0x09 || n == 0x0A || n == 0x0B || n == 0x0C || n == 0x0D || n == 0x20 ||
  n == 0xA0 || n == 0x1680 || (0x2000 ≤ n && n ≤ 0x200A) || n == 0x2028 ||
  n == 0x2029 || n == 0x202F || n == 0x205F || n == 0x3000 || n == 0xFEFF

/-- JavaScript `String.prototype.trim`. -/
def trim (s : JSString) : JSString :=
  (s.dropWhile isWhiteSpace).rdropWhile isWhiteSpace

/-- JavaScript truthiness of a string: the empty string is falsy. -/
def truthy (s : JSString) : Bool := !s.isEmpty

/-! ## Constants that live outside `src/` -/

/-- Modelled from the spec: `config/constants.js` (`httpsCodes`) is not among the sources;
the names are the ones the code uses, the numbers the ones of the interface table. -/
inductive HttpsCode where
  | SUCCESS_CODE
  | RECORD_CREATED
  | BAD_REQUEST
  | UNAUTHORIZE_CODE
  | NOT_FOUND
  | CONFLICT
  | SERVER_ERROR_CODE
  deriving DecidableEq, Repr

/-- Modelled from the spec: the numeric HTTP status of each code (interface table, §6/§7). -/
def HttpsCode.toNat : HttpsCode → Nat
  | .SUCCESS_CODE => 200
  | .RECORD_CREATED => 201
  | .BAD_REQUEST => 400
  | .UNAUTHORIZE_CODE => 401
  | .NOT_FOUND => 404
  | .CONFLICT => 409
  | .SERVER_ERROR_CODE => 500

/-- What a rejected promise or a synchronous `throw` carries. -/
inductive Thrown where
  | ValidationError
  | DuplicateKey
  | TypeError
  | JwtSignError
  | DocumentNotFoundError
  | CastError
  deriving DecidableEq, Repr

/-! ## Documents and the store -/

abbrev ObjectId := Nat

/-- Milliseconds since the epoch (`Date`). -/
abbrev Timestamp := Nat

/-- `enum: ['user', 'assistant']` of `messageSchema.role`. -/
inductive Role where
  | user
  | assistant
  deriving DecidableEq, Repr

/-- A document of `models/User.js`. -/
structure UserDoc where
  _id : ObjectId
  email : JSString
  password : JSString
  createdAt : Timestamp
  updatedAt : Timestamp
  deriving DecidableEq, Repr

/-- A document of `models/Chat.js`. -/
structure ChatDoc where
  _id : ObjectId
  user : ObjectId
  title : JSString
  lastMessageAt : Timestamp
  createdAt : Timestamp
  updatedAt : Timestamp
  deriving DecidableEq, Repr

/-- A document of `models/Message.js`. -/
structure MessageDoc where
  _id : ObjectId
  chat : ObjectId
  user : ObjectId
  role : Role
  content : JSString
  createdAt : Timestamp
  updatedAt : Timestamp
  deriving DecidableEq, Repr

/-- The three collections, each in insertion order, and the ObjectId generator. -/
structure Store where
  users : List UserDoc
  chats : List ChatDoc
  messages : List MessageDoc
  nextId : ObjectId
  deriving DecidableEq, Repr

/-- The empty database. -/
def Store.empty : Store := ⟨[], [], [], 0⟩

/-- Every `_id` in the store and every reference to a chat was handed out by the generator
(so the next id is fresh), and `_id` is unique within the chat collection. -/
structure Store.WF (db : Store) : Prop where
  users_lt : ∀ u ∈ db.users, u._id < db.nextId
  chats_lt : ∀ c ∈ db.chats, c._id < db.nextId
  messages_lt : ∀ m ∈ db.messages, m._id < db.nextId
  refs_lt : ∀ m ∈ db.messages, m.chat < db.nextId
  chats_nodup : (db.chats.map (·._id)).Nodup

/-! ## `models/Message.js` and `models/Chat.js` -/

/-- `Message.create`: the `trim` setter runs on `content`, then the validators `required`
(a non-empty string) and `maxlength: 4000`; a valid document is inserted with a fresh
`_id` and `createdAt = updatedAt = now`. -/
def Message.create (db : Store) (chat user : ObjectId) (role : Role) (content : JSString)
    (now : Timestamp) : Store × Except Thrown MessageDoc :=
  let stored := trim content
  if stored.isEmpty || decide (4000 < jsLength stored) then
    (db, .error .ValidationError)
  else
    let doc : MessageDoc :=
      { _id := db.nextId, chat := chat, user := user, role := role, content := stored,
        createdAt := now, updatedAt := now }
    ({ db with messages := db.messages ++ [doc], nextId := db.nextId + 1 }, .ok doc)

/-- `Chat.create({ user, title })`: the `trim` setter runs on `title`, then `maxlength: 120`;
`lastMessageAt` takes its default `Date.now` when the document is built (`tDefault`), the
timestamps are set when it is saved (`now`). -/
def Chat.create (db : Store) (user : ObjectId) (title : JSString)
    (tDefault now : Timestamp) : Store × Except Thrown ChatDoc :=
  let stored := trim title
  if 120 < jsLength stored then
    (db, .error .ValidationError)
  else
    let doc : ChatDoc :=
      { _id := db.nextId, user := user, title := stored, lastMessageAt := tDefault,
        createdAt := now, updatedAt := now }
    ({ db with chats := db.chats ++ [doc], nextId := db.nextId + 1 }, .ok doc)

/-- `Chat.findOne({ _id: chatId, user: userId })`. -/
def Chat.findOne (db : Store) (chatId userId : ObjectId) : Option ChatDoc :=
  db.chats.find? (fun c => c._id == chatId && c.user == userId)

/-- `Chat.findById(chatId)`. -/
def Chat.findById (db : Store) (chatId : ObjectId) : Option ChatDoc :=
  db.chats.find? (fun c => c._id == chatId)

/-- The body of `chat.save()` for a document that was loaded from (or created in) the
store: nothing is written when no path was modified; otherwise the timestamps plugin sets
`updatedAt` to the time of the save and `lastMessageAt`/`updatedAt` are written to the
stored document with the same `_id`. Saving a document that is no longer stored rejects. -/
def Chat.save (db : Store) (chat : ChatDoc) (modified : Bool) (now : Timestamp) :
    Store × Except Thrown ChatDoc :=
  if !modified then (db, .ok chat)
  else if db.chats.any (fun c => c._id == chat._id) then
    let saved : ChatDoc := { chat with updatedAt := now }
    ({ db with chats := db.chats.map (fun c =>
        if c._id == chat._id then
          { c with lastMessageAt := saved.lastMessageAt, updatedAt := saved.updatedAt }
        else c) },
     .ok saved)
  else (db, .error .DocumentNotFoundError)

/-- `Message.find({ chat: chatId, user: userId }).sort({ createdAt: 1 })`. -/
def Message.find (db : Store) (chatId userId : ObjectId) : List MessageDoc :=
  (db.messages.filter (fun m => m.chat == chatId && m.user == userId)).insertionSort
    (fun a b => a.createdAt ≤ b.createdAt)

/-- `Chat.find({ user: userId }).sort({ updatedAt: -1 })`. -/
def Chat.find (db : Store) (userId : ObjectId) : List ChatDoc :=
  (db.chats.filter (fun c => c.user == userId)).insertionSort
    (fun a b => b.updatedAt ≤ a.updatedAt)

/-! ## `services/LLMService.js` -/

/-- The two environment variables `generateReply` reads. -/
structure LLMEnv where
  LLM_API_URL : Option JSString
  LLM_API_TOKEN : Option JSString
  deriving DecidableEq, Repr

/-- `randomInt(min, max)` of `node:crypto`: an integer `n` with `min ≤ n < max`, here
computed from the raw entropy the generator consumed. -/
def randomInt (min max entropy : Nat) : Nat := min + entropy % (max - min)

/-- The object `generateReply` resolves to. -/
structure LLMResponse where
  provider : JSString
  delayMs : Nat
  message : JSString
  deriving DecidableEq, Repr

/-- The first template sentence, before the prompt. -/
def replyPrefix : JSString :=
  "Here is a thoughtful response based on your prompt: \"".toList

/-- The rest of the template, after the prompt (the three sentences joined by a blank). -/
def replySuffix : JSString :=
  ("\"." ++ " " ++
   "If this were a real LLM call, the content would be generated dynamically." ++ " " ++
   "Use this response to demonstrate how the frontend handles delayed, streaming-like output from a large language model.").toList

/-- `LLMService.generateReply({ prompt, conversationId, email })`. The endpoint, the token,
the request payload and the headers are built and logged but never sent. -/
def LLMService.generateReply (env : LLMEnv) (prompt : JSString) (conversationId : ObjectId)
    (email : JSString) (entropy : Nat) : LLMResponse :=
  let _llmEndpoint := env.LLM_API_URL.getD "https://llm-provider.example.com/v1/chat/completions".toList
  let _llmToken := env.LLM_API_TOKEN.getD "mock-token".toList
  let _metadata := (conversationId, email)
  let delayMs := randomInt 10 21 entropy * 1000
  let simulatedContent := replyPrefix ++ prompt ++ replySuffix
  { provider := "simulated-llm".toList, delayMs := delayMs, message := simulatedContent }

/-! ## `managers/ChatManager.js` -/

/-- The object `serializeChat` returns. -/
structure ChatView where
  id : ObjectId
  title : JSString
  user : ObjectId
  lastMessageAt : Timestamp
  createdAt : Timestamp
  updatedAt : Timestamp
  deriving DecidableEq, Repr

/-- The object `serializeMessage` returns. -/
structure MessageView where
  id : ObjectId
  chat : ObjectId
  role : Role
  content : JSString
  createdAt : Timestamp
  deriving DecidableEq, Repr

/-- `ChatManager.serializeChat` on a document (the `null` guard is for a missing one). -/
def ChatManager.serializeChat (chatDoc : ChatDoc) : ChatView :=
  { id := chatDoc._id, title := chatDoc.title, user := chatDoc.user,
    lastMessageAt := chatDoc.lastMessageAt, createdAt := chatDoc.createdAt,
    updatedAt := chatDoc.updatedAt }

/-- `ChatManager.serializeMessage` on a document. -/
def ChatManager.serializeMessage (messageDoc : MessageDoc) : MessageView :=
  { id := messageDoc._id, chat := messageDoc.chat, role := messageDoc.role,
    content := messageDoc.content, createdAt := messageDoc.createdAt }

/-- `metadata: { delayMs }`. -/
structure Metadata where
  delayMs : Nat
  deriving DecidableEq, Repr

/-- What one exchange reads from outside: the clock at each of its three writes and the
entropy behind `randomInt`. -/
structure ExchangeIO where
  tUser : Timestamp
  entropy : Nat
  tAssistant : Timestamp
  tSave : Timestamp
  deriving DecidableEq, Repr

/-- What `executeExchange` returns, with the chat document it mutated in place. -/
structure Exchange where
  chat : ChatDoc
  messages : List MessageView
  metadata : Metadata
  deriving DecidableEq, Repr

/-- `ChatManager.executeExchange({ chat, userId, email, content })`. -/
def ChatManager.executeExchange (env : LLMEnv) (db : Store) (chat : ChatDoc)
    (userId : ObjectId) (email content : JSString) (io : ExchangeIO) :
    Store × Except Thrown Exchange :=
  match Message.create db chat._id userId .user content io.tUser with
  | (db1, .error e) => (db1, .error e)
  | (db1, .ok userMessageDoc) =>
    let llmResponse := LLMService.generateReply env content chat._id email io.entropy
    match Message.create db1 chat._id userId .assistant llmResponse.message io.tAssistant with
    | (db2, .error e) => (db2, .error e)
    | (db2, .ok assistantMessageDoc) =>
      match Chat.save db2 { chat with lastMessageAt := assistantMessageDoc.createdAt }
          (chat.lastMessageAt != assistantMessageDoc.createdAt) io.tSave with
      | (db3, .error e) => (db3, .error e)
      | (db3, .ok saved) =>
        (db3, .ok
          { chat := saved,
            messages := [ChatManager.serializeMessage userMessageDoc,
                         ChatManager.serializeMessage assistantMessageDoc],
            metadata := { delayMs := llmResponse.delayMs } })

/-- The result objects of the chat manager: a field the code leaves out is `none`. -/
structure ChatResult where
  status : HttpsCode
  message : Option JSString
  chat : Option ChatView
  chats : Option (List ChatView)
  messages : Option (List MessageView)
  metadata : Option Metadata
  deriving DecidableEq, Repr

/-- The object `{ status: httpsCodes.NOT_FOUND, message: 'Chat not found' }`. -/
def chatNotFound : ChatResult :=
  { status := .NOT_FOUND, message := some "Chat not found".toList, chat := none,
    chats := none, messages := none, metadata := none }

/-- `ChatManager.findOwnedChat({ userId, chatId })` (the warning is only logged). -/
def ChatManager.findOwnedChat (db : Store) (userId chatId : ObjectId) : Option ChatDoc :=
  Chat.findOne db chatId userId

/-- What `createChat` reads from outside: the clock when the chat document is built and
when it is saved, and the inputs of the seeded exchange. -/
structure CreateChatIO where
  tDefault : Timestamp
  tCreate : Timestamp
  exchange : ExchangeIO
  deriving DecidableEq, Repr

/-- The expression `title?.trim() || 'New Chat'`; `none` is `undefined` or `null`. -/
def titleOrDefault (title : Option JSString) : JSString :=
  match title.map trim with
  | some t => if truthy t then t else "New Chat".toList
  | none => "New Chat".toList

/-- `ChatManager.createChat({ userId, email, title, message })`; `none` is `undefined` or
`null`. -/
def ChatManager.createChat (env : LLMEnv) (db : Store) (userId : ObjectId) (email : JSString)
    (title message : Option JSString) (io : CreateChatIO) :
    Store × Except Thrown ChatResult :=
  match Chat.create db userId (titleOrDefault title) io.tDefault io.tCreate with
  | (db1, .error e) => (db1, .error e)
  | (db1, .ok chat) =>
    match message with
    | some m =>
      if truthy m then
        match ChatManager.executeExchange env db1 chat userId email m io.exchange with
        | (db2, .error e) => (db2, .error e)
        | (db2, .ok exchange) =>
          (db2, .ok
            { status := .RECORD_CREATED, message := some "Chat created".toList,
              chat := some (ChatManager.serializeChat exchange.chat), chats := none,
              messages := some exchange.messages, metadata := some exchange.metadata })
      else
        (db1, .ok
          { status := .RECORD_CREATED, message := some "Chat created".toList,
            chat := some (ChatManager.serializeChat chat), chats := none,
            messages := some [], metadata := none })
    | none =>
      (db1, .ok
        { status := .RECORD_CREATED, message := some "Chat created".toList,
          chat := some (ChatManager.serializeChat chat), chats := none,
          messages := some [], metadata := none })

/-- `ChatManager.listChats(userId)`. -/
def ChatManager.listChats (db : Store) (userId : ObjectId) : ChatResult :=
  let chats := Chat.find db userId
  { status := .SUCCESS_CODE, message := none, chat := none,
    chats := some (chats.map ChatManager.serializeChat), messages := none, metadata := none }

/-- `ChatManager.getChatMessages({ userId, chatId })`. -/
def ChatManager.getChatMessages (db : Store) (userId chatId : ObjectId) : ChatResult :=
  match ChatManager.findOwnedChat db userId chatId with
  | none => chatNotFound
  | some chat =>
    let messages := Message.find db chatId userId
    { status := .SUCCESS_CODE, message := none,
      chat := some (ChatManager.serializeChat chat), chats := none,
      messages := some (messages.map ChatManager.serializeMessage), metadata := none }

/-- `ChatManager.postMessage({ userId, email, chatId, content, skipOwnershipCheck })`;
`skipOwnershipCheck` defaults to `false` when the caller leaves it out. -/
def ChatManager.postMessage (env : LLMEnv) (db : Store) (userId : ObjectId)
    (email : JSString) (chatId : ObjectId) (content : JSString) (skipOwnershipCheck : Bool)
    (io : ExchangeIO) : Store × Except Thrown ChatResult :=
  let found :=
    if skipOwnershipCheck then Chat.findById db chatId
    else ChatManager.findOwnedChat db userId chatId
  match found with
  | none => (db, .ok chatNotFound)
  | some chat =>
    match ChatManager.executeExchange env db chat userId email content io with
    | (db1, .error e) => (db1, .error e)
    | (db1, .ok exchange) =>
      (db1, .ok
        { status := .SUCCESS_CODE, message := some "Reply generated".toList,
          chat := some (ChatManager.serializeChat exchange.chat), chats := none,
          messages := some exchange.messages, metadata := some exchange.metadata })

/-! ## The platform: what `utils/helpers.js` and `middlewares/Base.js` call -/

/-- The `name` of the error `jwt.verify` hands to its callback. -/
inductive JwtErrorName where
  | JsonWebTokenError
  | TokenExpiredError
  | NotBeforeError
  deriving DecidableEq, Repr

/-- The claims of a token: the payload `{ id, email }` with the `iat` and `exp` that
`jwt.sign` adds (seconds). -/
structure Claims where
  id : ObjectId
  email : JSString
  iat : Nat
  exp : Nat
  deriving DecidableEq, Repr

/-- A token as `jwt.sign` builds it: the claims it carries and the key that signed it. -/
structure Jwt where
  claims : Claims
  key : JSString
  deriving DecidableEq, Repr

/-- The library and runtime primitives the authentication code calls. -/
structure Platform where
  toLowerCase : JSString → JSString
  argon2Hash : JSString → Nat → Option JSString
  argon2Verify : JSString → JSString → Option Bool
  JWT_SECRETE_KEY : Option JSString
  jwtVerify : JSString → Except JwtErrorName Claims

/-- The two facts about `String.prototype.toLowerCase` the store relies on: lowering twice
is lowering once, and lowering does not touch the whitespace that `trim` strips. -/
def CaseLaws (p : Platform) : Prop :=
  (∀ s, p.toLowerCase (p.toLowerCase s) = p.toLowerCase s) ∧
  (∀ s, p.toLowerCase (trim s) = trim (p.toLowerCase s))

/-! ## `utils/helpers.js` -/

/-- The object `verifyJWTToken` resolves to: `{ err, decoded }`. -/
structure VerifyResult where
  err : Option JwtErrorName
  decoded : Option Claims
  deriving DecidableEq, Repr

/-- `verifyJWTToken(token)`: `jwt.verify` with a callback that packs its two arguments. -/
def verifyJWTToken (p : Platform) (token : JSString) : VerifyResult :=
  match p.jwtVerify token with
  | .ok decoded => { err := none, decoded := some decoded }
  | .error err => { err := some err, decoded := none }

/-- `verifyHashParams(hashedParams, plainParams)`: a rejection of `argon2.verify` is caught
and logged, and the function then returns `undefined` (`none`). -/
def verifyHashParams (p : Platform) (hashedParams plainParams : JSString) : Option Bool :=
  match p.argon2Verify hashedParams plainParams with
  | some isMatch => some (if isMatch then true else false)
  | none => none

/-- `convertToHash(plainParams)`: a rejection of `argon2.hash` is caught and logged, and the
function then returns `undefined` (`none`). -/
def convertToHash (p : Platform) (plainParams : JSString) (salt : Nat) : Option JSString :=
  p.argon2Hash plainParams salt

/-- The payload `{ id, email }` handed to `generateJWTToken`. -/
structure TokenPayload where
  id : ObjectId
  email : JSString
  deriving DecidableEq, Repr

/-- `generateJWTToken(payload)` for a payload object: `jwt.sign(payload, secret,
{ expiresIn: '10h' })` at clock reading `now` (milliseconds); `jwt.sign` throws when the
secret is missing or empty. -/
def generateJWTToken (p : Platform) (payload : TokenPayload) (now : Timestamp) :
    Except Thrown Jwt :=
  match p.JWT_SECRETE_KEY with
  | some key =>
    if truthy key then
      .ok { claims := { id := payload.id, email := payload.email, iat := now / 1000,
                        exp := now / 1000 + 36000 },
            key := key }
    else .error .JwtSignError
  | none => .error .JwtSignError

/-! ## `models/User.js` -/

/-- The setters of `userSchema.email` (`trim: true`, `lowercase: true`); Mongoose runs them
on the value of a new document and on the value a query filters by. -/
def emailSetters (p : Platform) (v : JSString) : JSString := p.toLowerCase (trim v)

/-- `User.exists({ email })`. -/
def User.exists (p : Platform) (db : Store) (email : JSString) : Bool :=
  db.users.any (fun u => u.email == emailSetters p email)

/-- `User.findOne({ email }).select('+password')`. -/
def User.findOne (p : Platform) (db : Store) (email : JSString) : Option UserDoc :=
  db.users.find? (fun u => u.email == emailSetters p email)

/-- `User.findById(userId)`. -/
def User.findById (db : Store) (userId : ObjectId) : Option UserDoc :=
  db.users.find? (fun u => u._id == userId)

/-- `User.create({ email, password })`: the setters run on `email`, then the validators
(`required`, `minlength: 5`, `maxlength: 254` on `email`, `required` on `password`, which
is `none` when `convertToHash` returned `undefined`); the unique index on `email` rejects a
duplicate on insertion. -/
def User.create (p : Platform) (db : Store) (email : JSString) (password : Option JSString)
    (now : Timestamp) : Store × Except Thrown UserDoc :=
  let stored := emailSetters p email
  match password with
  | none => (db, .error .ValidationError)
  | some hashed =>
    if stored.isEmpty || decide (jsLength stored < 5) || decide (254 < jsLength stored)
        || hashed.isEmpty then
      (db, .error .ValidationError)
    else if db.users.any (fun u => u.email == stored) then
      (db, .error .DuplicateKey)
    else
      let doc : UserDoc :=
        { _id := db.nextId, email := stored, password := hashed, createdAt := now,
          updatedAt := now }
      ({ db with users := db.users ++ [doc], nextId := db.nextId + 1 }, .ok doc)

/-! ## `managers/AuthManager.js` -/

/-- The object `sanitizeUserDoc` returns. -/
structure SanitizedUser where
  id : ObjectId
  email : JSString
  createdAt : Timestamp
  updatedAt : Timestamp
  deriving DecidableEq, Repr

/-- `AuthManager.sanitizeUserDoc` on a document (the `null` guard is for a missing one). -/
def AuthManager.sanitizeUserDoc (userDoc : UserDoc) : SanitizedUser :=
  { id := userDoc._id, email := userDoc.email, createdAt := userDoc.createdAt,
    updatedAt := userDoc.updatedAt }

/-- The result objects of the auth manager: a field the code leaves out is `none`. -/
structure AuthResult where
  status : HttpsCode
  message : Option JSString
  token : Option Jwt
  user : Option SanitizedUser
  deriving DecidableEq, Repr

/-- The object `{ status: httpsCodes.CONFLICT, message: 'Email already registered' }`. -/
def emailAlreadyRegistered : AuthResult :=
  { status := .CONFLICT, message := some "Email already registered".toList, token := none,
    user := none }

/-- The object `{ status: httpsCodes.UNAUTHORIZE_CODE, message: 'Invalid credentials' }`. -/
def invalidCredentials : AuthResult :=
  { status := .UNAUTHORIZE_CODE, message := some "Invalid credentials".toList,
    token := none, user := none }

/-- `String(email).toLowerCase().trim()`. -/
def normalizeEmail (p : Platform) (email : JSString) : JSString := trim (p.toLowerCase email)

/-- What `registerUser` reads from outside: the salt argon2 draws and the clock when the
user is saved and when the token is signed. -/
structure RegisterIO where
  salt : Nat
  tCreate : Timestamp
  tSign : Timestamp
  deriving DecidableEq, Repr

/-- `AuthManager.registerUser({ email, password })`; the `catch` logs and rethrows. -/
def AuthManager.registerUser (p : Platform) (db : Store) (email password : JSString)
    (io : RegisterIO) : Store × Except Thrown AuthResult :=
  let normalizedEmail := normalizeEmail p email
  if User.exists p db normalizedEmail then
    (db, .ok emailAlreadyRegistered)
  else
    let hashedPassword := convertToHash p password io.salt
    match User.create p db normalizedEmail hashedPassword io.tCreate with
    | (db1, .error e) => (db1, .error e)
    | (db1, .ok user) =>
      let sanitizedUser := AuthManager.sanitizeUserDoc user
      match generateJWTToken p { id := sanitizedUser.id, email := sanitizedUser.email }
          io.tSign with
      | .error e => (db1, .error e)
      | .ok token =>
        (db1, .ok
          { status := .RECORD_CREATED, message := some "Account created".toList,
            token := some token, user := some sanitizedUser })

/-- `AuthManager.authenticateUser({ email, password })` at clock reading `now`; it only
reads the store. -/
def AuthManager.authenticateUser (p : Platform) (db : Store) (email password : JSString)
    (now : Timestamp) : Except Thrown AuthResult :=
  match User.findOne p db (normalizeEmail p email) with
  | none => .ok invalidCredentials
  | some user =>
    if !truthy user.password then .ok invalidCredentials
    else
      match verifyHashParams p user.password password with
      | some true =>
        let sanitizedUser := AuthManager.sanitizeUserDoc user
        match generateJWTToken p { id := sanitizedUser.id, email := sanitizedUser.email }
            now with
        | .error e => .error e
        | .ok token =>
          .ok { status := .SUCCESS_CODE, message := some "Logged in".toList,
                token := some token, user := some sanitizedUser }
      | _ => .ok invalidCredentials

/-- `AuthManager.getProfile(userId)`. -/
def AuthManager.getProfile (db : Store) (userId : ObjectId) : Except Thrown AuthResult :=
  match User.findById db userId with
  | none =>
    .ok { status := .NOT_FOUND, message := some "User not found".toList, token := none,
          user := none }
  | some user =>
    .ok { status := .SUCCESS_CODE, message := none, token := none,
          user := some (AuthManager.sanitizeUserDoc user) }

/-! ## `controller/AuthController.js` -/

/-- `credentialSchema`: `email: Joi.string().email().min(5).max(254).required()` and
`password: Joi.string().min(6).max(128).required()`, on two strings that are present;
`isEmail` is Joi's `email()` rule. -/
def credentialSchema (isEmail : JSString → Bool) (email password : JSString) : Bool :=
  isEmail email && decide (5 ≤ jsLength email) && decide (jsLength email ≤ 254) &&
  decide (6 ≤ jsLength password) && decide (jsLength password ≤ 128)

/-! ## `middlewares/Base.js` -/

/-- Modelled from the spec: `language/en/language.js` is not among the sources; these are
the three message keys `authenticate` reads from it. -/
inductive LanguageKey where
  | INVALID_AUTH_TOKEN
  | EXPIRED_AUTH_TOKEN
  | NO_AUTH_GIVEN
  deriving DecidableEq, Repr

/-- The two request headers `authenticate` reads; `none` is `undefined`. -/
structure Headers where
  access_token : Option JSString
  authorization : Option JSString
  deriving DecidableEq, Repr

/-- The scan behind `split`: `skip` counts the characters of a separator that was just
matched and is still to be passed over, `cur` is the piece being collected (reversed). -/
def splitGo (sep : JSString) : JSString → Nat → JSString → List JSString
  | [], _, cur => [cur.reverse]
  | _ :: rest, skip + 1, cur => splitGo sep rest skip cur
  | c :: rest, 0, cur =>
    if sep.isPrefixOf (c :: rest) then cur.reverse :: splitGo sep rest (sep.length - 1) []
    else splitGo sep rest 0 (c :: cur)

/-- `String.prototype.split(sep)` for a non-empty separator. -/
def jsSplit (s sep : JSString) : List JSString := splitGo sep s 0 []

/-- `res.status(code).json({ message })`. -/
structure Response where
  status : HttpsCode
  message : LanguageKey
  deriving DecidableEq, Repr

/-- What a run of `authenticate` did to `res` and `next`: the response it sent (if any),
`res.locals.decoded` (if set) and how many times it called `next`. -/
structure AuthOutcome where
  response : Option Response
  decoded : Option Claims
  nextCalls : Nat
  deriving DecidableEq, Repr

/-- The token `authenticate` takes from the headers: the `access_token` header when it is
defined, else the piece after the first 'Bearer ' of a non-empty `Authorization` header,
trimmed; indexing `[1]` yields `undefined` when there is no such piece and `.trim()` on it
throws a `TypeError`. -/
def Base.extractToken (headers : Headers) : Except Thrown (Option JSString) :=
  match headers.access_token with
  | some token => .ok (some token)
  | none =>
    match headers.authorization with
    | some authorization =>
      if truthy authorization then
        match (jsSplit authorization "Bearer ".toList)[1]? with
        | some piece => .ok (some (trim piece))
        | none => .error .TypeError
      else .ok none
    | none => .ok none

/-- The response `res.status(httpsCodes.UNAUTHORIZE_CODE).json({ message })`, without a call
of `next`. -/
def unauthorized (message : LanguageKey) : AuthOutcome :=
  { response := some { status := .UNAUTHORIZE_CODE, message := message }, decoded := none,
    nextCalls := 0 }

/-- `Base.authenticate(req, res, next)`. -/
def Base.authenticate (p : Platform) (headers : Headers) : Except Thrown AuthOutcome :=
  match Base.extractToken headers with
  | .error e => .error e
  | .ok token =>
    match token with
    | some t =>
      if truthy t then
        let result := verifyJWTToken p t
        match result.err with
        | some .JsonWebTokenError => .ok (unauthorized .INVALID_AUTH_TOKEN)
        | some .TokenExpiredError => .ok (unauthorized .EXPIRED_AUTH_TOKEN)
        | some _ => .ok (unauthorized .INVALID_AUTH_TOKEN)
        | none => .ok { response := none, decoded := result.decoded, nextCalls := 1 }
      else .ok (unauthorized .NO_AUTH_GIVEN)
    | none => .ok (unauthorized .NO_AUTH_GIVEN)

/-! ## The reply template, sentence by sentence -/

/-- `Array.prototype.join(sep)` on an array of strings. -/
def jsJoin (sep : JSString) : List JSString → JSString
  | [] => []
  | [s] => s
  | s :: t :: rest => s ++ sep ++ jsJoin sep (t :: rest)

/-- The array literal that `generateReply` joins with a blank: the template literal with
the prompt between double quotes, and the two fixed sentences. -/
def simulatedSentences (prompt : JSString) : List JSString :=
  [ "Here is a thoughtful response based on your prompt: \"".toList ++ prompt ++ "\".".toList,
    "If this were a real LLM call, the content would be generated dynamically.".toList,
    "Use this response to demonstrate how the frontend handles delayed, streaming-like output from a large language model.".toList ]

/-! ## The calls a manager function makes to the User model -/

/-- One awaited call of a method of the `User` model: `User.exists`, `User.create`,
`User.findOne`, `User.findById`. -/
inductive UserStoreOp where
  | existsQuery
  | create
  | findOne
  | findById
  deriving DecidableEq, Repr

/-- The `User` model as `AuthManager` reaches it: the four static methods it awaits, over a
store of type `σ`. Each method takes the store before the call and returns the store after
the call beside its result. -/
structure UserModel (σ : Type) where
  existsDoc : σ → JSString → σ × Bool
  create : σ → JSString → Option JSString → Timestamp → σ × Except Thrown UserDoc
  findOne : σ → JSString → σ × Option UserDoc
  findById : σ → ObjectId → σ × Option UserDoc

/-- `AuthManager.registerUser({ email, password })` written against the methods of the
model: the store is reached through `U` only. -/
def AuthManager.registerUserOn {σ : Type} (U : UserModel σ) (p : Platform) (s : σ)
    (email password : JSString) (io : RegisterIO) : σ × Except Thrown AuthResult :=
  let normalizedEmail := normalizeEmail p email
  match U.existsDoc s normalizedEmail with
  | (s1, true) => (s1, .ok emailAlreadyRegistered)
  | (s1, false) =>
    let hashedPassword := convertToHash p password io.salt
    match U.create s1 normalizedEmail hashedPassword io.tCreate with
    | (s2, .error e) => (s2, .error e)
    | (s2, .ok user) =>
      let sanitizedUser := AuthManager.sanitizeUserDoc user
      match generateJWTToken p { id := sanitizedUser.id, email := sanitizedUser.email }
          io.tSign with
      | .error e => (s2, .error e)
      | .ok token =>
        (s2, .ok
          { status := .RECORD_CREATED, message := some "Account created".toList,
            token := some token, user := some sanitizedUser })

/-- `AuthManager.authenticateUser({ email, password })` written against the methods of the
model. -/
def AuthManager.authenticateUserOn {σ : Type} (U : UserModel σ) (p : Platform) (s : σ)
    (email password : JSString) (now : Timestamp) : σ × Except Thrown AuthResult :=
  match U.findOne s (normalizeEmail p email) with
  | (s1, none) => (s1, .ok invalidCredentials)
  | (s1, some user) =>
    if !truthy user.password then (s1, .ok invalidCredentials)
    else
      match verifyHashParams p user.password password with
      | some true =>
        let sanitizedUser := AuthManager.sanitizeUserDoc user
        match generateJWTToken p { id := sanitizedUser.id, email := sanitizedUser.email }
            now with
        | .error e => (s1, .error e)
        | .ok token =>
          (s1, .ok { status := .SUCCESS_CODE, message := some "Logged in".toList,
                     token := some token, user := some sanitizedUser })
      | _ => (s1, .ok invalidCredentials)

/-- `AuthManager.getProfile(userId)` written against the methods of the model. -/
def AuthManager.getProfileOn {σ : Type} (U : UserModel σ) (s : σ) (userId : ObjectId) :
    σ × Except Thrown AuthResult :=
  match U.findById s userId with
  | (s1, none) =>
    (s1, .ok { status := .NOT_FOUND, message := some "User not found".toList, token := none,
               user := none })
  | (s1, some user) =>
    (s1, .ok { status := .SUCCESS_CODE, message := none, token := none,
               user := some (AuthManager.sanitizeUserDoc user) })

/-- The `User` model over the store: the four methods as modelled above; the three reads
leave the store as it is. -/
def storeUserModel (p : Platform) : UserModel Store :=
  { existsDoc := fun db email => (db, User.exists p db email)
    create := fun db email password now => User.create p db email password now
    findOne := fun db email => (db, User.findOne p db email)
    findById := fun db id => (db, User.findById db id) }

/-- A model with a journal of calls beside its store: each method runs the method of `U`
on the store and appends its own name to the journal. -/
def UserModel.journaled {σ : Type} (U : UserModel σ) : UserModel (σ × List UserStoreOp) :=
  { existsDoc := fun s email =>
      (((U.existsDoc s.1 email).1, s.2 ++ [.existsQuery]), (U.existsDoc s.1 email).2)
    create := fun s email password now =>
      (((U.create s.1 email password now).1, s.2 ++ [.create]),
        (U.create s.1 email password now).2)
    findOne := fun s email =>
      (((U.findOne s.1 email).1, s.2 ++ [.findOne]), (U.findOne s.1 email).2)
    findById := fun s id =>
      (((U.findById s.1 id).1, s.2 ++ [.findById]), (U.findById s.1 id).2) }

/-! ## `controller/ChatController.js` -/

/-- A JSON value of a request body, as far as the validators tell values apart: `null`, a
string, or anything else (number, boolean, array, object). -/
inductive JsonValue where
  | null
  | string (s : JSString)
  | other
  deriving DecidableEq, Repr

/-- A Joi `string()` rule with the options the schemas of the controller use; `allowEmpty`
is `.allow('', null)`. -/
structure StringRule where
  min : Option Nat
  max : Option Nat
  hex : Bool
  length : Option Nat
  allowEmpty : Bool
  required : Bool
  deriving DecidableEq, Repr

/-- A hexadecimal digit, as Joi's `hex()` and the ObjectId cast accept it. -/
def isHexDigit (c : Char) : Bool :=
  ('0' ≤ c && c ≤ '9') || ('a' ≤ c && c ≤ 'f') || ('A' ≤ c && c ≤ 'F')

/-- Whether the rule accepts the value of a key; `none` is a key that is not there. A
string without `allow('')` must not be empty; lengths are counted as JavaScript does. -/
def StringRule.accepts (r : StringRule) : Option JsonValue → Bool
  | none => !r.required
  | some .null => r.allowEmpty
  | some .other => false
  | some (.string s) =>
    if s.isEmpty then r.allowEmpty
    else
      (match r.min with | some n => decide (n ≤ jsLength s) | none => true) &&
      (match r.max with | some n => decide (jsLength s ≤ n) | none => true) &&
      (!r.hex || s.all isHexDigit) &&
      (match r.length with | some n => decide (jsLength s = n) | none => true)

/-- The string a validated value stands for in the handler: `null` and a missing key are
both falsy and both skipped by `?.`. -/
def JsonValue.toStr : Option JsonValue → Option JSString
  | some (.string s) => some s
  | _ => none

/-- A parsed request body: an object of the shape `α`, or something that is not an object
(an array). A request without a body is the empty object (`req.body || {}`). -/
inductive Body (α : Type) where
  | object (fields : α)
  | notObject
  deriving Repr

/-- The keys of the body of `POST /chats`; `unknownKeys` tells whether the object has a key
other than `title` and `message` (a Joi object rejects those). -/
structure CreateChatBody where
  title : Option JsonValue
  message : Option JsonValue
  unknownKeys : Bool
  deriving DecidableEq, Repr

/-- The keys of the body of `POST /chats/:chatId/messages`. -/
structure MessageBody where
  content : Option JsonValue
  unknownKeys : Bool
  deriving DecidableEq, Repr

/-- `createChatSchema.validate(body)`: `none` is an error, `some (title, message)` the
validated `value`. -/
def createChatSchema (body : Body CreateChatBody) : Option (Option JSString × Option JSString) :=
  match body with
  | .notObject => none
  | .object b =>
    let titleRule : StringRule :=
      { min := none, max := some 120, hex := false, length := none, allowEmpty := true,
        required := false }
    let messageRule : StringRule :=
      { min := none, max := some 4000, hex := false, length := none, allowEmpty := true,
        required := false }
    if !b.unknownKeys && titleRule.accepts b.title && messageRule.accepts b.message then
      some (JsonValue.toStr b.title, JsonValue.toStr b.message)
    else none

/-- `messageSchema.validate(body)`: `none` is an error, `some content` the validated
`value.content`. -/
def messageSchema (body : Body MessageBody) : Option JSString :=
  match body with
  | .notObject => none
  | .object b =>
    let contentRule : StringRule :=
      { min := some 1, max := some 4000, hex := false, length := none, allowEmpty := false,
        required := true }
    if !b.unknownKeys && contentRule.accepts b.content then JsonValue.toStr b.content
    else none

/-- `chatIdParamSchema.validate(req.params)`: whether the route parameter is accepted. -/
def chatIdParamSchema (chatId : JSString) : Bool :=
  let chatIdRule : StringRule :=
    { min := none, max := none, hex := true, length := some 24, allowEmpty := false,
      required := true }
  chatIdRule.accepts (some (.string chatId))

/-- The value of one hexadecimal digit. -/
def hexDigitValue (c : Char) : Nat :=
  if '0' ≤ c && c ≤ '9' then c.toNat - '0'.toNat
  else if 'a' ≤ c && c ≤ 'f' then c.toNat - 'a'.toNat + 10
  else c.toNat - 'A'.toNat + 10

/-- The cast Mongoose applies to a chat id given as a string of 24 hexadecimal digits: the
ObjectId it denotes; anything else is a `CastError`. -/
def castObjectId (s : JSString) : Option ObjectId :=
  if s.length == 24 && s.all isHexDigit then
    some (s.foldl (fun acc c => acc * 16 + hexDigitValue c) 0)
  else none

/-- What a handler hands to `res.json`: a `{ message }` object with a fixed text, the
`{ message: error.message }` object of a validation error (Joi's text is not modelled), or
a manager result. -/
inductive ResponseBody where
  | message (text : JSString)
  | validationError
  | result (r : ChatResult)
  deriving DecidableEq, Repr

/-- `res.status(status).json(body)`. -/
structure HttpResponse where
  status : HttpsCode
  body : ResponseBody
  deriving DecidableEq, Repr

/-- The handler of `POST /chats`; `decoded` is `res.locals.decoded`. -/
def ChatController.postChats (env : LLMEnv) (db : Store) (decoded : Option Claims)
    (body : Body CreateChatBody) (io : CreateChatIO) : Store × HttpResponse :=
  match decoded with
  | none => (db, { status := .UNAUTHORIZE_CODE, body := .message "Unauthorized".toList })
  | some user =>
    match createChatSchema body with
    | none => (db, { status := .BAD_REQUEST, body := .validationError })
    | some (title, message) =>
      match ChatManager.createChat env db user.id user.email title message io with
      | (db1, .ok result) => (db1, { status := result.status, body := .result result })
      | (db1, .error _) =>
        (db1, { status := .SERVER_ERROR_CODE, body := .message "Unable to create chat".toList })

/-- The handler of `POST /chats/:chatId/messages`; `chatId` is `req.params.chatId`. -/
def ChatController.postMessages (env : LLMEnv) (db : Store) (decoded : Option Claims)
    (chatId : JSString) (body : Body MessageBody) (io : ExchangeIO) : Store × HttpResponse :=
  match decoded with
  | none => (db, { status := .UNAUTHORIZE_CODE, body := .message "Unauthorized".toList })
  | some user =>
    if !chatIdParamSchema chatId then
      (db, { status := .BAD_REQUEST, body := .validationError })
    else
      match messageSchema body with
      | none => (db, { status := .BAD_REQUEST, body := .validationError })
      | some content =>
        let ran : Store × Except Thrown ChatResult :=
          match castObjectId chatId with
          | some id => ChatManager.postMessage env db user.id user.email id content false io
          | none => (db, .error .CastError)
        match ran with
        | (db1, .ok result) => (db1, { status := result.status, body := .result result })
        | (db1, .error _) =>
          (db1, { status := .SERVER_ERROR_CODE,
                  body := .message "Unable to send message".toList })

/-! ## What an exchange may change in a chat -/

/-- The write of `chat.save()` in an exchange, on one stored chat: the chat with id `chatId`
gets the new `lastMessageAt` and `updatedAt`, every other chat stays as it is. -/
def touchChat (chatId : ObjectId) (tAssistant tSave : Timestamp) (c : ChatDoc) : ChatDoc :=
  if c._id == chatId then { c with lastMessageAt := tAssistant, updatedAt := tSave } else c

/-- The chat `c'` is the chat `c` up to `lastMessageAt` and `updatedAt`, and is `c` itself
unless `c` is the chat with id `target`. -/
def ChatDoc.sameBut (target : ObjectId) (c c' : ChatDoc) : Prop :=
  c'._id = c._id ∧ c'.user = c.user ∧ c'.title = c.title ∧ c'.createdAt = c.createdAt ∧
  (c._id ≠ target → c' = c)

/-- The messages of a list go in pairs: a message with role 'user' immediately followed by
a message with role 'assistant' of the same chat and the same user, and so on to the end
(so the list has even length). -/
def alternates : List MessageDoc → Bool
  | [] => true
  | [_] => false
  | u :: a :: rest =>
    u.role == .user && a.role == .assistant && a.chat == u.chat && a.user == u.user &&
    alternates rest

/-- A call of `createChat` or `postMessage`, with its arguments and what it reads from
outside. -/
inductive Call where
  | createChat (userId : ObjectId) (email : JSString) (title message : Option JSString)
      (io : CreateChatIO)
  | postMessage (userId : ObjectId) (email : JSString) (chatId : ObjectId)
      (content : JSString) (skipOwnershipCheck : Bool) (io : ExchangeIO)

/-- Running one call against a store. -/
def Call.run (env : LLMEnv) (db : Store) : Call → Store × Except Thrown ChatResult
  | .createChat userId email title message io =>
    ChatManager.createChat env db userId email title message io
  | .postMessage userId email chatId content skipOwnershipCheck io =>
    ChatManager.postMessage env db userId email chatId content skipOwnershipCheck io

/-- The stores reachable from the empty store by calls of `createChat` and `postMessage`
that each run to completion, one after the other. A call runs to completion when its promise
settles: it resolves with a result or it rejects with what was thrown, and what it wrote
before it rejected stays in the store. -/
inductive Reachable (env : LLMEnv) : Store → Prop where
  | empty : Reachable env Store.empty
  | step (db db1 : Store) (call : Call) (res : Except Thrown ChatResult) :
      Reachable env db → call.run env db = (db1, res) → Reachable env db1

/-- The reachable stores on the way to which no call rejected: every call resolved with a
result. -/
inductive ReachableResolved (env : LLMEnv) : Store → Prop where
  | empty : ReachableResolved env Store.empty
  | step (db db1 : Store) (call : Call) (r : ChatResult) :
      ReachableResolved env db → call.run env db = (db1, .ok r) → ReachableResolved env db1

/-! ## The title of a new chat, in the words of the specification -/

/-- The title the specification gives a new chat: 'New Chat' when the title is `undefined`
or `null` (`none`), empty or made of whitespace only; otherwise the given title without its
leading and trailing whitespace. -/
def specTitle (title : Option JSString) : JSString :=
  match title with
  | none => "New Chat".toList
  | some t => if t.all isWhiteSpace then "New Chat".toList else trim t

/-! ## Concrete inputs used by the examples -/

/-- An environment without the two LLM variables. -/
def env0 : LLMEnv := { LLM_API_URL := none, LLM_API_TOKEN := none }

/-- A chat with id 0 that belongs to user 1. -/
def chatOfUser1 : ChatDoc :=
  { _id := 0, user := 1, title := "New Chat".toList, lastMessageAt := 100,
    createdAt := 100, updatedAt := 100 }

/-- A store holding that one chat and no message. -/
def storeOneChat : Store :=
  { users := [], chats := [chatOfUser1], messages := [], nextId := 3 }

/-- Clock readings 200, 300, 400 for the three writes of an exchange. -/
def io0 : ExchangeIO := { tUser := 200, entropy := 0, tAssistant := 300, tSave := 400 }

/-- The claims the example verifier returns for the token it accepts. -/
def bobClaims : Claims :=
  { id := 7, email := "bob@example.com".toList, iat := 0, exp := 36000 }

/-- A small concrete platform for the examples: ASCII lower-casing, a stand-in hash that
puts '#' before the password, a signing key, and a verifier that accepts one token and
knows one expired token. -/
def demoPlatform : Platform :=
  { toLowerCase := fun s => s.map Char.toLower
    argon2Hash := fun plain _ => some ('#' :: plain)
    argon2Verify := fun hashed plain =>
      match hashed with
      | '#' :: rest => some (rest == plain)
      | _ => none
    JWT_SECRETE_KEY := some "secret".toList
    jwtVerify := fun t =>
      if t == "good.token.sig".toList then .ok bobClaims
      else if t == "old.token.sig".toList then .error .TokenExpiredError
      else .error .JsonWebTokenError }

/-- A stand-in for Joi's `email()` rule in the examples: one '@' and no whitespace. -/
def demoIsEmail (e : JSString) : Bool :=
  decide (e.count '@' = 1) && e.all (fun c => !isWhiteSpace c)

/-- A stored user `bob@example.com` whose password is `Passw0rd!`. -/
def bobDoc : UserDoc :=
  { _id := 7, email := "bob@example.com".toList, password := "#Passw0rd!".toList,
    createdAt := 50, updatedAt := 50 }

/-- A store holding that one user. -/
def storeBob : Store := { users := [bobDoc], chats := [], messages := [], nextId := 8 }

/-- Salt 1, the user saved at 60 and the token signed at 61. -/
def registerIO0 : RegisterIO := { salt := 1, tCreate := 60, tSign := 61 }

/-- Clock readings for a chat creation followed by the exchange `io0`. -/
def createIO0 : CreateChatIO := { tDefault := 150, tCreate := 151, exchange := io0 }

/-- Clock readings 500, 600, 700 for a second exchange. -/
def io1 : ExchangeIO := { tUser := 500, entropy := 5, tAssistant := 600, tSave := 700 }

/-- The store after user 1 created a chat seeded with " Hi" in `storeOneChat`. -/
def storeAfterCreate : Store :=
  (ChatManager.createChat env0 storeOneChat 1 [] none (some " Hi".toList) createIO0).1

/-- The store after user 1 then posted "Again" to that chat (its id is 3). -/
def storeAfterPost : Store :=
  (ChatManager.postMessage env0 storeAfterCreate 1 [] 3 "Again".toList false io1).1

/-- The store `storeOneChat` after user 1 posted "hi" to the own chat. -/
def storeAfterHi : Store :=
  (ChatManager.postMessage env0 storeOneChat 1 [] 0 "hi".toList false io0).1

/-- `String.prototype.toLowerCase` on one character, for the characters of the example:
U+0130 (capital I with dot above) becomes 'i' followed by U+0307 (combining dot above), two
code units; a capital ASCII letter becomes its small letter; other characters stay. -/
def lowerDotted (c : Char) : JSString :=
  if c = Char.ofNat 0x130 then ['i', Char.ofNat 0x307] else [c.toLower]

/-- The platform `demoPlatform` with that lower-casing. -/
def dottedPlatform : Platform :=
  { demoPlatform with toLowerCase := fun s => s.flatMap lowerDotted }

/-- An address of 254 code units: a local part of 32 times U+0130 (64 bytes in UTF-8), '@',
and a domain of 221 characters in four labels and 'com'. -/
def dottedEmail : JSString :=
  List.replicate 32 (Char.ofNat 0x130) ++ '@' :: List.replicate 63 'a' ++
    '.' :: List.replicate 63 'b' ++ '.' :: List.replicate 63 'c' ++
    '.' :: List.replicate 25 'd' ++ ".com".toList

/-- The empty store after user 1 created a chat without a first message (its id is 0). -/
def storeNewChat : Store :=
  (ChatManager.createChat env0 Store.empty 1 [] none none createIO0).1

/-- That store after user 1 posted 3754 times the letter 'a' to the chat. -/
def storeUnanswered : Store :=
  (ChatManager.postMessage env0 storeNewChat 1 [] 0 (List.replicate 3754 'a') false io0).1

/-- That store after user 1 then posted "hi" to the same chat. -/
def storeUnansweredThenHi : Store :=
  (ChatManager.postMessage env0 storeUnanswered 1 [] 0 "hi".toList false io1).1

/-! # Theorems -/

/-! ## String lemmas -/

theorem jsLength_append (a b : JSString) : jsLength (a ++ b) = jsLength a + jsLength b := by
  simp [jsLength]

theorem jsLength_le_of_sublist {a b : JSString} (h : a.Sublist b) : jsLength a ≤ jsLength b :=
  (h.map utf16Size).sum_le_sum (fun _ _ => Nat.zero_le _)

theorem jsLength_trim_le (s : JSString) : jsLength (trim s) ≤ jsLength s :=
  jsLength_le_of_sublist
    (((List.rdropWhile_prefix isWhiteSpace _).sublist).trans (List.dropWhile_sublist isWhiteSpace))

theorem jsLength_replyPrefix : jsLength replyPrefix = 53 := by decide

theorem jsLength_replySuffix : jsLength replySuffix = 194 := by decide

theorem jsLength_reply (p : JSString) :
    jsLength (replyPrefix ++ p ++ replySuffix) = jsLength p + 247 := by
  rw [jsLength_append, jsLength_append, jsLength_replyPrefix, jsLength_replySuffix]; omega

theorem replySuffix_eq_concat : replySuffix = replySuffix.dropLast ++ ['.'] := by decide

theorem replyPrefix_eq_cons : replyPrefix = 'H' :: replyPrefix.tail := by decide

theorem trim_reply (p : JSString) :
    trim (replyPrefix ++ p ++ replySuffix) = replyPrefix ++ p ++ replySuffix := by
  unfold trim
  have h1 : (replyPrefix ++ p ++ replySuffix).dropWhile isWhiteSpace
      = replyPrefix ++ p ++ replySuffix := by
    rw [replyPrefix_eq_cons]
    simp only [List.cons_append]
    rw [List.dropWhile_cons_of_neg (by decide)]
  rw [h1, replySuffix_eq_concat, ← List.append_assoc, List.rdropWhile_concat]
  rw [if_neg (by decide)]

theorem reply_ne_nil (p : JSString) : replyPrefix ++ p ++ replySuffix ≠ [] := by
  rw [replyPrefix_eq_cons]; simp

/-! ## Lower-casing and trimming -/

theorem toLower_upper (n : Nat) (h1 : 65 ≤ n) (h2 : n ≤ 90) :
    (Char.ofNat n).toLower.toLower = (Char.ofNat n).toLower ∧
    isWhiteSpace (Char.ofNat n).toLower = isWhiteSpace (Char.ofNat n) := by
  interval_cases n <;> decide

theorem toLower_of_not_upper (c : Char) (h : ¬ (65 ≤ c.toNat ∧ c.toNat ≤ 90)) :
    c.toLower = c := by
  unfold Char.toLower
  simp only [ge_iff_le]
  rw [if_neg h]

theorem toLower_idem (c : Char) : c.toLower.toLower = c.toLower := by
  by_cases h : 65 ≤ c.toNat ∧ c.toNat ≤ 90
  · have := (toLower_upper c.toNat h.1 h.2).1
    rwa [Char.ofNat_toNat] at this
  · rw [toLower_of_not_upper c h, toLower_of_not_upper c h]

theorem isWhiteSpace_toLower (c : Char) : isWhiteSpace c.toLower = isWhiteSpace c := by
  by_cases h : 65 ≤ c.toNat ∧ c.toNat ≤ 90
  · have := (toLower_upper c.toNat h.1 h.2).2
    rwa [Char.ofNat_toNat] at this
  · rw [toLower_of_not_upper c h]

theorem map_trim (f : Char → Char) (hf : ∀ c, isWhiteSpace (f c) = isWhiteSpace c)
    (s : JSString) : (trim s).map f = trim (s.map f) := by
  have hcomp : isWhiteSpace ∘ f = isWhiteSpace := funext hf
  unfold trim List.rdropWhile
  rw [List.dropWhile_map, hcomp, ← List.map_reverse, List.dropWhile_map, hcomp,
    List.map_reverse]

theorem trim_trim (s : JSString) : trim (trim s) = trim s := by
  unfold trim
  have h : ((s.dropWhile isWhiteSpace).rdropWhile isWhiteSpace).dropWhile isWhiteSpace
      = (s.dropWhile isWhiteSpace).rdropWhile isWhiteSpace := by
    have hd := List.dropWhile_idempotent isWhiteSpace s
    generalize s.dropWhile isWhiteSpace = d at hd ⊢
    have hpre := List.rdropWhile_prefix isWhiteSpace d
    cases d with
    | nil => simp
    | cons a d =>
      have ha : isWhiteSpace a = false := by
        by_contra hne
        have hat : isWhiteSpace a = true := by simpa using hne
        rw [List.dropWhile_cons_of_pos hat] at hd
        have := (List.dropWhile_sublist isWhiteSpace (l := d)).length_le
        rw [hd] at this
        simp at this
      rcases List.prefix_cons_iff.mp hpre with h0 | ⟨t, ht, -⟩
      · rw [h0]; rfl
      · rw [ht, List.dropWhile_cons_of_neg (by simp [ha])]
  rw [h, List.rdropWhile_idempotent]

/-! ## Document creation -/

theorem messageCreate_ok (db : Store) (chat user : ObjectId) (role : Role)
    (content : JSString) (now : Timestamp)
    (h1 : trim content ≠ []) (h2 : jsLength (trim content) ≤ 4000) :
    Message.create db chat user role content now =
      ({ db with
          messages := db.messages ++
            [{ _id := db.nextId, chat := chat, user := user, role := role,
               content := trim content, createdAt := now, updatedAt := now }],
          nextId := db.nextId + 1 },
       .ok { _id := db.nextId, chat := chat, user := user, role := role,
             content := trim content, createdAt := now, updatedAt := now }) := by
  unfold Message.create
  have h3 : ¬ 4000 < jsLength (trim content) := by omega
  simp [h1, h3]

theorem messageCreate_error (db : Store) (chat user : ObjectId) (role : Role)
    (content : JSString) (now : Timestamp)
    (h : trim content = [] ∨ 4000 < jsLength (trim content)) :
    Message.create db chat user role content now = (db, .error .ValidationError) := by
  unfold Message.create
  rcases h with h | h <;> simp [h]

/-! ## Lookup lemmas -/

theorem findOne_eq_none_of_other_owner (db : Store) (c : ChatDoc) (B : ObjectId)
    (hnodup : (db.chats.map (·._id)).Nodup) (hc : c ∈ db.chats) (hB : B ≠ c.user) :
    Chat.findOne db c._id B = none := by
  unfold Chat.findOne
  rw [List.find?_eq_none]
  intro x hx hcond
  simp only [Bool.and_eq_true, beq_iff_eq] at hcond
  have hxc : x = c := List.inj_on_of_nodup_map hnodup hx hc hcond.1
  exact hB (by rw [← hcond.2, hxc])

theorem findById_eq_some_of_mem (db : Store) (c : ChatDoc)
    (hnodup : (db.chats.map (·._id)).Nodup) (hc : c ∈ db.chats) :
    Chat.findById db c._id = some c := by
  unfold Chat.findById
  cases hf : db.chats.find? (fun x => x._id == c._id) with
  | none =>
    rw [List.find?_eq_none] at hf
    exact absurd (by simp) (hf c hc)
  | some x =>
    have hx : x ∈ db.chats := List.mem_of_find?_eq_some hf
    have hp := List.find?_some hf
    simp only [beq_iff_eq] at hp
    rw [List.inj_on_of_nodup_map hnodup hx hc hp]

theorem findOne_eq_some_of_mem (db : Store) (c : ChatDoc)
    (hnodup : (db.chats.map (·._id)).Nodup) (hc : c ∈ db.chats) :
    Chat.findOne db c._id c.user = some c := by
  unfold Chat.findOne
  cases hf : db.chats.find? (fun x => x._id == c._id && x.user == c.user) with
  | none =>
    rw [List.find?_eq_none] at hf
    exact absurd (by simp) (hf c hc)
  | some x =>
    have hx : x ∈ db.chats := List.mem_of_find?_eq_some hf
    have hp := List.find?_some hf
    simp only [Bool.and_eq_true, beq_iff_eq] at hp
    rw [List.inj_on_of_nodup_map hnodup hx hc hp.1]

theorem any_id_of_mem (db : Store) (c : ChatDoc) (hc : c ∈ db.chats) :
    db.chats.any (fun x => x._id == c._id) = true := by
  rw [List.any_eq_true]; exact ⟨c, hc, by simp⟩

theorem find_id_map (l : List ChatDoc) (id : ObjectId) (f : ChatDoc → ChatDoc)
    (hf : ∀ x, (f x)._id = x._id) :
    (l.map f).find? (fun x => x._id == id) = (l.find? (fun x => x._id == id)).map f := by
  induction l with
  | nil => rfl
  | cons a l ih =>
    simp only [List.map_cons, List.find?_cons, hf]
    cases a._id == id <;> simp [ih]

/-! ## The exchange -/

theorem executeExchange_ok (env : LLMEnv) (db : Store) (chat : ChatDoc) (userId : ObjectId)
    (email content : JSString) (io : ExchangeIO)
    (htrim : trim content ≠ []) (hlen : jsLength content ≤ 3753)
    (hstored : db.chats.any (fun c => c._id == chat._id) = true) :
    ∃ db1 saved,
      ChatManager.executeExchange env db chat userId email content io =
        (db1, .ok
          { chat := saved,
            messages :=
              [{ id := db.nextId, chat := chat._id, role := .user, content := trim content,
                 createdAt := io.tUser },
               { id := db.nextId + 1, chat := chat._id, role := .assistant,
                 content := replyPrefix ++ content ++ replySuffix,
                 createdAt := io.tAssistant }],
            metadata := { delayMs := randomInt 10 21 io.entropy * 1000 } }) ∧
      db1.users = db.users ∧
      db1.messages = db.messages ++
        [{ _id := db.nextId, chat := chat._id, user := userId, role := .user,
           content := trim content, createdAt := io.tUser, updatedAt := io.tUser },
         { _id := db.nextId + 1, chat := chat._id, user := userId, role := .assistant,
           content := replyPrefix ++ content ++ replySuffix,
           createdAt := io.tAssistant, updatedAt := io.tAssistant }] ∧
      db1.nextId = db.nextId + 2 ∧
      db1.chats =
        (if chat.lastMessageAt = io.tAssistant then db.chats
         else db.chats.map (fun c =>
           if c._id == chat._id then
             { c with lastMessageAt := io.tAssistant, updatedAt := io.tSave }
           else c)) ∧
      saved =
        { chat with
            lastMessageAt := io.tAssistant,
            updatedAt := if chat.lastMessageAt = io.tAssistant then chat.updatedAt
                         else io.tSave } := by
  have hu : jsLength (trim content) ≤ 4000 := le_trans (jsLength_trim_le content) (by omega)
  have ha : jsLength (trim (replyPrefix ++ content ++ replySuffix)) ≤ 4000 := by
    rw [trim_reply, jsLength_reply]; omega
  have hane : trim (replyPrefix ++ content ++ replySuffix) ≠ [] := by
    rw [trim_reply]; exact reply_ne_nil content
  unfold ChatManager.executeExchange
  rw [messageCreate_ok db chat._id userId .user content io.tUser htrim hu]
  simp only [LLMService.generateReply]
  rw [messageCreate_ok _ chat._id userId .assistant _ io.tAssistant hane ha]
  have tr : trim (replyPrefix ++ (content ++ replySuffix))
      = replyPrefix ++ (content ++ replySuffix) := by simpa using trim_reply content
  by_cases hmod : chat.lastMessageAt = io.tAssistant
  · simp [Chat.save, hmod, ChatManager.serializeMessage, tr]
    exact ⟨_, _, ⟨rfl, rfl⟩, rfl, rfl, rfl, rfl, rfl⟩
  · simp [Chat.save, hmod, hstored, ChatManager.serializeMessage, tr]
    exact ⟨_, _, ⟨rfl, rfl⟩, rfl, rfl, rfl, rfl, rfl⟩

/-! ## C1 -/

/-- C1 (as stated, refuted): with `skipOwnershipCheck = true` user 2, who does not own the
chat of user 1, gets a successful exchange instead of the NOT_FOUND result, and two
messages written by user 2 are stored in that chat. -/
theorem postMessage_skipOwnershipCheck_not_notFound :
    chatOfUser1 ∈ storeOneChat.chats ∧ chatOfUser1.user = 1 ∧ (2 : ObjectId) ≠ 1 ∧
    ((ChatManager.postMessage env0 storeOneChat 2 [] chatOfUser1._id "hi".toList true
        io0).2.toOption.map (·.status)) = some .SUCCESS_CODE ∧
    ((ChatManager.postMessage env0 storeOneChat 2 [] chatOfUser1._id "hi".toList true
        io0).1.messages.map (fun m => (m.chat, m.user, m.role)))
      = [(0, 2, .user), (0, 2, .assistant)] := by
  refine ⟨by decide, rfl, by decide, by rfl, by rfl⟩

/-- C1 (amended): in a store whose chat ids are unique, for a chat `c` and a user id `B`
other than its owner, `postMessage` with `skipOwnershipCheck` false (the default) returns
the NOT_FOUND result 'Chat not found' and leaves the store as it was, for every email,
content and clock; `getChatMessages` for `B` and `c` returns the same NOT_FOUND result. -/
theorem postMessage_getChatMessages_other_user_notFound (env : LLMEnv) (db : Store)
    (c : ChatDoc) (B : ObjectId) (email content : JSString) (io : ExchangeIO)
    (hnodup : (db.chats.map (·._id)).Nodup) (hc : c ∈ db.chats) (hB : B ≠ c.user) :
    ChatManager.postMessage env db B email c._id content false io = (db, .ok chatNotFound) ∧
    ChatManager.getChatMessages db B c._id = chatNotFound ∧
    chatNotFound.status = .NOT_FOUND ∧ chatNotFound.message = some "Chat not found".toList := by
  have h := findOne_eq_none_of_other_owner db c B hnodup hc hB
  refine ⟨?_, ?_, rfl, rfl⟩
  · simp [ChatManager.postMessage, ChatManager.findOwnedChat, h]
  · simp [ChatManager.getChatMessages, ChatManager.findOwnedChat, h]

/-- C1 (amended), at a concrete store: user 2 asks for the chat of user 1. -/
theorem postMessage_getChatMessages_other_user_notFound_witness :
    ChatManager.postMessage env0 storeOneChat 2 [] chatOfUser1._id "hi".toList false io0
      = (storeOneChat, .ok chatNotFound) ∧
    ChatManager.getChatMessages storeOneChat 2 chatOfUser1._id = chatNotFound ∧
    chatNotFound.status = .NOT_FOUND ∧ chatNotFound.message = some "Chat not found".toList :=
  postMessage_getChatMessages_other_user_notFound env0 storeOneChat chatOfUser1 2 []
    "hi".toList io0 (by decide) (by decide) (by decide)

/-! ## C2 -/

/-- C2 (as stated, refuted): the three-character content " hi" is stored as "hi", not as
given, and the one-character content " " is rejected by the message schema (the trimmed
content is empty), so nothing is stored and `postMessage` does not succeed. -/
theorem postMessage_content_not_stored_verbatim :
    chatOfUser1 ∈ storeOneChat.chats ∧ jsLength " hi".toList = 3 ∧
    ((ChatManager.postMessage env0 storeOneChat chatOfUser1.user [] chatOfUser1._id
        " hi".toList false io0).1.messages.map (fun m => (m.role, m.content))).head?
      = some (Role.user, "hi".toList) ∧
    "hi".toList ≠ " hi".toList ∧
    jsLength " ".toList = 1 ∧
    ChatManager.postMessage env0 storeOneChat chatOfUser1.user [] chatOfUser1._id
        " ".toList false io0 = (storeOneChat, .error .ValidationError) := by
  refine ⟨by decide, by decide, by rfl, by decide, by decide, by rfl⟩

/-- C2 (amended): for a chat `c` of a store with unique chat ids, called by the owner of `c`,
and every content whose trimmed form is not empty and whose length is at most 3753 (the
generated reply is 247 characters longer and has to fit the 4000 of the message schema),
`postMessage` succeeds with SUCCESS_CODE and appends exactly two messages of that chat to
the message collection: first the message with role 'user' whose content is the given
content trimmed, then the message with role 'assistant' whose content is the generated
reply; afterwards the stored chat's `lastMessageAt` is the `createdAt` of the assistant
message, and the returned `messages` array is these two messages, serialized, in that
order. -/
theorem postMessage_persists_exchange (env : LLMEnv) (db : Store) (c : ChatDoc)
    (email content : JSString) (io : ExchangeIO)
    (hnodup : (db.chats.map (·._id)).Nodup) (hc : c ∈ db.chats)
    (htrim : trim content ≠ []) (hlen : jsLength content ≤ 3753) :
    ∃ db1 r,
      ChatManager.postMessage env db c.user email c._id content false io = (db1, .ok r) ∧
      r.status = .SUCCESS_CODE ∧
      db1.messages = db.messages ++
        [{ _id := db.nextId, chat := c._id, user := c.user, role := .user,
           content := trim content, createdAt := io.tUser, updatedAt := io.tUser },
         { _id := db.nextId + 1, chat := c._id, user := c.user, role := .assistant,
           content := (LLMService.generateReply env content c._id email io.entropy).message,
           createdAt := io.tAssistant, updatedAt := io.tAssistant }] ∧
      (Chat.findById db1 c._id).map (·.lastMessageAt) = some io.tAssistant ∧
      r.messages = some
        [{ id := db.nextId, chat := c._id, role := .user, content := trim content,
           createdAt := io.tUser },
         { id := db.nextId + 1, chat := c._id, role := .assistant,
           content := (LLMService.generateReply env content c._id email io.entropy).message,
           createdAt := io.tAssistant }] := by
  obtain ⟨db1, saved, hex, -, hmsgs, -, hchats, -⟩ :=
    executeExchange_ok env db c c.user email content io htrim hlen (any_id_of_mem db c hc)
  refine ⟨db1,
    { status := .SUCCESS_CODE, message := some "Reply generated".toList,
      chat := some (ChatManager.serializeChat saved), chats := none,
      messages := some _,
      metadata := some { delayMs := randomInt 10 21 io.entropy * 1000 } },
    ?_, rfl, hmsgs, ?_, rfl⟩
  · simp only [ChatManager.postMessage, ChatManager.findOwnedChat, Bool.false_eq_true,
      if_false, findOne_eq_some_of_mem db c hnodup hc, hex]
    rfl
  · have hfind := findById_eq_some_of_mem db c hnodup hc
    unfold Chat.findById at hfind ⊢
    rw [hchats]
    by_cases hmod : c.lastMessageAt = io.tAssistant
    · simp [hmod, hfind]
    · rw [if_neg hmod, find_id_map _ _ _ (by intro x; split <;> rfl), hfind]
      simp


/-- C2 (amended), at a concrete store: the owner posts "hi". -/
theorem postMessage_persists_exchange_witness :
    chatOfUser1 ∈ storeOneChat.chats ∧ trim "hi".toList ≠ [] ∧ jsLength "hi".toList ≤ 3753 ∧
    ∃ db1 r,
      ChatManager.postMessage env0 storeOneChat chatOfUser1.user [] chatOfUser1._id
        "hi".toList false io0 = (db1, .ok r) ∧
      r.status = .SUCCESS_CODE ∧
      (Chat.findById db1 chatOfUser1._id).map (·.lastMessageAt) = some io0.tAssistant :=
  ⟨by decide, by decide, by decide,
   (postMessage_persists_exchange env0 storeOneChat chatOfUser1 [] "hi".toList io0
      (by decide) (by decide) (by decide) (by decide)).imp
    (fun _ h => h.imp (fun _ h => ⟨h.1, h.2.1, h.2.2.2.1⟩))⟩

/-! ## Authentication lemmas -/

theorem demoPlatform_caseLaws : CaseLaws demoPlatform := by
  refine ⟨fun s => ?_, fun s => ?_⟩
  · show (s.map Char.toLower).map Char.toLower = s.map Char.toLower
    rw [List.map_map]
    exact List.map_congr_left (fun c _ => toLower_idem c)
  · exact map_trim Char.toLower isWhiteSpace_toLower s

theorem emailSetters_normalizeEmail (p : Platform) (hp : CaseLaws p) (e : JSString) :
    emailSetters p (normalizeEmail p e) = normalizeEmail p e := by
  unfold emailSetters normalizeEmail
  rw [trim_trim, hp.2, hp.1]

/-! ## C3 -/

/-- C3: for a platform whose lower-casing obeys `CaseLaws`, every store and every two emails
`e1`, `e2` that are equal after lower-casing and trimming: if a user with email
`normalizeEmail e1` is stored, `registerUser` with email `e2` and any password returns the
CONFLICT result 'Email already registered', with no token and no user, and the store (so
the set of stored users) is unchanged. -/
theorem registerUser_existing_email_conflict (p : Platform) (hp : CaseLaws p) (db : Store)
    (e1 e2 password : JSString) (io : RegisterIO)
    (heq : normalizeEmail p e1 = normalizeEmail p e2)
    (hstored : ∃ u ∈ db.users, u.email = normalizeEmail p e1) :
    AuthManager.registerUser p db e2 password io = (db, .ok emailAlreadyRegistered) ∧
    emailAlreadyRegistered.status = .CONFLICT ∧
    emailAlreadyRegistered.message = some "Email already registered".toList ∧
    emailAlreadyRegistered.token = none ∧ emailAlreadyRegistered.user = none := by
  refine ⟨?_, rfl, rfl, rfl, rfl⟩
  obtain ⟨u, hu, hue⟩ := hstored
  have hex : User.exists p db (normalizeEmail p e2) = true := by
    unfold User.exists
    rw [List.any_eq_true]
    exact ⟨u, hu, by rw [emailSetters_normalizeEmail p hp, ← heq, hue]; simp⟩
  unfold AuthManager.registerUser
  simp only [hex, if_true]

/-- C3, at a concrete store: `bob@example.com` is stored and ` Bob@Example.COM ` registers. -/
theorem registerUser_existing_email_conflict_witness :
    normalizeEmail demoPlatform "bob@example.com".toList
      = normalizeEmail demoPlatform " Bob@Example.COM ".toList ∧
    (∃ u ∈ storeBob.users, u.email = normalizeEmail demoPlatform "bob@example.com".toList) ∧
    AuthManager.registerUser demoPlatform storeBob " Bob@Example.COM ".toList
      "Passw0rd!".toList registerIO0 = (storeBob, .ok emailAlreadyRegistered) :=
  ⟨by decide, ⟨bobDoc, by decide, by decide⟩,
   (registerUser_existing_email_conflict demoPlatform demoPlatform_caseLaws storeBob
      "bob@example.com".toList " Bob@Example.COM ".toList "Passw0rd!".toList registerIO0
      (by decide) ⟨bobDoc, by decide, by decide⟩).1⟩

/-! ## C4 -/

theorem toLower_ne_dotted (c : Char) (h : c ≠ Char.ofNat 0x130) :
    c.toLower ≠ Char.ofNat 0x130 := by
  by_cases hu : 65 ≤ c.toNat ∧ c.toNat ≤ 90
  · have key : ∀ n, 65 ≤ n → n ≤ 90 → (Char.ofNat n).toLower ≠ Char.ofNat 0x130 := by
      intro n h1 h2
      interval_cases n <;> decide
    have := key c.toNat hu.1 hu.2
    rwa [Char.ofNat_toNat] at this
  · rw [toLower_of_not_upper c hu]; exact h

theorem lowerDotted_of_ne (c : Char) (h : c ≠ Char.ofNat 0x130) :
    lowerDotted c = [c.toLower] := by
  unfold lowerDotted; rw [if_neg h]

theorem lowerDotted_idem (c : Char) :
    (lowerDotted c).flatMap lowerDotted = lowerDotted c := by
  by_cases h : c = Char.ofNat 0x130
  · rw [h]; decide
  · rw [lowerDotted_of_ne c h, List.flatMap_singleton,
      lowerDotted_of_ne _ (toLower_ne_dotted c h), toLower_idem]

theorem flatMap_lowerDotted_idem (s : JSString) :
    (s.flatMap lowerDotted).flatMap lowerDotted = s.flatMap lowerDotted := by
  induction s with
  | nil => rfl
  | cons c t ih =>
    rw [List.flatMap_cons, List.flatMap_append, lowerDotted_idem, ih]

theorem lowerDotted_whiteSpace (c : Char) (h : isWhiteSpace c = true) :
    ∃ d, lowerDotted c = [d] ∧ isWhiteSpace d = true := by
  have hne : c ≠ Char.ofNat 0x130 := by
    intro h0; rw [h0] at h; exact absurd h (by decide)
  exact ⟨c.toLower, lowerDotted_of_ne c hne, by rw [isWhiteSpace_toLower]; exact h⟩

theorem lowerDotted_head (c : Char) (h : isWhiteSpace c = false) :
    ∃ a m, lowerDotted c = a :: m ∧ isWhiteSpace a = false := by
  by_cases h0 : c = Char.ofNat 0x130
  · exact ⟨'i', [Char.ofNat 0x307], by rw [h0]; rfl, by decide⟩
  · exact ⟨c.toLower, [], lowerDotted_of_ne c h0, by rw [isWhiteSpace_toLower]; exact h⟩

theorem lowerDotted_last (c : Char) (h : isWhiteSpace c = false) :
    ∃ m b, lowerDotted c = m ++ [b] ∧ isWhiteSpace b = false := by
  by_cases h0 : c = Char.ofNat 0x130
  · exact ⟨['i'], Char.ofNat 0x307, by rw [h0]; rfl, by decide⟩
  · exact ⟨[], c.toLower, lowerDotted_of_ne c h0, by rw [isWhiteSpace_toLower]; exact h⟩

theorem dropWhile_flatMap_lowerDotted (s : JSString) :
    (s.flatMap lowerDotted).dropWhile isWhiteSpace
      = (s.dropWhile isWhiteSpace).flatMap lowerDotted := by
  induction s with
  | nil => rfl
  | cons c t ih =>
    cases hc : isWhiteSpace c with
    | true =>
      obtain ⟨d, hd, hdw⟩ := lowerDotted_whiteSpace c hc
      rw [List.flatMap_cons, hd, List.singleton_append, List.dropWhile_cons_of_pos hdw,
        List.dropWhile_cons_of_pos hc, ih]
    | false =>
      obtain ⟨a, m, hd, haw⟩ := lowerDotted_head c hc
      rw [List.dropWhile_cons_of_neg (by simp [hc]), List.flatMap_cons, hd, List.cons_append,
        List.dropWhile_cons_of_neg (by simp [haw])]

theorem rdropWhile_flatMap_lowerDotted (s : JSString) :
    (s.flatMap lowerDotted).rdropWhile isWhiteSpace
      = (s.rdropWhile isWhiteSpace).flatMap lowerDotted := by
  induction s using List.reverseRecOn with
  | nil => rfl
  | append_singleton t c ih =>
    cases hc : isWhiteSpace c with
    | true =>
      obtain ⟨d, hd, hdw⟩ := lowerDotted_whiteSpace c hc
      rw [List.flatMap_append, List.flatMap_singleton, hd,
        List.rdropWhile_concat_pos _ _ _ hdw, List.rdropWhile_concat_pos _ _ _ hc, ih]
    | false =>
      obtain ⟨m, b, hd, hbw⟩ := lowerDotted_last c hc
      rw [List.rdropWhile_concat_neg _ _ _ (by simp [hc]), List.flatMap_append,
        List.flatMap_singleton, hd, ← List.append_assoc,
        List.rdropWhile_concat_neg _ _ _ (by simp [hbw])]

theorem dottedPlatform_caseLaws : CaseLaws dottedPlatform := by
  refine ⟨fun s => flatMap_lowerDotted_idem s, fun s => ?_⟩
  show (trim s).flatMap lowerDotted = trim (s.flatMap lowerDotted)
  unfold trim
  rw [dropWhile_flatMap_lowerDotted, rdropWhile_flatMap_lowerDotted]

/-- C4 (as stated, refuted): the address of 32 times U+0130, '@' and a domain of 221
characters has 254 code units and the credential schema accepts it with the password
`Passw0rd!`; no stored user has its normalized form and the hash verifies. Lower-casing
turns each U+0130 into two code units, so the normalized email has 286, the user schema
rejects it (`maxlength: 254`) and `registerUser` throws the validation error instead of
succeeding; the store is left as it was. The lower-casing used obeys the case laws. -/
theorem registerUser_lengthened_email_rejected :
    CaseLaws dottedPlatform ∧
    credentialSchema demoIsEmail dottedEmail "Passw0rd!".toList = true ∧
    jsLength dottedEmail = 254 ∧
    jsLength (normalizeEmail dottedPlatform dottedEmail) = 286 ∧
    User.exists dottedPlatform storeBob (normalizeEmail dottedPlatform dottedEmail) = false ∧
    dottedPlatform.argon2Hash "Passw0rd!".toList registerIO0.salt
      = some "#Passw0rd!".toList ∧
    dottedPlatform.argon2Verify "#Passw0rd!".toList "Passw0rd!".toList = some true ∧
    AuthManager.registerUser dottedPlatform storeBob dottedEmail "Passw0rd!".toList
        registerIO0
      = (storeBob, .error .ValidationError) := by
  refine ⟨dottedPlatform_caseLaws, by decide, by decide, by decide, by decide, by rfl,
    by rfl, by rfl⟩

/-- C4 (amended): for an email and a password the credential schema accepts (email of 5 to
254 characters in email form, password of 6 to 128 characters), when the normalized email
(lower-cased and trimmed) still has 5 to 254 characters, no stored user has the normalized
email, the signing key is configured and the hash primitive returns a non-empty hash that
verifies the password it was made from: `registerUser` succeeds with RECORD_CREATED, and a
following `authenticateUser` with the same email and password succeeds with SUCCESS_CODE
and returns a token whose claims carry the id and the (normalized) email of the user
`registerUser` returned. The proof needs the bounds on the normalized email only, not those
of the credential schema on the email as typed. -/
theorem register_then_authenticate (p : Platform) (hp : CaseLaws p)
    (isEmail : JSString → Bool) (db : Store) (email password hashed key : JSString)
    (io : RegisterIO) (tLogin : Timestamp)
    (_hcred : credentialSchema isEmail email password = true)
    (hmin : 5 ≤ jsLength (normalizeEmail p email))
    (hmax : jsLength (normalizeEmail p email) ≤ 254)
    (hfree : ∀ u ∈ db.users, u.email ≠ normalizeEmail p email)
    (hkey : p.JWT_SECRETE_KEY = some key) (hkeyne : key ≠ [])
    (hhash : p.argon2Hash password io.salt = some hashed) (hhashne : hashed ≠ [])
    (hverify : p.argon2Verify hashed password = some true) :
    ∃ db1 r1 r2 u tok,
      AuthManager.registerUser p db email password io = (db1, .ok r1) ∧
      r1.status = .RECORD_CREATED ∧ r1.user = some u ∧
      AuthManager.authenticateUser p db1 email password tLogin = .ok r2 ∧
      r2.status = .SUCCESS_CODE ∧ r2.token = some tok ∧
      tok.claims.id = u.id ∧ tok.claims.email = u.email ∧
      u.email = normalizeEmail p email := by
  have hset := emailSetters_normalizeEmail p hp email
  have hnoMatch : ∀ u ∈ db.users, (u.email == normalizeEmail p email) = false := by
    intro u hu; simpa using hfree u hu
  have hex : User.exists p db (normalizeEmail p email) = false := by
    unfold User.exists
    rw [hset, List.any_eq_false]
    intro u hu; simpa using hfree u hu
  have hne : normalizeEmail p email ≠ [] := by
    intro h0
    have hz : jsLength ([] : JSString) = 0 := rfl
    rw [h0, hz] at hmin; omega
  have hcreate : User.create p db (normalizeEmail p email) (some hashed) io.tCreate =
      ({ db with
          users := db.users ++ [{ _id := db.nextId, email := normalizeEmail p email,
                                  password := hashed, createdAt := io.tCreate,
                                  updatedAt := io.tCreate }],
          nextId := db.nextId + 1 },
       .ok { _id := db.nextId, email := normalizeEmail p email, password := hashed,
             createdAt := io.tCreate, updatedAt := io.tCreate }) := by
    unfold User.create
    have hany : db.users.any (fun u => u.email == normalizeEmail p email) = false := by
      rw [List.any_eq_false]; intro u hu; simpa using hfree u hu
    have h1 : ¬ jsLength (normalizeEmail p email) < 5 := by omega
    have h2 : ¬ 254 < jsLength (normalizeEmail p email) := by omega
    simp [hset, hne, hhashne, hany, h1, h2]
  have hsign : ∀ (payload : TokenPayload) (t : Timestamp),
      generateJWTToken p payload t =
        .ok { claims := { id := payload.id, email := payload.email, iat := t / 1000,
                          exp := t / 1000 + 36000 }, key := key } := by
    intro payload t
    unfold generateJWTToken
    simp [hkey, truthy, hkeyne]
  have hfind : User.findOne p
      { db with
          users := db.users ++ [{ _id := db.nextId, email := normalizeEmail p email,
                                  password := hashed, createdAt := io.tCreate,
                                  updatedAt := io.tCreate }],
          nextId := db.nextId + 1 } (normalizeEmail p email)
      = some { _id := db.nextId, email := normalizeEmail p email, password := hashed,
               createdAt := io.tCreate, updatedAt := io.tCreate } := by
    unfold User.findOne
    rw [hset]
    simp only [List.find?_append]
    have : db.users.find? (fun u => u.email == normalizeEmail p email) = none := by
      rw [List.find?_eq_none]; intro u hu; simpa using hfree u hu
    rw [this]
    simp
  have hreg : AuthManager.registerUser p db email password io =
      ({ db with
          users := db.users ++ [{ _id := db.nextId, email := normalizeEmail p email,
                                  password := hashed, createdAt := io.tCreate,
                                  updatedAt := io.tCreate }],
          nextId := db.nextId + 1 },
       .ok { status := .RECORD_CREATED, message := some "Account created".toList,
             token := some { claims := { id := db.nextId, email := normalizeEmail p email,
                                         iat := io.tSign / 1000,
                                         exp := io.tSign / 1000 + 36000 }, key := key },
             user := some { id := db.nextId, email := normalizeEmail p email,
                            createdAt := io.tCreate, updatedAt := io.tCreate } }) := by
    unfold AuthManager.registerUser
    simp only [hex, Bool.false_eq_true, if_false, convertToHash, hhash, hcreate, hsign,
      AuthManager.sanitizeUserDoc]
  have hauth : AuthManager.authenticateUser p
      { db with
          users := db.users ++ [{ _id := db.nextId, email := normalizeEmail p email,
                                  password := hashed, createdAt := io.tCreate,
                                  updatedAt := io.tCreate }],
          nextId := db.nextId + 1 } email password tLogin =
      .ok { status := .SUCCESS_CODE, message := some "Logged in".toList,
            token := some { claims := { id := db.nextId, email := normalizeEmail p email,
                                        iat := tLogin / 1000,
                                        exp := tLogin / 1000 + 36000 }, key := key },
            user := some { id := db.nextId, email := normalizeEmail p email,
                           createdAt := io.tCreate, updatedAt := io.tCreate } } := by
    unfold AuthManager.authenticateUser
    rw [hfind]
    simp [verifyHashParams, hverify, hsign, truthy, hhashne, AuthManager.sanitizeUserDoc]
  exact ⟨_, _, _, _, _, hreg, rfl, rfl, hauth, rfl, rfl, rfl, rfl, rfl⟩


/-- C4 (amended), at a concrete input: `Alice@Example.com` registers in the store that holds
bob and logs in. -/
theorem register_then_authenticate_witness :
    credentialSchema demoIsEmail "Alice@Example.com".toList "Passw0rd!".toList = true ∧
    ∃ db1 r1 r2 u tok,
      AuthManager.registerUser demoPlatform storeBob "Alice@Example.com".toList
        "Passw0rd!".toList registerIO0 = (db1, .ok r1) ∧
      r1.status = .RECORD_CREATED ∧ r1.user = some u ∧
      AuthManager.authenticateUser demoPlatform db1 "Alice@Example.com".toList
        "Passw0rd!".toList 99000 = .ok r2 ∧
      r2.status = .SUCCESS_CODE ∧ r2.token = some tok ∧
      tok.claims.id = u.id ∧ tok.claims.email = u.email ∧
      u.email = normalizeEmail demoPlatform "Alice@Example.com".toList :=
  ⟨by decide,
   register_then_authenticate demoPlatform demoPlatform_caseLaws demoIsEmail storeBob
     "Alice@Example.com".toList "Passw0rd!".toList "#Passw0rd!".toList "secret".toList
     registerIO0 99000 (by decide) (by decide) (by decide) (by decide) rfl (by decide) rfl
     (by decide) rfl⟩

/-! ## C5 -/

/-- C5: in every store, `authenticateUser` returns one and the same result, status
UNAUTHORIZE_CODE with message 'Invalid credentials' and neither token nor user, when the
email resolves to no user and when it resolves to a user whose stored hash the password
does not verify against (`verifyHashParams` returns `false` or `undefined`). -/
theorem authenticateUser_failures_indistinguishable (p : Platform) (db : Store)
    (emailA passwordA emailB passwordB : JSString) (tA tB : Timestamp) (u : UserDoc)
    (hnone : User.findOne p db (normalizeEmail p emailA) = none)
    (hsome : User.findOne p db (normalizeEmail p emailB) = some u)
    (hbad : verifyHashParams p u.password passwordB ≠ some true) :
    AuthManager.authenticateUser p db emailA passwordA tA = .ok invalidCredentials ∧
    AuthManager.authenticateUser p db emailB passwordB tB = .ok invalidCredentials ∧
    invalidCredentials.status = .UNAUTHORIZE_CODE ∧
    invalidCredentials.message = some "Invalid credentials".toList ∧
    invalidCredentials.token = none ∧ invalidCredentials.user = none := by
  refine ⟨?_, ?_, rfl, rfl, rfl, rfl⟩
  · unfold AuthManager.authenticateUser
    rw [hnone]
  · unfold AuthManager.authenticateUser
    rw [hsome]
    cases hv : verifyHashParams p u.password passwordB with
    | none => simp only [hv, ite_self]
    | some b =>
      cases b with
      | true => exact absurd hv hbad
      | false => simp only [hv, ite_self]

/-- C5, at a concrete store: an unknown email and a wrong password for bob. -/
theorem authenticateUser_failures_indistinguishable_witness :
    AuthManager.authenticateUser demoPlatform storeBob "alice@example.com".toList
        "Passw0rd!".toList 99000 = .ok invalidCredentials ∧
    AuthManager.authenticateUser demoPlatform storeBob "bob@example.com".toList
        "wrong".toList 99000 = .ok invalidCredentials :=
  have h := authenticateUser_failures_indistinguishable demoPlatform storeBob
    "alice@example.com".toList "Passw0rd!".toList "bob@example.com".toList "wrong".toList
    99000 99000 bobDoc (by decide) (by decide) (by decide)
  ⟨h.1, h.2.1⟩


/-! ## Chat creation -/

theorem titleArg_fits (title : Option JSString)
    (htitle : ∀ t, title = some t → jsLength (trim t) ≤ 120) :
    jsLength (trim (titleOrDefault title)) ≤ 120 := by
  unfold titleOrDefault
  have hdef : jsLength (trim "New Chat".toList) ≤ 120 := by decide
  cases title with
  | none => exact hdef
  | some t =>
    simp only [Option.map_some']
    split
    · rw [trim_trim]; exact htitle t rfl
    · exact hdef

theorem chatCreate_ok (db : Store) (user : ObjectId) (title : JSString)
    (tDefault now : Timestamp) (h : jsLength (trim title) ≤ 120) :
    Chat.create db user title tDefault now =
      ({ db with
          chats := db.chats ++
            [{ _id := db.nextId, user := user, title := trim title,
               lastMessageAt := tDefault, createdAt := now, updatedAt := now }],
          nextId := db.nextId + 1 },
       .ok { _id := db.nextId, user := user, title := trim title,
             lastMessageAt := tDefault, createdAt := now, updatedAt := now }) := by
  unfold Chat.create
  have h3 : ¬ 120 < jsLength (trim title) := by omega
  simp [h3]

theorem filter_chat_fresh (db : Store) (hwf : db.WF) :
    db.messages.filter (fun m => m.chat == db.nextId) = [] := by
  rw [List.filter_eq_nil_iff]
  intro m hm
  have hlt : m.chat < db.nextId := hwf.refs_lt m hm
  simpa using Nat.ne_of_lt hlt

theorem map_fresh_id (db : Store) (hwf : db.WF) (f : ChatDoc → ChatDoc) :
    db.chats.map (fun c => if c._id == db.nextId then f c else c) = db.chats := by
  conv_rhs => rw [← List.map_id db.chats]
  apply List.map_congr_left
  intro c hc
  have hlt : c._id < db.nextId := hwf.chats_lt c hc
  have hne : (c._id == db.nextId) = false := by simpa using Nat.ne_of_lt hlt
  simp [hne]

theorem truthy_of_trim_ne_nil (m : JSString) (h : trim m ≠ []) : truthy m = true := by
  cases m with
  | nil => exact absurd rfl h
  | cons a m => rfl

theorem createChat_seeded (env : LLMEnv) (db : Store) (hwf : db.WF) (userId : ObjectId)
    (email : JSString) (title : Option JSString) (m : JSString) (io : CreateChatIO)
    (hfit : jsLength (trim (titleOrDefault title)) ≤ 120)
    (hm : trim m ≠ []) (hlen : jsLength m ≤ 3753) :
    ∃ db1 c,
      ChatManager.createChat env db userId email title (some m) io =
        (db1, .ok
          { status := .RECORD_CREATED, message := some "Chat created".toList,
            chat := some (ChatManager.serializeChat c), chats := none,
            messages := some
              [{ id := db.nextId + 1, chat := db.nextId, role := .user, content := trim m,
                 createdAt := io.exchange.tUser },
               { id := db.nextId + 2, chat := db.nextId, role := .assistant,
                 content := replyPrefix ++ m ++ replySuffix,
                 createdAt := io.exchange.tAssistant }],
            metadata := some { delayMs := randomInt 10 21 io.exchange.entropy * 1000 } }) ∧
      db1.users = db.users ∧
      db1.chats = db.chats ++ [c] ∧ c._id = db.nextId ∧ c.user = userId ∧
      c.lastMessageAt = io.exchange.tAssistant ∧
      db1.messages = db.messages ++
        [{ _id := db.nextId + 1, chat := db.nextId, user := userId, role := .user,
           content := trim m, createdAt := io.exchange.tUser,
           updatedAt := io.exchange.tUser },
         { _id := db.nextId + 2, chat := db.nextId, user := userId, role := .assistant,
           content := replyPrefix ++ m ++ replySuffix,
           createdAt := io.exchange.tAssistant, updatedAt := io.exchange.tAssistant }] ∧
      db1.nextId = db.nextId + 3 := by
  generalize htA : titleOrDefault title = titleArg at hfit
  have hcreate := chatCreate_ok db userId titleArg io.tDefault io.tCreate hfit
  obtain ⟨c0, hc0⟩ : ∃ c0 : ChatDoc, c0 =
      { _id := db.nextId, user := userId, title := trim titleArg,
        lastMessageAt := io.tDefault, createdAt := io.tCreate, updatedAt := io.tCreate } :=
    ⟨_, rfl⟩
  rw [← hc0] at hcreate
  have hc0id : c0._id = db.nextId := by rw [hc0]
  have hc0user : c0.user = userId := by rw [hc0]
  obtain ⟨db1, saved, hex, husers, hmsgs, hnext, hchats, hsaved⟩ :=
    executeExchange_ok env { db with chats := db.chats ++ [c0], nextId := db.nextId + 1 }
      c0 userId email m io.exchange hm hlen (by simp)
  have hrun : ChatManager.createChat env db userId email title (some m) io =
      (db1, .ok
          { status := .RECORD_CREATED, message := some "Chat created".toList,
            chat := some (ChatManager.serializeChat saved), chats := none,
            messages := some
              [{ id := db.nextId + 1, chat := db.nextId, role := .user, content := trim m,
                 createdAt := io.exchange.tUser },
               { id := db.nextId + 2, chat := db.nextId, role := .assistant,
                 content := replyPrefix ++ m ++ replySuffix,
                 createdAt := io.exchange.tAssistant }],
            metadata := some { delayMs := randomInt 10 21 io.exchange.entropy * 1000 } }) := by
    unfold ChatManager.createChat
    simp only [htA, hcreate, truthy_of_trim_ne_nil m hm, if_true, hex, hc0id]
  refine ⟨db1, saved, hrun, husers, ?_, ?_, ?_, ?_, ?_, ?_⟩
  · rw [hchats]
    simp only [hc0id]
    by_cases hmod : c0.lastMessageAt = io.exchange.tAssistant
    · rw [if_pos hmod, hsaved]
      congr 2
      cases c0
      simp_all
    · rw [if_neg hmod, List.map_append, hsaved, if_neg hmod]
      have := map_fresh_id db hwf
        (fun c => { c with lastMessageAt := io.exchange.tAssistant,
                           updatedAt := io.exchange.tSave })
      rw [this]
      simp [hc0id]
  · rw [hsaved]; exact hc0id
  · rw [hsaved]; exact hc0user
  · rw [hsaved]
  · rw [hmsgs]; simp only [hc0id]
  · rw [hnext]

theorem createChat_unseeded (env : LLMEnv) (db : Store) (userId : ObjectId)
    (email : JSString) (title message : Option JSString) (io : CreateChatIO)
    (htitle : ∀ t, title = some t → jsLength (trim t) ≤ 120)
    (hmsg : message = none ∨ message = some []) :
    ChatManager.createChat env db userId email title message io =
      ({ db with
          chats := db.chats ++
            [{ _id := db.nextId, user := userId, title := trim (titleOrDefault title),
               lastMessageAt := io.tDefault, createdAt := io.tCreate,
               updatedAt := io.tCreate }],
          nextId := db.nextId + 1 },
       .ok
        { status := .RECORD_CREATED, message := some "Chat created".toList,
          chat := some
            { id := db.nextId, title := trim (titleOrDefault title), user := userId,
              lastMessageAt := io.tDefault, createdAt := io.tCreate,
              updatedAt := io.tCreate },
          chats := none, messages := some [], metadata := none }) := by
  have hcreate := chatCreate_ok db userId (titleOrDefault title) io.tDefault io.tCreate
    (titleArg_fits title htitle)
  unfold ChatManager.createChat
  rcases hmsg with h | h <;> subst h <;> simp only [hcreate] <;> rfl

theorem storeOneChat_wf : storeOneChat.WF :=
  ⟨by decide, by decide, by decide, by decide, by decide⟩

/-! ## C6 -/

/-- C6 (as stated, refuted): the one-character message " " is not empty, so `createChat`
runs the exchange, the message schema rejects the trimmed (empty) content and `createChat`
throws after the chat was created: no RECORD_CREATED, no message; and the message " hi " is
stored as "hi", not with the given content; and a title of 121 letters is rejected by the
chat schema, so no chat is created at all. -/
theorem createChat_message_not_stored_verbatim :
    truthy " ".toList = true ∧ jsLength " ".toList = 1 ∧
    (ChatManager.createChat env0 storeOneChat 1 [] none (some " ".toList) createIO0).2
      = .error .ValidationError ∧
    (ChatManager.createChat env0 storeOneChat 1 [] none (some " ".toList) createIO0).1.messages
      = [] ∧
    ((ChatManager.createChat env0 storeOneChat 1 [] none (some " hi ".toList)
        createIO0).1.messages.map (fun m => (m.role, m.content))).head?
      = some (Role.user, "hi".toList) ∧
    "hi".toList ≠ " hi ".toList ∧
    ChatManager.createChat env0 storeOneChat 1 [] (some (List.replicate 121 'a')) none
      createIO0 = (storeOneChat, .error .ValidationError) := by
  refine ⟨by decide, by decide, by rfl, by rfl, by rfl, by decide, by rfl⟩

/-- C6 (amended): in a well-formed store, for every user and every title whose trimmed form
has at most 120 characters (or no title): `createChat` with the message absent
(`undefined`, `null` or empty) creates one chat, owned by the user, with zero messages and
returns RECORD_CREATED with an empty `messages` array; `createChat` with a message whose
trimmed form is not empty and whose length is at most 3753 creates one chat with exactly
two messages, the first with role 'user' and the given content trimmed, the second with role
'assistant' and the generated reply, and returns RECORD_CREATED with those two messages. -/
theorem createChat_seeds_exchange (env : LLMEnv) (db : Store) (userId : ObjectId)
    (email : JSString) (title : Option JSString) (io : CreateChatIO) (hwf : db.WF)
    (htitle : ∀ t, title = some t → jsLength (trim t) ≤ 120) :
    (∀ message, message = none ∨ message = some [] →
      ∃ db1 c r,
        ChatManager.createChat env db userId email title message io = (db1, .ok r) ∧
        db1.chats = db.chats ++ [c] ∧ c._id = db.nextId ∧ c.user = userId ∧
        db1.messages.filter (fun x => x.chat == c._id) = [] ∧
        r.status = .RECORD_CREATED ∧ r.messages = some []) ∧
    (∀ m, trim m ≠ [] → jsLength m ≤ 3753 →
      ∃ db1 c r u a,
        ChatManager.createChat env db userId email title (some m) io = (db1, .ok r) ∧
        db1.chats = db.chats ++ [c] ∧ c._id = db.nextId ∧ c.user = userId ∧
        db1.messages.filter (fun x => x.chat == c._id) = [u, a] ∧
        u.role = .user ∧ u.content = trim m ∧ a.role = .assistant ∧
        a.content = (LLMService.generateReply env m c._id email io.exchange.entropy).message ∧
        r.status = .RECORD_CREATED ∧
        r.messages = some [ChatManager.serializeMessage u, ChatManager.serializeMessage a]) := by
  have hfresh := filter_chat_fresh db hwf
  constructor
  · intro message hmsg
    exact ⟨_, _, _, createChat_unseeded env db userId email title message io htitle hmsg,
      rfl, rfl, rfl, hfresh, rfl, rfl⟩
  · intro m hm hlen
    obtain ⟨db1, c, hrun, -, hchats, hid, huser, -, hmsgs, -⟩ :=
      createChat_seeded env db hwf userId email title m io (titleArg_fits title htitle) hm hlen
    refine ⟨db1, c, _,
      { _id := db.nextId + 1, chat := db.nextId, user := userId, role := .user,
        content := trim m, createdAt := io.exchange.tUser,
        updatedAt := io.exchange.tUser },
      { _id := db.nextId + 2, chat := db.nextId, user := userId, role := .assistant,
        content := replyPrefix ++ m ++ replySuffix,
        createdAt := io.exchange.tAssistant, updatedAt := io.exchange.tAssistant },
      hrun, hchats, hid, huser, ?_, rfl, rfl, rfl, rfl, rfl, rfl⟩
    rw [hmsgs, hid, List.filter_append, hfresh]
    simp

/-- C6 (amended), at a concrete store: user 1 creates a chat without a message and one
seeded with "Hi". -/
theorem createChat_seeds_exchange_witness :
    storeOneChat.WF ∧
    (∃ (db1 : Store) (c : ChatDoc) (r : ChatResult),
      ChatManager.createChat env0 storeOneChat 1 [] (some "Ideas".toList) none createIO0
        = (db1, .ok r) ∧
      db1.chats = storeOneChat.chats ++ [c] ∧
      db1.messages.filter (fun x => x.chat == c._id) = [] ∧ r.messages = some []) ∧
    (∃ (db1 : Store) (c : ChatDoc) (r : ChatResult) (u a : MessageDoc),
      ChatManager.createChat env0 storeOneChat 1 [] (some "Ideas".toList) (some "Hi".toList)
        createIO0 = (db1, .ok r) ∧
      db1.messages.filter (fun x => x.chat == c._id) = [u, a] ∧
      u.role = .user ∧ u.content = "Hi".toList ∧ a.role = .assistant ∧
      r.status = .RECORD_CREATED) :=
  have h := createChat_seeds_exchange env0 storeOneChat 1 [] (some "Ideas".toList) createIO0
    storeOneChat_wf (by intro t ht; cases ht; decide)
  ⟨storeOneChat_wf,
   (h.1 none (Or.inl rfl)).imp fun _ h1 => h1.imp fun _ h2 => h2.imp fun _ h3 =>
     ⟨h3.1, h3.2.1, h3.2.2.2.2.1, h3.2.2.2.2.2.2⟩,
   (h.2 "Hi".toList (by decide) (by decide)).imp fun _ h1 => h1.imp fun _ h2 =>
     h2.imp fun _ h3 => h3.imp fun _ h4 => h4.imp fun _ h5 =>
       ⟨h5.1, h5.2.2.2.2.1, h5.2.2.2.2.2.1, h5.2.2.2.2.2.2.1, h5.2.2.2.2.2.2.2.1,
        h5.2.2.2.2.2.2.2.2.2.1⟩⟩

/-! ## Sorted queries -/

theorem chatFind_sorted (db : Store) (u : ObjectId) :
    (Chat.find db u).Sorted (fun a b => b.updatedAt ≤ a.updatedAt) := by
  haveI : IsTotal ChatDoc (fun a b => b.updatedAt ≤ a.updatedAt) :=
    ⟨fun a b => Nat.le_total b.updatedAt a.updatedAt⟩
  haveI : IsTrans ChatDoc (fun a b => b.updatedAt ≤ a.updatedAt) :=
    ⟨fun _ _ _ h1 h2 => Nat.le_trans h2 h1⟩
  exact List.sorted_insertionSort _ _

theorem chatFind_perm (db : Store) (u : ObjectId) :
    (Chat.find db u).Perm (db.chats.filter (fun c => c.user == u)) :=
  List.perm_insertionSort _ _

theorem messageFind_sorted (db : Store) (chatId userId : ObjectId) :
    (Message.find db chatId userId).Sorted (fun a b => a.createdAt ≤ b.createdAt) := by
  haveI : IsTotal MessageDoc (fun a b => a.createdAt ≤ b.createdAt) :=
    ⟨fun a b => Nat.le_total a.createdAt b.createdAt⟩
  haveI : IsTrans MessageDoc (fun a b => a.createdAt ≤ b.createdAt) :=
    ⟨fun _ _ _ h1 h2 => Nat.le_trans h1 h2⟩
  exact List.sorted_insertionSort _ _

theorem messageFind_perm (db : Store) (chatId userId : ObjectId) :
    (Message.find db chatId userId).Perm
      (db.messages.filter (fun m => m.chat == chatId && m.user == userId)) :=
  List.perm_insertionSort _ _

/-! ## C7 -/

/-- C7: for every store and every user id `u`, `listChats(u)` returns SUCCESS_CODE with a
list that is, up to order, exactly the serialized stored chats whose owner is `u` (every
one of them, and no chat of another user), in non-increasing order of `updatedAt`. -/
theorem listChats_owned_sorted (db : Store) (u : ObjectId) :
    ∃ l,
      ChatManager.listChats db u =
        { status := .SUCCESS_CODE, message := none, chat := none, chats := some l,
          messages := none, metadata := none } ∧
      l.Perm ((db.chats.filter (fun c => c.user == u)).map ChatManager.serializeChat) ∧
      (∀ v ∈ l, v.user = u) ∧
      l.Sorted (fun a b => b.updatedAt ≤ a.updatedAt) := by
  refine ⟨(Chat.find db u).map ChatManager.serializeChat, rfl,
    (chatFind_perm db u).map _, ?_, ?_⟩
  · intro v hv
    obtain ⟨c, hc, rfl⟩ := List.mem_map.mp hv
    have hc2 := (chatFind_perm db u).subset hc
    simpa [ChatManager.serializeChat] using (List.mem_filter.mp hc2).2
  · unfold List.Sorted
    rw [List.pairwise_map]
    exact chatFind_sorted db u

/-! ## Exchanges that ran to completion -/

theorem executeExchange_error (env : LLMEnv) (db : Store) (chat : ChatDoc) (userId : ObjectId)
    (email content : JSString) (io : ExchangeIO)
    (h : trim content = [] ∨ 3753 < jsLength content) :
    (ChatManager.executeExchange env db chat userId email content io).2
      = .error .ValidationError := by
  unfold ChatManager.executeExchange
  by_cases hu : trim content = [] ∨ 4000 < jsLength (trim content)
  · rw [messageCreate_error db chat._id userId .user content io.tUser hu]
  · have hlong : 3753 < jsLength content := by
      rcases h with h | h
      · exact absurd (Or.inl h) hu
      · exact h
    have h1 : trim content ≠ [] := fun h0 => hu (Or.inl h0)
    have h2 : jsLength (trim content) ≤ 4000 := by
      by_contra h0; exact hu (Or.inr (by omega))
    rw [messageCreate_ok db chat._id userId .user content io.tUser h1 h2]
    simp only [LLMService.generateReply]
    rw [messageCreate_error _ chat._id userId .assistant _ io.tAssistant
      (Or.inr (by rw [trim_reply, jsLength_reply]; omega))]

theorem executeExchange_reply_rejected (env : LLMEnv) (db : Store) (chat : ChatDoc)
    (userId : ObjectId) (email content : JSString) (io : ExchangeIO)
    (htrim : trim content ≠ []) (hfits : jsLength (trim content) ≤ 4000)
    (hlong : 3753 < jsLength content) :
    ChatManager.executeExchange env db chat userId email content io =
      ({ db with
          messages := db.messages ++
            [{ _id := db.nextId, chat := chat._id, user := userId, role := .user,
               content := trim content, createdAt := io.tUser, updatedAt := io.tUser }],
          nextId := db.nextId + 1 },
       .error .ValidationError) := by
  unfold ChatManager.executeExchange
  rw [messageCreate_ok db chat._id userId .user content io.tUser htrim hfits]
  simp only [LLMService.generateReply]
  rw [messageCreate_error _ chat._id userId .assistant _ io.tAssistant
    (Or.inr (by rw [trim_reply, jsLength_reply]; omega))]

theorem executeExchange_ok_inv (env : LLMEnv) (db db1 : Store) (chat : ChatDoc)
    (userId : ObjectId) (email content : JSString) (io : ExchangeIO) (ex : Exchange)
    (h : ChatManager.executeExchange env db chat userId email content io = (db1, .ok ex)) :
    trim content ≠ [] ∧ jsLength content ≤ 3753 := by
  by_contra hcon
  have hbad : trim content = [] ∨ 3753 < jsLength content := by
    by_cases h0 : trim content = []
    · exact Or.inl h0
    · right
      by_contra h1
      exact hcon ⟨h0, by omega⟩
  have := executeExchange_error env db chat userId email content io hbad
  rw [h] at this
  cases this

theorem find_map_of_pred (l : List ChatDoc) (q : ChatDoc → Bool) (f : ChatDoc → ChatDoc)
    (hf : ∀ x, q (f x) = q x) :
    (l.map f).find? q = (l.find? q).map f := by
  induction l with
  | nil => rfl
  | cons a l ih =>
    simp only [List.map_cons, List.find?_cons, hf]
    cases q a <;> simp [ih]

theorem chatCreate_error (db : Store) (user : ObjectId) (title : JSString)
    (tDefault now : Timestamp) (h : 120 < jsLength (trim title)) :
    Chat.create db user title tDefault now = (db, .error .ValidationError) := by
  unfold Chat.create
  simp [h]

theorem createChat_ok_inv (env : LLMEnv) (db db1 : Store) (userId : ObjectId)
    (email : JSString) (title : Option JSString) (m : JSString) (io : CreateChatIO)
    (r : ChatResult) (hm : truthy m = true)
    (h : ChatManager.createChat env db userId email title (some m) io = (db1, .ok r)) :
    jsLength (trim (titleOrDefault title)) ≤ 120 ∧ trim m ≠ [] ∧ jsLength m ≤ 3753 := by
  have hfit : jsLength (trim (titleOrDefault title)) ≤ 120 := by
    by_contra h0
    have hc := chatCreate_error db userId (titleOrDefault title) io.tDefault io.tCreate
      (by omega)
    unfold ChatManager.createChat at h
    rw [hc] at h
    cases h
  refine ⟨hfit, ?_⟩
  have hc := chatCreate_ok db userId (titleOrDefault title) io.tDefault io.tCreate hfit
  by_contra hcon
  have hbad : trim m = [] ∨ 3753 < jsLength m := by
    by_cases h0 : trim m = []
    · exact Or.inl h0
    · right
      by_contra h1
      exact hcon ⟨h0, by omega⟩
  obtain ⟨c0, hc0⟩ : ∃ c0 : ChatDoc, c0 =
      { _id := db.nextId, user := userId, title := trim (titleOrDefault title),
        lastMessageAt := io.tDefault, createdAt := io.tCreate, updatedAt := io.tCreate } :=
    ⟨_, rfl⟩
  rw [← hc0] at hc
  unfold ChatManager.createChat at h
  rw [hc] at h
  simp only [hm, if_true] at h
  have herr := executeExchange_error env
    { db with chats := db.chats ++ [c0], nextId := db.nextId + 1 } c0
    userId email m io.exchange hbad
  revert h herr
  generalize ChatManager.executeExchange env _ c0 userId email m io.exchange = res
  intro h herr
  rcases res with ⟨d, e | x⟩
  · simp at h
  · simp at herr

/-! ## Reading a chat back -/

theorem filter_chat_user_fresh (db : Store) (hwf : db.WF) (u : ObjectId) :
    db.messages.filter (fun m => m.chat == db.nextId && m.user == u) = [] := by
  rw [List.filter_eq_nil_iff]
  intro m hm
  have hlt : m.chat < db.nextId := hwf.refs_lt m hm
  have hne : m.chat ≠ db.nextId := Nat.ne_of_lt hlt
  simp [hne]

theorem nodup_after_create (db : Store) (hwf : db.WF) (c : ChatDoc) (hid : c._id = db.nextId) :
    ((db.chats ++ [c]).map (·._id)).Nodup := by
  rw [List.map_append, List.nodup_append]
  refine ⟨hwf.chats_nodup, by simp, ?_⟩
  intro a ha hb
  obtain ⟨x, hx, rfl⟩ := List.mem_map.mp ha
  have hlt : x._id < db.nextId := hwf.chats_lt x hx
  simp only [List.map_cons, List.map_nil, List.mem_singleton] at hb
  rw [hb, hid] at hlt
  exact Nat.lt_irrefl _ hlt

theorem getChatMessages_messages (db : Store) (u chatId : ObjectId) (ms : List MessageView)
    (h : (ChatManager.getChatMessages db u chatId).messages = some ms) :
    ms = (Message.find db chatId u).map ChatManager.serializeMessage := by
  unfold ChatManager.getChatMessages at h
  cases hf : ChatManager.findOwnedChat db u chatId with
  | none => rw [hf] at h; cases h
  | some c => rw [hf] at h; simpa using h.symm

theorem getChatMessages_only_chat_sorted (db : Store) (u chatId : ObjectId)
    (ms : List MessageView)
    (h : (ChatManager.getChatMessages db u chatId).messages = some ms) :
    (∀ v ∈ ms, v.chat = chatId) ∧ ms.Sorted (fun a b => a.createdAt ≤ b.createdAt) := by
  rw [getChatMessages_messages db u chatId ms h]
  constructor
  · intro v hv
    obtain ⟨m, hm, rfl⟩ := List.mem_map.mp hv
    have hm2 := (messageFind_perm db chatId u).subset hm
    have := (List.mem_filter.mp hm2).2
    simp only [Bool.and_eq_true, beq_iff_eq] at this
    exact this.1
  · unfold List.Sorted
    rw [List.pairwise_map]
    exact messageFind_sorted db chatId u

theorem insertionSort_four (a b c d : MessageDoc)
    (h1 : a.createdAt < b.createdAt) (h2 : b.createdAt < c.createdAt)
    (h3 : c.createdAt < d.createdAt) :
    [a, b, c, d].insertionSort (fun x y => x.createdAt ≤ y.createdAt) = [a, b, c, d] := by
  apply List.Sorted.insertionSort_eq
  simp only [List.Sorted, List.pairwise_cons, List.mem_cons, List.mem_singleton,
    forall_eq_or_imp, forall_eq, List.not_mem_nil, false_implies, implies_true,
    List.Pairwise.nil, and_true]
  have h12 : a.createdAt ≤ b.createdAt := Nat.le_of_lt h1
  have h23 : b.createdAt ≤ c.createdAt := Nat.le_of_lt h2
  have h34 : c.createdAt ≤ d.createdAt := Nat.le_of_lt h3
  exact ⟨⟨h12, Nat.le_trans h12 h23, Nat.le_trans h12 (Nat.le_trans h23 h34)⟩,
    ⟨h23, Nat.le_trans h23 h34⟩, h34⟩

theorem postMessage_ok_inv (env : LLMEnv) (db db1 : Store) (c : ChatDoc) (email content : JSString)
    (io : ExchangeIO) (r : ChatResult)
    (hnodup : (db.chats.map (·._id)).Nodup) (hc : c ∈ db.chats)
    (h : ChatManager.postMessage env db c.user email c._id content false io = (db1, .ok r)) :
    trim content ≠ [] ∧ jsLength content ≤ 3753 := by
  by_contra hcon
  have hbad : trim content = [] ∨ 3753 < jsLength content := by
    by_cases h0 : trim content = []
    · exact Or.inl h0
    · right
      by_contra h1
      exact hcon ⟨h0, by omega⟩
  have herr := executeExchange_error env db c c.user email content io hbad
  unfold ChatManager.postMessage at h
  simp only [Bool.false_eq_true, if_false, ChatManager.findOwnedChat,
    findOne_eq_some_of_mem db c hnodup hc] at h
  revert h herr
  generalize ChatManager.executeExchange env db c c.user email content io = res
  intro herr h
  rcases res with ⟨d, e | x⟩
  · simp at h
  · simp at herr

theorem postMessage_owner_ok (env : LLMEnv) (db : Store) (c : ChatDoc)
    (email content : JSString) (io : ExchangeIO)
    (hnodup : (db.chats.map (·._id)).Nodup) (hc : c ∈ db.chats)
    (htrim : trim content ≠ []) (hlen : jsLength content ≤ 3753) :
    ∃ db1 r,
      ChatManager.postMessage env db c.user email c._id content false io = (db1, .ok r) ∧
      db1.messages = db.messages ++
        [{ _id := db.nextId, chat := c._id, user := c.user, role := .user,
           content := trim content, createdAt := io.tUser, updatedAt := io.tUser },
         { _id := db.nextId + 1, chat := c._id, user := c.user, role := .assistant,
           content := replyPrefix ++ content ++ replySuffix,
           createdAt := io.tAssistant, updatedAt := io.tAssistant }] ∧
      ∃ c1, Chat.findOne db1 c._id c.user = some c1 := by
  obtain ⟨db1, saved, hex, -, hmsgs, -, hchats, -⟩ :=
    executeExchange_ok env db c c.user email content io htrim hlen (any_id_of_mem db c hc)
  refine ⟨db1,
    { status := .SUCCESS_CODE, message := some "Reply generated".toList,
      chat := some (ChatManager.serializeChat saved), chats := none,
      messages := some
        [{ id := db.nextId, chat := c._id, role := .user, content := trim content,
           createdAt := io.tUser },
         { id := db.nextId + 1, chat := c._id, role := .assistant,
           content := replyPrefix ++ content ++ replySuffix, createdAt := io.tAssistant }],
      metadata := some { delayMs := randomInt 10 21 io.entropy * 1000 } },
    ?_, hmsgs, ?_⟩
  · simp only [ChatManager.postMessage, ChatManager.findOwnedChat, Bool.false_eq_true,
      if_false, findOne_eq_some_of_mem db c hnodup hc, hex]
  · have hfind := findOne_eq_some_of_mem db c hnodup hc
    unfold Chat.findOne at hfind ⊢
    rw [hchats]
    by_cases hmod : c.lastMessageAt = io.tAssistant
    · rw [if_pos hmod, hfind]; exact ⟨_, rfl⟩
    · rw [if_neg hmod,
        find_map_of_pred _ (fun x => x._id == c._id && x.user == c.user) _
          (by intro x; split <;> rfl), hfind]
      exact ⟨_, rfl⟩

/-! ## C8 -/

/-- C8 (as stated, refuted): user 1 creates a chat with the message " Hi" and posts "Again";
both calls run to completion, and the first of the four messages `getChatMessages` returns
has the content "Hi", which is not the message " Hi" that was given. -/
theorem getChatMessages_first_content_trimmed :
    ((ChatManager.createChat env0 storeOneChat 1 [] none (some " Hi".toList)
        createIO0).2.toOption.map (·.status)) = some .RECORD_CREATED ∧
    ((ChatManager.postMessage env0 storeAfterCreate 1 [] 3 "Again".toList false
        io1).2.toOption.map (·.status)) = some .SUCCESS_CODE ∧
    (ChatManager.getChatMessages storeAfterPost 1 3).messages.map
        (List.map fun v => (v.role, v.content, v.createdAt)) =
      some
        [(.user, "Hi".toList, 200),
         (.assistant, (LLMService.generateReply env0 " Hi".toList 3 [] 0).message, 300),
         (.user, "Again".toList, 500),
         (.assistant, (LLMService.generateReply env0 "Again".toList 3 [] 5).message, 600)] ∧
    "Hi".toList ≠ " Hi".toList := by
  refine ⟨by rfl, by rfl, by rfl, by decide⟩

/-- C8 (amended): starting from any well-formed store, after user `u` runs `createChat` with
a non-empty message `m1` and then `postMessage` on the created chat with content `m2`, both
to completion, with a clock that strictly increases from one message write to the next,
`getChatMessages` for `u` and that chat returns SUCCESS_CODE with exactly four messages of
that chat in ascending `createdAt` order: the user message whose content is `m1` trimmed,
the assistant reply to `m1`, the user message whose content is `m2` trimmed, the assistant
reply to `m2`; and in general the messages `getChatMessages` returns all belong to the
requested chat and are sorted by `createdAt` ascending. -/
theorem createChat_postMessage_then_getChatMessages (env : LLMEnv) (db db1 db2 : Store)
    (u : ObjectId) (email : JSString) (title : Option JSString) (m1 m2 : JSString)
    (io1 : CreateChatIO) (io2 : ExchangeIO) (r1 r2 : ChatResult) (cv : ChatView)
    (hwf : db.WF) (hm1 : truthy m1 = true)
    (hcreate : ChatManager.createChat env db u email title (some m1) io1 = (db1, .ok r1))
    (hchat : r1.chat = some cv)
    (hpost : ChatManager.postMessage env db1 u email cv.id m2 false io2 = (db2, .ok r2))
    (hclock : io1.exchange.tUser < io1.exchange.tAssistant ∧
      io1.exchange.tAssistant < io2.tUser ∧ io2.tUser < io2.tAssistant) :
    ((ChatManager.getChatMessages db2 u cv.id).status = .SUCCESS_CODE ∧
     (ChatManager.getChatMessages db2 u cv.id).messages.map
        (List.map fun v => (v.chat, v.role, v.content, v.createdAt)) =
      some
        [(cv.id, .user, trim m1, io1.exchange.tUser),
         (cv.id, .assistant,
          (LLMService.generateReply env m1 cv.id email io1.exchange.entropy).message,
          io1.exchange.tAssistant),
         (cv.id, .user, trim m2, io2.tUser),
         (cv.id, .assistant,
          (LLMService.generateReply env m2 cv.id email io2.entropy).message,
          io2.tAssistant)]) ∧
    (∀ (dbx : Store) (ux chatx : ObjectId) (ms : List MessageView),
      (ChatManager.getChatMessages dbx ux chatx).messages = some ms →
      (∀ v ∈ ms, v.chat = chatx) ∧ ms.Sorted (fun a b => a.createdAt ≤ b.createdAt)) := by
  refine ⟨?_, fun dbx ux chatx ms h => getChatMessages_only_chat_sorted dbx ux chatx ms h⟩
  obtain ⟨hfit, ht1, hl1⟩ := createChat_ok_inv env db db1 u email title m1 io1 r1 hm1 hcreate
  obtain ⟨db1', c, hrun, -, hchats, hid, huser, -, hmsgs, hnext⟩ :=
    createChat_seeded env db hwf u email title m1 io1 hfit ht1 hl1
  rw [hrun] at hcreate
  simp only [Prod.mk.injEq, Except.ok.injEq] at hcreate
  obtain ⟨hdb, hr⟩ := hcreate
  subst hdb
  subst hr
  simp only [Option.some.injEq] at hchat
  subst hchat
  have hcvid : (ChatManager.serializeChat c).id = db.nextId := hid
  rw [hcvid] at hpost ⊢
  have hnodup : (db1'.chats.map (·._id)).Nodup := by
    rw [hchats]; exact nodup_after_create db hwf c hid
  have hc : c ∈ db1'.chats := by rw [hchats]; simp
  rw [← huser, ← hid] at hpost
  obtain ⟨ht2, hl2⟩ := postMessage_ok_inv env db1' db2 c email m2 io2 r2 hnodup hc hpost
  obtain ⟨db2', r2', hrun2, hmsgs2, c1, hfind⟩ :=
    postMessage_owner_ok env db1' c email m2 io2 hnodup hc ht2 hl2
  rw [hrun2] at hpost
  simp only [Prod.mk.injEq, Except.ok.injEq] at hpost
  obtain ⟨hdb, -⟩ := hpost
  subst hdb
  have hfilter : db2'.messages.filter (fun m => m.chat == db.nextId && m.user == u) =
      [{ _id := db.nextId + 1, chat := db.nextId, user := u, role := .user,
         content := trim m1, createdAt := io1.exchange.tUser,
         updatedAt := io1.exchange.tUser },
       { _id := db.nextId + 2, chat := db.nextId, user := u, role := .assistant,
         content := replyPrefix ++ m1 ++ replySuffix,
         createdAt := io1.exchange.tAssistant, updatedAt := io1.exchange.tAssistant },
       { _id := db.nextId + 3, chat := db.nextId, user := u, role := .user,
         content := trim m2, createdAt := io2.tUser, updatedAt := io2.tUser },
       { _id := db.nextId + 4, chat := db.nextId, user := u, role := .assistant,
         content := replyPrefix ++ m2 ++ replySuffix,
         createdAt := io2.tAssistant, updatedAt := io2.tAssistant }] := by
    rw [hmsgs2, hmsgs, hnext, hid, huser, List.filter_append, List.filter_append,
      filter_chat_user_fresh db hwf u]
    simp
  have hfound : ChatManager.findOwnedChat db2' u db.nextId = some c1 := by
    unfold ChatManager.findOwnedChat
    rw [← huser, ← hid]; exact hfind
  unfold ChatManager.getChatMessages
  rw [hfound]
  simp only [Message.find, hfilter]
  rw [insertionSort_four _ _ _ _ hclock.1 hclock.2.1 hclock.2.2]
  exact ⟨trivial, rfl⟩

/-- C8 (amended), at a concrete store: user 1 creates a chat with " Hi" in `storeOneChat`
and posts "Again". -/
theorem createChat_postMessage_then_getChatMessages_witness :
    storeOneChat.WF ∧
    (ChatManager.getChatMessages storeAfterPost 1 3).status = .SUCCESS_CODE ∧
    (ChatManager.getChatMessages storeAfterPost 1 3).messages.map
        (List.map fun v => (v.chat, v.role, v.content, v.createdAt)) =
      some
        [(3, .user, "Hi".toList, 200),
         (3, .assistant, (LLMService.generateReply env0 " Hi".toList 3 [] 0).message, 300),
         (3, .user, "Again".toList, 500),
         (3, .assistant, (LLMService.generateReply env0 "Again".toList 3 [] 5).message,
          600)] :=
  ⟨storeOneChat_wf,
   (createChat_postMessage_then_getChatMessages env0 storeOneChat storeAfterCreate
      storeAfterPost 1 [] none " Hi".toList "Again".toList createIO0 io1
      { status := .RECORD_CREATED, message := some "Chat created".toList,
        chat := some { id := 3, title := "New Chat".toList, user := 1, lastMessageAt := 300,
                       createdAt := 151, updatedAt := 400 },
        chats := none,
        messages := some
          [{ id := 4, chat := 3, role := .user, content := "Hi".toList, createdAt := 200 },
           { id := 5, chat := 3, role := .assistant,
             content := (LLMService.generateReply env0 " Hi".toList 3 [] 0).message,
             createdAt := 300 }],
        metadata := some { delayMs := 10000 } }
      { status := .SUCCESS_CODE, message := some "Reply generated".toList,
        chat := some { id := 3, title := "New Chat".toList, user := 1, lastMessageAt := 600,
                       createdAt := 151, updatedAt := 700 },
        chats := none,
        messages := some
          [{ id := 6, chat := 3, role := .user, content := "Again".toList, createdAt := 500 },
           { id := 7, chat := 3, role := .assistant,
             content := (LLMService.generateReply env0 "Again".toList 3 [] 5).message,
             createdAt := 600 }],
        metadata := some { delayMs := 15000 } }
      { id := 3, title := "New Chat".toList, user := 1, lastMessageAt := 300,
        createdAt := 151, updatedAt := 400 }
      storeOneChat_wf (by decide) (by rfl) (by rfl) (by rfl) (by decide)).1⟩

/-! ## The token gate -/

theorem trim_of_no_whiteSpace (t : JSString) (h : ∀ c ∈ t, isWhiteSpace c = false) :
    trim t = t := by
  unfold trim
  have h1 : t.dropWhile isWhiteSpace = t := by
    cases t with
    | nil => rfl
    | cons a t => rw [List.dropWhile_cons_of_neg (by simp [h a (List.mem_cons_self a t)])]
  rw [h1, List.rdropWhile_eq_self_iff]
  intro hl
  simp [h _ (List.getLast_mem hl)]

theorem splitGo_no_whiteSpace (t cur : JSString) (h : ∀ c ∈ t, isWhiteSpace c = false) :
    splitGo "Bearer ".toList t 0 cur = [cur.reverse ++ t] := by
  induction t generalizing cur with
  | nil => simp [splitGo]
  | cons a t ih =>
    have hnp : ("Bearer ".toList).isPrefixOf (a :: t) = false := by
      by_contra hp
      have hp2 : ("Bearer ".toList).isPrefixOf (a :: t) = true := by simpa using hp
      have hpre := List.isPrefixOf_iff_prefix.mp hp2
      have hmem : ' ' ∈ a :: t := hpre.subset (by decide)
      have := h ' ' hmem
      exact absurd this (by decide)
    rw [splitGo, hnp]
    simp only [Bool.false_eq_true, if_false]
    rw [ih (a :: cur) (fun c hc => h c (List.mem_cons_of_mem a hc))]
    simp

theorem jsSplit_bearer (t : JSString) (h : ∀ c ∈ t, isWhiteSpace c = false) :
    jsSplit ("Bearer ".toList ++ t) "Bearer ".toList = [[], t] := by
  unfold jsSplit
  have hp : ("Bearer ".toList).isPrefixOf ('B' :: ("earer ".toList ++ t)) = true :=
    List.isPrefixOf_iff_prefix.mpr (List.prefix_append "Bearer ".toList t)
  show splitGo "Bearer ".toList ('B' :: ("earer ".toList ++ t)) 0 [] = _
  rw [splitGo, hp]
  simp only [if_true]
  show [] :: splitGo "Bearer ".toList ('e' :: 'a' :: 'r' :: 'e' :: 'r' :: ' ' :: t) 6 [] = _
  simp only [splitGo]
  rw [splitGo_no_whiteSpace t [] h]
  rfl

theorem authenticate_of_token (p : Platform) (headers : Headers) (t : JSString)
    (claims : Claims) (hx : Base.extractToken headers = .ok (some t)) (hne : t ≠ [])
    (hverify : p.jwtVerify t = .ok claims) :
    Base.authenticate p headers =
      .ok { response := none, decoded := some claims, nextCalls := 1 } := by
  unfold Base.authenticate
  rw [hx]
  have ht : truthy t = true := by
    cases t with
    | nil => exact absurd rfl hne
    | cons a t => rfl
  simp only [ht, if_true, verifyJWTToken, hverify]

theorem authenticate_unauthorized_of_bad_token (p : Platform) (headers : Headers)
    (tok : Option JSString) (hx : Base.extractToken headers = .ok tok)
    (hbad : ∀ t, tok = some t → t ≠ [] → ∃ e, p.jwtVerify t = .error e) :
    ∃ message, Base.authenticate p headers = .ok (unauthorized message) := by
  unfold Base.authenticate
  rw [hx]
  cases tok with
  | none => exact ⟨_, rfl⟩
  | some t =>
    cases t with
    | nil => exact ⟨_, rfl⟩
    | cons a t =>
      obtain ⟨e, he⟩ := hbad (a :: t) rfl (by simp)
      have ht : truthy (a :: t) = true := rfl
      simp only [ht, if_true, verifyJWTToken, he]
      cases e <;> exact ⟨_, rfl⟩

/-! ## C9 -/

/-- C9 (the code at the failing input): for a request without an `access_token` header whose
`Authorization` header is `Basic abc`, `'Basic abc'.split('Bearer ')[1]` is `undefined` and
`.trim()` throws: `authenticate` rejects with a `TypeError` instead of answering
UNAUTHORIZE_CODE, on every platform. -/
theorem authenticate_throws_without_bearer (p : Platform) :
    Base.authenticate p { access_token := none, authorization := some "Basic abc".toList }
      = .error .TypeError := by
  rfl

/-! ## C10 -/

/-- C10 (as stated, refuted): a request carries the verifying token `good.token.sig` as
`Authorization: Bearer good.token.sig` and also an `access_token` header with a token that
does not verify; `authenticate` takes the `access_token` header, answers UNAUTHORIZE_CODE,
does not call `next` and does not set `res.locals.decoded`. -/
theorem authenticate_access_token_takes_precedence :
    demoPlatform.jwtVerify "good.token.sig".toList = .ok bobClaims ∧
    Base.authenticate demoPlatform
        { access_token := some "stale".toList,
          authorization := some "Bearer good.token.sig".toList }
      = .ok (unauthorized .INVALID_AUTH_TOKEN) ∧
    (unauthorized .INVALID_AUTH_TOKEN).nextCalls = 0 ∧
    (unauthorized .INVALID_AUTH_TOKEN).decoded = none := by
  refine ⟨by rfl, by rfl, rfl, rfl⟩

/-- C10 (amended): for every non-empty token `t` that verifies successfully with claims
`claims`: a request whose raw `access_token` header is `t` (whatever its `Authorization`
header), and a request without an `access_token` header whose `Authorization` header is
`Bearer t` (`t` free of whitespace, as a JWT is), make `authenticate` set
`res.locals.decoded` to `claims` and call `next` exactly once, sending no response. -/
theorem authenticate_accepts_verified_token (p : Platform) (t : JSString) (claims : Claims)
    (hverify : p.jwtVerify t = .ok claims) (hne : t ≠ []) :
    (∀ authorization,
      Base.authenticate p { access_token := some t, authorization := authorization } =
        .ok { response := none, decoded := some claims, nextCalls := 1 }) ∧
    ((∀ c ∈ t, isWhiteSpace c = false) →
      Base.authenticate p
          { access_token := none, authorization := some ("Bearer ".toList ++ t) } =
        .ok { response := none, decoded := some claims, nextCalls := 1 }) := by
  constructor
  · intro authorization
    exact authenticate_of_token p _ t claims rfl hne hverify
  · intro hws
    refine authenticate_of_token p _ t claims ?_ hne hverify
    unfold Base.extractToken
    simp only [jsSplit_bearer t hws]
    have htr : truthy ("Bearer ".toList ++ t) = true := rfl
    simp only [htr, if_true]
    show Except.ok (some (trim t)) = _
    rw [trim_of_no_whiteSpace t hws]

/-- C10 (amended), on the example platform: the token `good.token.sig` in either header. -/
theorem authenticate_accepts_verified_token_witness :
    demoPlatform.jwtVerify "good.token.sig".toList = .ok bobClaims ∧
    Base.authenticate demoPlatform
        { access_token := some "good.token.sig".toList, authorization := none } =
      .ok { response := none, decoded := some bobClaims, nextCalls := 1 } ∧
    Base.authenticate demoPlatform
        { access_token := none, authorization := some "Bearer good.token.sig".toList } =
      .ok { response := none, decoded := some bobClaims, nextCalls := 1 } :=
  have h := authenticate_accepts_verified_token demoPlatform "good.token.sig".toList
    bobClaims (by rfl) (by decide)
  ⟨by rfl, h.1 none, h.2 (by decide)⟩

/-! ## Sanitized users -/

theorem userCreate_mem (p : Platform) (db db1 : Store) (email : JSString)
    (password : Option JSString) (now : Timestamp) (u : UserDoc)
    (h : User.create p db email password now = (db1, .ok u)) : u ∈ db1.users := by
  unfold User.create at h
  cases password with
  | none => cases h
  | some hashed =>
    simp only at h
    split at h
    · cases h
    · split at h
      · cases h
      · cases h; simp

theorem registerUser_user_mem (p : Platform) (db db1 : Store) (email password : JSString)
    (io : RegisterIO) (r : AuthResult) (v : SanitizedUser)
    (h : AuthManager.registerUser p db email password io = (db1, .ok r))
    (hv : r.user = some v) : ∃ d ∈ db1.users, v = AuthManager.sanitizeUserDoc d := by
  unfold AuthManager.registerUser at h
  by_cases hex : User.exists p db (normalizeEmail p email) = true
  · simp only [hex, if_true] at h
    cases h
    cases hv
  · simp only [hex, Bool.false_eq_true, if_false] at h
    rcases hcr : User.create p db (normalizeEmail p email)
      (convertToHash p password io.salt) io.tCreate with ⟨dbc, e | u⟩
    · rw [hcr] at h; cases h
    · rw [hcr] at h
      simp only at h
      have hmem := userCreate_mem p db dbc _ _ _ u hcr
      cases hj : generateJWTToken p
        { id := (AuthManager.sanitizeUserDoc u).id,
          email := (AuthManager.sanitizeUserDoc u).email } io.tSign with
      | error e => rw [hj] at h; cases h
      | ok tok =>
        rw [hj] at h
        cases h
        cases hv
        exact ⟨u, hmem, rfl⟩

/-! ## C11 -/

/-- C11: for every user document, `sanitizeUserDoc` returns the object made of exactly `id`,
`email`, `createdAt` and `updatedAt`, and returns the same object when only the password of
the document is changed; the `user` of every result of `registerUser`, `authenticateUser`
and `getProfile` is `sanitizeUserDoc` of a stored user, so no result carries the password
hash. -/
theorem sanitizeUserDoc_drops_password (p : Platform) (db : Store) (email password : JSString)
    (io : RegisterIO) (tLogin : Timestamp) (userId : ObjectId) (doc : UserDoc)
    (pw : JSString) :
    AuthManager.sanitizeUserDoc doc =
      { id := doc._id, email := doc.email, createdAt := doc.createdAt,
        updatedAt := doc.updatedAt } ∧
    AuthManager.sanitizeUserDoc { doc with password := pw } = AuthManager.sanitizeUserDoc doc ∧
    (∀ r v, (AuthManager.registerUser p db email password io).2 = .ok r → r.user = some v →
      ∃ d ∈ (AuthManager.registerUser p db email password io).1.users,
        v = AuthManager.sanitizeUserDoc d) ∧
    (∀ r v, AuthManager.authenticateUser p db email password tLogin = .ok r →
      r.user = some v → ∃ d ∈ db.users, v = AuthManager.sanitizeUserDoc d) ∧
    (∀ r v, AuthManager.getProfile db userId = .ok r → r.user = some v →
      ∃ d ∈ db.users, v = AuthManager.sanitizeUserDoc d) := by
  refine ⟨rfl, rfl, ?_, ?_, ?_⟩
  · intro r v hr hv
    exact registerUser_user_mem p db _ email password io r v
      (Prod.ext rfl hr) hv
  · intro r v hr hv
    unfold AuthManager.authenticateUser at hr
    cases hf : User.findOne p db (normalizeEmail p email) with
    | none => rw [hf] at hr; cases hr; cases hv
    | some u =>
      rw [hf] at hr
      have hu : u ∈ db.users := List.mem_of_find?_eq_some hf
      simp only at hr
      split at hr
      · cases hr; cases hv
      · split at hr
        · split at hr
          · cases hr
          · cases hr; cases hv; exact ⟨u, hu, rfl⟩
        · cases hr; cases hv
  · intro r v hr hv
    unfold AuthManager.getProfile at hr
    cases hf : User.findById db userId with
    | none => rw [hf] at hr; cases hr; cases hv
    | some u =>
      rw [hf] at hr
      cases hr; cases hv
      exact ⟨u, List.mem_of_find?_eq_some hf, rfl⟩

/-! ## The reply generator -/

theorem randomInt_10_21_range (entropy : Nat) :
    10 ≤ randomInt 10 21 entropy ∧ randomInt 10 21 entropy < 21 := by
  unfold randomInt
  have := Nat.mod_lt entropy (show 0 < 21 - 10 by decide)
  omega

/-! ## C12 -/

/-- C12: for every draw `n = randomInt(10, 21)` (always an integer with 10 ≤ n < 21) the
`delayMs` that `generateReply` returns is `n * 1000`, hence a multiple of 1000 between 10000
and 20000; and every whole number of seconds from 10 to 20, both ends included, is the
delay of some draw. -/
theorem generateReply_delayMs (env : LLMEnv) (prompt : JSString) (conversationId : ObjectId)
    (email : JSString) :
    (∀ entropy,
      10 ≤ randomInt 10 21 entropy ∧ randomInt 10 21 entropy < 21 ∧
      (LLMService.generateReply env prompt conversationId email entropy).delayMs
        = randomInt 10 21 entropy * 1000 ∧
      1000 ∣ (LLMService.generateReply env prompt conversationId email entropy).delayMs ∧
      10000 ≤ (LLMService.generateReply env prompt conversationId email entropy).delayMs ∧
      (LLMService.generateReply env prompt conversationId email entropy).delayMs ≤ 20000) ∧
    (∀ n, 10 ≤ n → n < 21 →
      ∃ entropy, randomInt 10 21 entropy = n ∧
        (LLMService.generateReply env prompt conversationId email entropy).delayMs
          = n * 1000) := by
  constructor
  · intro entropy
    obtain ⟨h1, h2⟩ := randomInt_10_21_range entropy
    have hd : (LLMService.generateReply env prompt conversationId email entropy).delayMs
        = randomInt 10 21 entropy * 1000 := rfl
    refine ⟨h1, h2, hd, ?_, ?_, ?_⟩
    · rw [hd]; exact Dvd.intro_left _ rfl
    · rw [hd]; omega
    · rw [hd]; omega
  · intro n h1 h2
    have hr : randomInt 10 21 (n - 10) = n := by
      unfold randomInt
      have : (n - 10) % (21 - 10) = n - 10 := Nat.mod_eq_of_lt (by omega)
      omega
    exact ⟨n - 10, hr, by
      show randomInt 10 21 (n - 10) * 1000 = n * 1000
      rw [hr]⟩

theorem simulatedSentences_join (prompt : JSString) :
    jsJoin " ".toList (simulatedSentences prompt) = replyPrefix ++ prompt ++ replySuffix := by
  simp only [simulatedSentences, jsJoin, replyPrefix, replySuffix, List.append_assoc]
  rfl

/-! ## C13 -/

/-- C13: the `message` of `generateReply` is the three template sentences joined by a blank,
that is the fixed text with the prompt inserted verbatim between double quotes, and it is
the same for two calls with the same prompt, whatever the environment variables, the
conversation id, the email and the random draw are. -/
theorem generateReply_message_of_prompt (env env2 : LLMEnv) (prompt : JSString)
    (conversationId conversationId2 : ObjectId) (email email2 : JSString)
    (entropy entropy2 : Nat) :
    (LLMService.generateReply env prompt conversationId email entropy).message
      = jsJoin " ".toList (simulatedSentences prompt) ∧
    (LLMService.generateReply env prompt conversationId email entropy).message
      = "Here is a thoughtful response based on your prompt: \"".toList ++ prompt ++
        "\". If this were a real LLM call, the content would be generated dynamically. Use this response to demonstrate how the frontend handles delayed, streaming-like output from a large language model.".toList ∧
    (LLMService.generateReply env prompt conversationId email entropy).message
      = (LLMService.generateReply env2 prompt conversationId2 email2 entropy2).message := by
  refine ⟨(simulatedSentences_join prompt).symm, ?_, rfl⟩
  show replyPrefix ++ prompt ++ replySuffix = _
  rfl

/-! ## C14 -/

theorem registerUserOn_store (p : Platform) (db : Store) (email password : JSString)
    (io : RegisterIO) :
    AuthManager.registerUserOn (storeUserModel p) p db email password io
      = AuthManager.registerUser p db email password io := by
  unfold AuthManager.registerUserOn AuthManager.registerUser storeUserModel
  simp only
  cases hex : User.exists p db (normalizeEmail p email)
  · simp only [Bool.false_eq_true, if_false]
    rcases hc : User.create p db (normalizeEmail p email) (convertToHash p password io.salt)
      io.tCreate with ⟨db1, e | user⟩
    · rfl
    · cases hg : generateJWTToken p
        { id := (AuthManager.sanitizeUserDoc user).id,
          email := (AuthManager.sanitizeUserDoc user).email } io.tSign <;>
        simp only [hg]
  · rfl

theorem authenticateUserOn_store (p : Platform) (db : Store) (email password : JSString)
    (now : Timestamp) :
    AuthManager.authenticateUserOn (storeUserModel p) p db email password now
      = (db, AuthManager.authenticateUser p db email password now) := by
  unfold AuthManager.authenticateUserOn AuthManager.authenticateUser storeUserModel
  simp only
  cases User.findOne p db (normalizeEmail p email) with
  | none => rfl
  | some user =>
    simp only
    cases truthy user.password
    · rfl
    · simp only [Bool.not_true, Bool.false_eq_true, if_false]
      rcases verifyHashParams p user.password password with _ | _ | _
      · rfl
      · rfl
      · simp only
        cases generateJWTToken p
          { id := (AuthManager.sanitizeUserDoc user).id,
            email := (AuthManager.sanitizeUserDoc user).email } now <;> rfl

theorem getProfileOn_store (p : Platform) (db : Store) (userId : ObjectId) :
    AuthManager.getProfileOn (storeUserModel p) db userId
      = (db, AuthManager.getProfile db userId) := by
  unfold AuthManager.getProfileOn AuthManager.getProfile storeUserModel
  simp only
  cases User.findById db userId <;> rfl

theorem registerUserOn_journaled {σ : Type} (U : UserModel σ) (p : Platform) (s : σ)
    (journal : List UserStoreOp) (email password : JSString) (io : RegisterIO) :
    AuthManager.registerUserOn U.journaled p (s, journal) email password io
      = (((AuthManager.registerUserOn U p s email password io).1,
          journal ++ (if (U.existsDoc s (normalizeEmail p email)).2 then [.existsQuery]
            else [.existsQuery, .create])),
         (AuthManager.registerUserOn U p s email password io).2) := by
  unfold AuthManager.registerUserOn UserModel.journaled
  simp only
  rcases hex : U.existsDoc s (normalizeEmail p email) with ⟨s1, _ | _⟩
  · simp only [Bool.false_eq_true, if_false]
    rcases hc : U.create s1 (normalizeEmail p email) (convertToHash p password io.salt)
      io.tCreate with ⟨s2, e | user⟩
    · simp
    · simp only
      cases generateJWTToken p
        { id := (AuthManager.sanitizeUserDoc user).id,
          email := (AuthManager.sanitizeUserDoc user).email } io.tSign <;> simp
  · simp

theorem authenticateUserOn_journaled {σ : Type} (U : UserModel σ) (p : Platform) (s : σ)
    (journal : List UserStoreOp) (email password : JSString) (now : Timestamp) :
    AuthManager.authenticateUserOn U.journaled p (s, journal) email password now
      = (((AuthManager.authenticateUserOn U p s email password now).1,
          journal ++ [.findOne]),
         (AuthManager.authenticateUserOn U p s email password now).2) := by
  unfold AuthManager.authenticateUserOn UserModel.journaled
  simp only
  rcases hf : U.findOne s (normalizeEmail p email) with ⟨s1, _ | user⟩
  · rfl
  · simp only
    cases truthy user.password
    · rfl
    · simp only [Bool.not_true, Bool.false_eq_true, if_false]
      rcases verifyHashParams p user.password password with _ | _ | _
      · rfl
      · rfl
      · simp only
        cases generateJWTToken p
          { id := (AuthManager.sanitizeUserDoc user).id,
            email := (AuthManager.sanitizeUserDoc user).email } now <;> rfl

theorem getProfileOn_journaled {σ : Type} (U : UserModel σ) (s : σ)
    (journal : List UserStoreOp) (userId : ObjectId) :
    AuthManager.getProfileOn U.journaled (s, journal) userId
      = (((AuthManager.getProfileOn U s userId).1, journal ++ [.findById]),
         (AuthManager.getProfileOn U s userId).2) := by
  unfold AuthManager.getProfileOn UserModel.journaled
  simp only
  rcases hf : U.findById s userId with ⟨s1, _ | user⟩ <;> rfl
/-- C14 (as stated, refuted): a successful registration (`Alice@Example.com` in the store
that holds bob), run on the model that journals its calls, leaves two calls of the `User`
model in the journal, `User.exists` and then `User.create`, not one. -/
theorem registerUser_success_two_store_calls :
    ((AuthManager.registerUserOn (storeUserModel demoPlatform).journaled demoPlatform
        (storeBob, []) "Alice@Example.com".toList "Passw0rd!".toList
        registerIO0).2.toOption.map (·.status)) = some .RECORD_CREATED ∧
    (AuthManager.registerUserOn (storeUserModel demoPlatform).journaled demoPlatform
        (storeBob, []) "Alice@Example.com".toList "Passw0rd!".toList registerIO0).1.2
      = [.existsQuery, .create] ∧
    (AuthManager.registerUserOn (storeUserModel demoPlatform).journaled demoPlatform
        (storeBob, []) "Alice@Example.com".toList "Passw0rd!".toList
        registerIO0).1.2.length ≠ 1 := by
  refine ⟨by rfl, by rfl, by decide⟩

/-- C14 (amended): the three manager functions, written against the methods of the `User`
model, return over the store what `registerUser`, `authenticateUser` and `getProfile`
return; run on the model whose methods journal themselves, on every path
`authenticateUser` adds exactly one call to the journal (`User.findOne`), `getProfile`
exactly one (`User.findById`), and `registerUser` one read (`User.exists`) followed, unless
the email is already registered, by one create (`User.create`): one call on the CONFLICT
path and two on every other path, a successful registration included. -/
theorem auth_user_store_calls (p : Platform) (db : Store) (journal : List UserStoreOp)
    (email password : JSString) (io : RegisterIO) (tLogin : Timestamp) (userId : ObjectId) :
    AuthManager.registerUserOn (storeUserModel p) p db email password io
      = AuthManager.registerUser p db email password io ∧
    AuthManager.registerUserOn (storeUserModel p).journaled p (db, journal) email password io
      = (((AuthManager.registerUser p db email password io).1,
          journal ++ (if User.exists p db (normalizeEmail p email) then [.existsQuery]
            else [.existsQuery, .create])),
         (AuthManager.registerUser p db email password io).2) ∧
    AuthManager.authenticateUserOn (storeUserModel p) p db email password tLogin
      = (db, AuthManager.authenticateUser p db email password tLogin) ∧
    AuthManager.authenticateUserOn (storeUserModel p).journaled p (db, journal) email
        password tLogin
      = ((db, journal ++ [.findOne]), AuthManager.authenticateUser p db email password tLogin) ∧
    AuthManager.getProfileOn (storeUserModel p) db userId
      = (db, AuthManager.getProfile db userId) ∧
    AuthManager.getProfileOn (storeUserModel p).journaled (db, journal) userId
      = ((db, journal ++ [.findById]), AuthManager.getProfile db userId) := by
  refine ⟨registerUserOn_store p db email password io, ?_,
    authenticateUserOn_store p db email password tLogin, ?_,
    getProfileOn_store p db userId, ?_⟩
  · rw [registerUserOn_journaled, registerUserOn_store]
    rfl
  · rw [authenticateUserOn_journaled, authenticateUserOn_store]
  · rw [getProfileOn_journaled, getProfileOn_store]

/-! ## Request validation -/

theorem messageSchema_rejects (b : MessageBody)
    (h : b.unknownKeys = true ∨ b.content = none ∨ b.content = some .null ∨
      b.content = some .other ∨ b.content = some (.string []) ∨
      ∃ s, b.content = some (.string s) ∧ 4000 < jsLength s) :
    messageSchema (.object b) = none := by
  unfold messageSchema
  rcases h with h | h | h | h | h | ⟨s, h, hlen⟩
  · simp [h]
  · simp [h, StringRule.accepts]
  · simp [h, StringRule.accepts]
  · simp [h, StringRule.accepts]
  · simp [h, StringRule.accepts]
  · have hn : ¬ jsLength s ≤ 4000 := by omega
    simp only [h, StringRule.accepts]
    cases s with
    | nil => simp
    | cons a s => simp [hn]

theorem chatIdParamSchema_rejects (chatId : JSString)
    (h : jsLength chatId ≠ 24 ∨ ∃ c ∈ chatId, isHexDigit c = false) :
    chatIdParamSchema chatId = false := by
  unfold chatIdParamSchema
  simp only [StringRule.accepts]
  cases chatId with
  | nil => simp
  | cons a s =>
    rcases h with h | ⟨c, hc, hhex⟩
    · simp [h]
    · have : ((a :: s).all isHexDigit) = false := by
        rw [List.all_eq_false]
        exact ⟨c, hc, by simp [hhex]⟩
      simp [this]

theorem createChatSchema_rejects (b : CreateChatBody)
    (h : b.unknownKeys = true ∨ (∃ s, b.title = some (.string s) ∧ 120 < jsLength s) ∨
      (∃ s, b.message = some (.string s) ∧ 4000 < jsLength s) ∨
      b.title = some .other ∨ b.message = some .other) :
    createChatSchema (.object b) = none := by
  unfold createChatSchema
  rcases h with h | ⟨s, h, hlen⟩ | ⟨s, h, hlen⟩ | h | h
  · simp [h]
  · have hn : ¬ jsLength s ≤ 120 := by omega
    have hs : s ≠ [] := by
      intro h0; rw [h0] at hlen; exact absurd hlen (by decide)
    simp [h, StringRule.accepts, hs, hn]
  · have hn : ¬ jsLength s ≤ 4000 := by omega
    have hs : s ≠ [] := by
      intro h0; rw [h0] at hlen; exact absurd hlen (by decide)
    simp [h, StringRule.accepts, hs, hn]
  · simp [h, StringRule.accepts]
  · simp [h, StringRule.accepts]

theorem postMessages_bad_request (env : LLMEnv) (db : Store) (user : Claims)
    (chatId : JSString) (body : Body MessageBody) (io : ExchangeIO)
    (h : chatIdParamSchema chatId = false ∨ messageSchema body = none) :
    ChatController.postMessages env db (some user) chatId body io =
      (db, { status := .BAD_REQUEST, body := .validationError }) := by
  unfold ChatController.postMessages
  by_cases hc : chatIdParamSchema chatId = true
  · rcases h with h | h
    · rw [h] at hc; cases hc
    · simp [hc, h]
  · simp [hc]

theorem postChats_bad_request (env : LLMEnv) (db : Store) (user : Claims)
    (body : Body CreateChatBody) (io : CreateChatIO) (h : createChatSchema body = none) :
    ChatController.postChats env db (some user) body io =
      (db, { status := .BAD_REQUEST, body := .validationError }) := by
  unfold ChatController.postChats
  simp [h]

/-! ## C15 -/

/-- C15 (the code at the failing input): user 1 posts the content " " to the own chat
`000000000000000000000000`. Both Joi schemas accept the request (the content has one
character), `postMessage` runs, the message schema rejects the trimmed, empty content and
the handler answers SERVER_ERROR_CODE 'Unable to send message', not BAD_REQUEST; the store
is unchanged. -/
theorem postMessages_whitespace_content_server_error :
    chatIdParamSchema "000000000000000000000000".toList = true ∧
    messageSchema (.object { content := some (.string " ".toList), unknownKeys := false })
      = some " ".toList ∧
    trim " ".toList = [] ∧
    ChatController.postMessages env0 storeOneChat
        (some { id := 1, email := [], iat := 0, exp := 36000 })
        "000000000000000000000000".toList
        (.object { content := some (.string " ".toList), unknownKeys := false }) io0
      = (storeOneChat,
         { status := .SERVER_ERROR_CODE, body := .message "Unable to send message".toList }) := by
  refine ⟨by rfl, by rfl, by rfl, by rfl⟩

/-! ## Every outcome of an exchange -/

theorem chatSave_frame (db : Store) (chat : ChatDoc) (modified : Bool) (now : Timestamp) :
    (Chat.save db chat modified now).1.users = db.users ∧
    (Chat.save db chat modified now).1.messages = db.messages ∧
    (Chat.save db chat modified now).1.nextId = db.nextId ∧
    ((Chat.save db chat modified now).1.chats = db.chats ∨
     (Chat.save db chat modified now).1.chats
       = db.chats.map (touchChat chat._id chat.lastMessageAt now)) := by
  unfold Chat.save
  cases modified with
  | false => exact ⟨rfl, rfl, rfl, Or.inl rfl⟩
  | true =>
    simp only [Bool.not_true, Bool.false_eq_true, if_false]
    split
    · exact ⟨rfl, rfl, rfl, Or.inr rfl⟩
    · exact ⟨rfl, rfl, rfl, Or.inl rfl⟩

/-- Every outcome of an exchange, thrown or not: users untouched, messages only appended
(none, the user message, or the user message and the reply), chats untouched or touched. -/
theorem executeExchange_frame (env : LLMEnv) (db : Store) (chat : ChatDoc) (userId : ObjectId)
    (email content : JSString) (io : ExchangeIO) :
    (ChatManager.executeExchange env db chat userId email content io).1.users = db.users ∧
    (∃ added, (ChatManager.executeExchange env db chat userId email content io).1.messages
        = db.messages ++ added ∧
      (∀ ex, (ChatManager.executeExchange env db chat userId email content io).2 = .ok ex →
        ∃ u a, added = [u, a] ∧ u.role = .user ∧ a.role = .assistant ∧ a.chat = u.chat ∧
          a.user = u.user ∧ u.chat = chat._id ∧ a.createdAt = io.tAssistant ∧
          ex.messages = [ChatManager.serializeMessage u, ChatManager.serializeMessage a])) ∧
    ((ChatManager.executeExchange env db chat userId email content io).1.chats = db.chats ∨
     (ChatManager.executeExchange env db chat userId email content io).1.chats
       = db.chats.map (touchChat chat._id io.tAssistant io.tSave)) := by
  unfold ChatManager.executeExchange
  by_cases hu : trim content = [] ∨ 4000 < jsLength (trim content)
  · rw [messageCreate_error db chat._id userId .user content io.tUser hu]
    exact ⟨rfl, ⟨[], by simp, by intro ex h; cases h⟩, Or.inl rfl⟩
  · have h1 : trim content ≠ [] := fun h0 => hu (Or.inl h0)
    have h2 : jsLength (trim content) ≤ 4000 := by
      by_contra h0; exact hu (Or.inr (by omega))
    rw [messageCreate_ok db chat._id userId .user content io.tUser h1 h2]
    simp only [LLMService.generateReply]
    by_cases hlong : 3753 < jsLength content
    · rw [messageCreate_error _ chat._id userId .assistant _ io.tAssistant
        (Or.inr (by rw [trim_reply, jsLength_reply]; omega))]
      exact ⟨rfl, ⟨_, rfl, by intro ex h; cases h⟩, Or.inl rfl⟩
    · have ha : jsLength (trim (replyPrefix ++ content ++ replySuffix)) ≤ 4000 := by
        rw [trim_reply, jsLength_reply]; omega
      have hane : trim (replyPrefix ++ content ++ replySuffix) ≠ [] := by
        rw [trim_reply]; exact reply_ne_nil content
      rw [messageCreate_ok _ chat._id userId .assistant _ io.tAssistant hane ha]
      simp only
      obtain ⟨hsu, hsm, -, hsc⟩ := chatSave_frame
        { db with
            messages := db.messages ++
              [{ _id := db.nextId, chat := chat._id, user := userId, role := .user,
                 content := trim content, createdAt := io.tUser, updatedAt := io.tUser }] ++
              [{ _id := db.nextId + 1, chat := chat._id, user := userId, role := .assistant,
                 content := trim (replyPrefix ++ content ++ replySuffix),
                 createdAt := io.tAssistant, updatedAt := io.tAssistant }],
            nextId := db.nextId + 1 + 1 }
        { chat with lastMessageAt := io.tAssistant }
        (chat.lastMessageAt != io.tAssistant) io.tSave
      revert hsu hsm hsc
      generalize Chat.save _ _ _ io.tSave = sv
      intro hsu hsm hsc
      let u0 : MessageDoc :=
        { _id := db.nextId, chat := chat._id, user := userId, role := .user,
          content := trim content, createdAt := io.tUser, updatedAt := io.tUser }
      let a0 : MessageDoc :=
        { _id := db.nextId + 1, chat := chat._id, user := userId, role := .assistant,
          content := trim (replyPrefix ++ content ++ replySuffix),
          createdAt := io.tAssistant, updatedAt := io.tAssistant }
      have hm : db.messages ++ [u0] ++ [a0] = db.messages ++ [u0, a0] := by simp
      rcases sv with ⟨d, e | x⟩
      · exact ⟨hsu, ⟨[u0, a0], hsm.trans hm, by intro ex h; cases h⟩, hsc⟩
      · refine ⟨hsu, ⟨[u0, a0], hsm.trans hm, ?_⟩, hsc⟩
        intro ex h
        cases h
        exact ⟨u0, a0, rfl, rfl, rfl, rfl, rfl, rfl, rfl, rfl⟩

theorem found_chat_id (db : Store) (userId chatId : ObjectId) (skip : Bool) (chat : ChatDoc)
    (h : (if skip then Chat.findById db chatId
          else ChatManager.findOwnedChat db userId chatId) = some chat) :
    chat ∈ db.chats ∧ chat._id = chatId := by
  cases skip with
  | true =>
    simp only [if_true, Chat.findById] at h
    exact ⟨List.mem_of_find?_eq_some h, by simpa using List.find?_some h⟩
  | false =>
    simp only [Bool.false_eq_true, if_false, ChatManager.findOwnedChat, Chat.findOne] at h
    have hp := List.find?_some h
    simp only [Bool.and_eq_true, beq_iff_eq] at hp
    exact ⟨List.mem_of_find?_eq_some h, hp.1⟩

/-- Every outcome of `postMessage`: the NOT_FOUND result with the store as it was, or the
outcome of an exchange on a stored chat with the requested id. -/
theorem postMessage_frame (env : LLMEnv) (db : Store) (userId : ObjectId) (email : JSString)
    (chatId : ObjectId) (content : JSString) (skip : Bool) (io : ExchangeIO) :
    (ChatManager.postMessage env db userId email chatId content skip io
        = (db, .ok chatNotFound) ∧
      (if skip then Chat.findById db chatId
       else ChatManager.findOwnedChat db userId chatId) = none) ∨
    ((ChatManager.postMessage env db userId email chatId content skip io).1.users = db.users ∧
     (∃ added, (ChatManager.postMessage env db userId email chatId content skip io).1.messages
          = db.messages ++ added ∧
        ∀ r, (ChatManager.postMessage env db userId email chatId content skip io).2 = .ok r →
          r.status = .SUCCESS_CODE ∧
          ∃ u a, added = [u, a] ∧ u.role = .user ∧ a.role = .assistant ∧ a.chat = u.chat ∧
            a.user = u.user ∧ u.chat = chatId ∧ a.createdAt = io.tAssistant ∧
            r.messages = some [ChatManager.serializeMessage u,
                               ChatManager.serializeMessage a]) ∧
     ((ChatManager.postMessage env db userId email chatId content skip io).1.chats = db.chats ∨
      (ChatManager.postMessage env db userId email chatId content skip io).1.chats
        = db.chats.map (touchChat chatId io.tAssistant io.tSave))) := by
  unfold ChatManager.postMessage
  cases hf : (if skip then Chat.findById db chatId
              else ChatManager.findOwnedChat db userId chatId) with
  | none => exact Or.inl ⟨rfl, rfl⟩
  | some chat =>
    right
    obtain ⟨-, hid⟩ := found_chat_id db userId chatId skip chat hf
    obtain ⟨hu, ⟨added, hm, hpair⟩, hc⟩ :=
      executeExchange_frame env db chat userId email content io
    rw [hid] at hc hpair
    simp only
    rcases hres : ChatManager.executeExchange env db chat userId email content io
      with ⟨d, e | x⟩ <;> rw [hres] at hu hm hpair hc
    · exact ⟨hu, ⟨added, hm, by intro r hr; cases hr⟩, hc⟩
    · refine ⟨hu, ⟨added, hm, ?_⟩, hc⟩
      intro r hr
      cases hr
      obtain ⟨u, a, h1, h2, h3, h4, h5, h6, h7, h8⟩ := hpair x rfl
      exact ⟨rfl, u, a, h1, h2, h3, h4, h5, h6, h7, by rw [h8]⟩

/-- Every outcome of `createChat`: the title is rejected and nothing changes, or one chat is
appended and, for a non-empty message, an exchange runs on it. -/
theorem createChat_frame (env : LLMEnv) (db : Store) (userId : ObjectId) (email : JSString)
    (title message : Option JSString) (io : CreateChatIO) :
    (ChatManager.createChat env db userId email title message io
        = (db, .error .ValidationError) ∧ 120 < jsLength (trim (titleOrDefault title))) ∨
    (jsLength (trim (titleOrDefault title)) ≤ 120 ∧
     (ChatManager.createChat env db userId email title message io).1.users = db.users ∧
     (∃ added, (ChatManager.createChat env db userId email title message io).1.messages
          = db.messages ++ added ∧
        ∀ r, (ChatManager.createChat env db userId email title message io).2 = .ok r →
          r.status = .RECORD_CREATED ∧
          ((added = [] ∧ r.messages = some []) ∨
           ∃ u a, added = [u, a] ∧ u.role = .user ∧ a.role = .assistant ∧ a.chat = u.chat ∧
             a.user = u.user ∧ u.chat = db.nextId ∧
             r.messages = some [ChatManager.serializeMessage u,
                                ChatManager.serializeMessage a])) ∧
     (∃ c0 : ChatDoc, c0._id = db.nextId ∧ c0.user = userId ∧
        c0.title = trim (titleOrDefault title) ∧
        ((ChatManager.createChat env db userId email title message io).1.chats
            = db.chats ++ [c0] ∨
         (ChatManager.createChat env db userId email title message io).1.chats
            = (db.chats ++ [c0]).map
                (touchChat db.nextId io.exchange.tAssistant io.exchange.tSave)))) := by
  by_cases hfit : jsLength (trim (titleOrDefault title)) ≤ 120
  · right
    refine ⟨hfit, ?_⟩
    have hcreate := chatCreate_ok db userId (titleOrDefault title) io.tDefault io.tCreate hfit
    obtain ⟨c0, hc0⟩ : ∃ c0 : ChatDoc, c0 =
        { _id := db.nextId, user := userId, title := trim (titleOrDefault title),
          lastMessageAt := io.tDefault, createdAt := io.tCreate, updatedAt := io.tCreate } :=
      ⟨_, rfl⟩
    rw [← hc0] at hcreate
    have hid : c0._id = db.nextId := by rw [hc0]
    have huser : c0.user = userId := by rw [hc0]
    have htitle : c0.title = trim (titleOrDefault title) := by rw [hc0]
    unfold ChatManager.createChat
    rw [hcreate]
    have hplain : ∀ s : Store × Except Thrown ChatResult,
        s = ({ db with chats := db.chats ++ [c0], nextId := db.nextId + 1 },
          .ok { status := .RECORD_CREATED, message := some "Chat created".toList,
                chat := some (ChatManager.serializeChat c0), chats := none,
                messages := some [], metadata := none }) →
        s.1.users = db.users ∧
        (∃ added, s.1.messages = db.messages ++ added ∧
          ∀ r, s.2 = .ok r → r.status = .RECORD_CREATED ∧
            ((added = [] ∧ r.messages = some []) ∨
             ∃ u a, added = [u, a] ∧ u.role = .user ∧ a.role = .assistant ∧
               a.chat = u.chat ∧ a.user = u.user ∧ u.chat = db.nextId ∧
               r.messages = some [ChatManager.serializeMessage u,
                                  ChatManager.serializeMessage a])) ∧
        (∃ c0 : ChatDoc, c0._id = db.nextId ∧ c0.user = userId ∧
          c0.title = trim (titleOrDefault title) ∧
          (s.1.chats = db.chats ++ [c0] ∨
           s.1.chats = (db.chats ++ [c0]).map
              (touchChat db.nextId io.exchange.tAssistant io.exchange.tSave))) := by
      intro s hs
      subst hs
      refine ⟨rfl, ⟨[], by simp, ?_⟩, ⟨c0, hid, huser, htitle, Or.inl rfl⟩⟩
      intro r hr
      cases hr
      exact ⟨rfl, Or.inl ⟨rfl, rfl⟩⟩
    cases message with
    | none => exact hplain _ rfl
    | some m =>
      simp only
      by_cases hm : truthy m = true
      · simp only [hm, if_true]
        obtain ⟨hu, ⟨added, hmsg, hpair⟩, hc⟩ := executeExchange_frame env
          { db with chats := db.chats ++ [c0], nextId := db.nextId + 1 } c0 userId email m
          io.exchange
        rw [hid] at hc hpair
        rcases hres : ChatManager.executeExchange env
            { db with chats := db.chats ++ [c0], nextId := db.nextId + 1 } c0 userId email m
            io.exchange with ⟨d, e | x⟩ <;> rw [hres] at hu hmsg hpair hc
        · exact ⟨hu, ⟨added, hmsg, by intro r hr; cases hr⟩, ⟨c0, hid, huser, htitle, hc⟩⟩
        · refine ⟨hu, ⟨added, hmsg, ?_⟩, ⟨c0, hid, huser, htitle, hc⟩⟩
          intro r hr
          cases hr
          obtain ⟨u, a, h1, h2, h3, h4, h5, h6, -, h8⟩ := hpair x rfl
          exact ⟨rfl, Or.inr ⟨u, a, h1, h2, h3, h4, h5, h6, by rw [h8]⟩⟩
      · rw [if_neg hm]
        exact hplain _ rfl
  · left
    have hlt : 120 < jsLength (trim (titleOrDefault title)) := by omega
    refine ⟨?_, hlt⟩
    unfold ChatManager.createChat
    rw [chatCreate_error db userId (titleOrDefault title) io.tDefault io.tCreate hlt]

/-! ## The title of a new chat -/

theorem trim_eq_nil_iff (t : JSString) : trim t = [] ↔ t.all isWhiteSpace = true := by
  unfold trim
  rw [List.rdropWhile_eq_nil_iff, List.all_eq_true]
  constructor
  · intro h
    have hd : t.dropWhile isWhiteSpace = [] := by
      cases hd : t.dropWhile isWhiteSpace with
      | nil => rfl
      | cons a d =>
        have ha : isWhiteSpace a = true := h a (by rw [hd]; exact List.mem_cons_self a d)
        have hidem := List.dropWhile_idempotent isWhiteSpace t
        rw [hd, List.dropWhile_cons_of_pos ha] at hidem
        have := (List.dropWhile_sublist isWhiteSpace (l := d)).length_le
        rw [hidem] at this
        simp at this
    exact List.dropWhile_eq_nil_iff.mp hd
  · intro h x hx
    exact h x ((List.dropWhile_sublist isWhiteSpace).subset hx)

theorem titleOrDefault_eq_specTitle (title : Option JSString) :
    trim (titleOrDefault title) = specTitle title ∧ specTitle title ≠ [] := by
  have hdef : trim "New Chat".toList = "New Chat".toList := by decide
  have hne : "New Chat".toList ≠ [] := by decide
  unfold titleOrDefault specTitle
  cases title with
  | none => exact ⟨hdef, hne⟩
  | some t =>
    simp only [Option.map_some']
    by_cases hw : t.all isWhiteSpace = true
    · have h0 := (trim_eq_nil_iff t).mpr hw
      simp only [hw, if_true, h0, truthy, List.isEmpty_nil, Bool.not_true,
        Bool.false_eq_true, if_false]
      exact ⟨hdef, hne⟩
    · have h0 : trim t ≠ [] := fun h => hw ((trim_eq_nil_iff t).mp h)
      have ht : truthy (trim t) = true := by
        cases htt : trim t with
        | nil => exact absurd htt h0
        | cons a l => rfl
      simp only [hw, Bool.false_eq_true, if_false, ht, if_true]
      exact ⟨trim_trim t, h0⟩

theorem touchChat_frame (target : ObjectId) (tA tS : Timestamp) (c : ChatDoc) :
    (touchChat target tA tS c)._id = c._id ∧ (touchChat target tA tS c).user = c.user ∧
    (touchChat target tA tS c).title = c.title ∧
    (touchChat target tA tS c).createdAt = c.createdAt ∧
    (c._id ≠ target → touchChat target tA tS c = c) := by
  unfold touchChat
  by_cases h : c._id = target
  · simp [h]
  · simp [h]

/-! ## C16 -/

/-- C16: for every title argument of `createChat`, either the chat schema rejects the title
(its specified form is longer than 120) and nothing is created, or exactly one chat is
appended whose title is the title of the specification: 'New Chat' when the argument is
`undefined`, `null`, empty or whitespace only, and otherwise the argument without its
leading and trailing whitespace; that title is never empty. -/
theorem createChat_title (env : LLMEnv) (db : Store) (userId : ObjectId) (email : JSString)
    (title message : Option JSString) (io : CreateChatIO) :
    (ChatManager.createChat env db userId email title message io
       = (db, .error .ValidationError) ∧ 120 < jsLength (specTitle title)) ∨
    (∃ c, (ChatManager.createChat env db userId email title message io).1.chats.getLast?
        = some c ∧
      (ChatManager.createChat env db userId email title message io).1.chats.length
        = db.chats.length + 1 ∧
      c._id = db.nextId ∧ c.user = userId ∧ c.title = specTitle title ∧ c.title ≠ []) := by
  obtain ⟨hspec, hne⟩ := titleOrDefault_eq_specTitle title
  rcases createChat_frame env db userId email title message io with
    ⟨h, hlen⟩ | ⟨-, -, -, c0, hid, huser, htitle, hchats | hchats⟩
  · left; rw [← hspec]; exact ⟨h, hlen⟩
  · right
    refine ⟨c0, by rw [hchats]; simp, by rw [hchats]; simp, hid, huser, ?_, ?_⟩
    · rw [htitle, hspec]
    · rw [htitle, hspec]; exact hne
  · right
    obtain ⟨t1, t2, t3, -, -⟩ :=
      touchChat_frame db.nextId io.exchange.tAssistant io.exchange.tSave c0
    refine ⟨touchChat db.nextId io.exchange.tAssistant io.exchange.tSave c0,
      by rw [hchats]; simp, by rw [hchats]; simp, by rw [t1, hid], by rw [t2, huser], ?_, ?_⟩
    · rw [t3, htitle, hspec]
    · rw [t3, htitle, hspec]; exact hne

/-! ## Messages go in pairs -/

theorem alternates_append_pair (l : List MessageDoc) (u a : MessageDoc)
    (hl : alternates l = true) (hu : u.role = .user) (ha : a.role = .assistant)
    (hc : a.chat = u.chat) (hx : a.user = u.user) :
    alternates (l ++ [u, a]) = true := by
  induction l using alternates.induct with
  | case1 => simp [alternates, hu, ha, hc, hx]
  | case2 x => simp [alternates] at hl
  | case3 x y rest ih =>
    simp only [alternates, Bool.and_eq_true] at hl
    simp only [List.cons_append, alternates, Bool.and_eq_true]
    exact ⟨hl.1, ih hl.2⟩

theorem alternates_filter_chat (l : List MessageDoc) (chatId : ObjectId)
    (hl : alternates l = true) :
    alternates (l.filter (fun m => m.chat == chatId)) = true := by
  induction l using alternates.induct with
  | case1 => rfl
  | case2 x => simp [alternates] at hl
  | case3 x y rest ih =>
    simp only [alternates, Bool.and_eq_true, beq_iff_eq] at hl
    obtain ⟨⟨⟨⟨h1, h2⟩, h3⟩, h4⟩, h5⟩ := hl
    by_cases hx : x.chat = chatId
    · have hy : y.chat = chatId := by rw [h3, hx]
      simp only [List.filter_cons, hx, hy, beq_self_eq_true, if_true, alternates,
        Bool.and_eq_true, beq_iff_eq]
      exact ⟨⟨⟨⟨h1, h2⟩, trivial⟩, h4⟩, ih h5⟩
    · have hy : ¬ y.chat = chatId := by rw [h3]; exact hx
      have hxb : (x.chat == chatId) = false := by simpa using hx
      have hyb : (y.chat == chatId) = false := by simpa using hy
      simp only [List.filter_cons, hxb, hyb, Bool.false_eq_true, if_false]
      exact ih h5

theorem resolved_alternates (env : LLMEnv) (db : Store) (h : ReachableResolved env db) :
    alternates db.messages = true := by
  induction h with
  | empty => rfl
  | step db db1 call r _ hrun ih =>
    cases call with
    | createChat userId email title message io =>
      simp only [Call.run] at hrun
      rcases createChat_frame env db userId email title message io with
        ⟨h, -⟩ | ⟨-, -, ⟨added, hmsg, hok⟩, -⟩
      · rw [h] at hrun; cases hrun
      · rw [hrun] at hmsg hok
        obtain ⟨-, hcase⟩ := hok r rfl
        rcases hcase with ⟨h0, -⟩ | ⟨u, a, h0, hu, ha, hc, hx, -⟩
        · simp only at hmsg; rw [hmsg, h0, List.append_nil]; exact ih
        · simp only at hmsg; rw [hmsg, h0]
          exact alternates_append_pair _ u a ih hu ha hc hx
    | postMessage userId email chatId content skip io =>
      simp only [Call.run] at hrun
      rcases postMessage_frame env db userId email chatId content skip io with
        ⟨h, -⟩ | ⟨-, ⟨added, hmsg, hok⟩, -⟩
      · rw [h] at hrun
        simp only [Prod.mk.injEq] at hrun
        rw [← hrun.1]; exact ih
      · rw [hrun] at hmsg hok
        obtain ⟨-, u, a, h0, hu, ha, hc, hx, -⟩ := hok r rfl
        simp only at hmsg; rw [hmsg, h0]
        exact alternates_append_pair _ u a ih hu ha hc hx

theorem alternates_even (l : List MessageDoc) (hl : alternates l = true) :
    Even l.length := by
  induction l using alternates.induct with
  | case1 => exact ⟨0, rfl⟩
  | case2 x => simp [alternates] at hl
  | case3 x y rest ih =>
    simp only [alternates, Bool.and_eq_true] at hl
    obtain ⟨k, hk⟩ := ih hl.2
    exact ⟨k + 1, by simp only [List.length_cons, hk]; omega⟩

/-! ## C17 -/

theorem reachable_of_resolved (env : LLMEnv) (db : Store) (h : ReachableResolved env db) :
    Reachable env db := by
  induction h with
  | empty => exact Reachable.empty
  | step db db1 call r _ hrun ih => exact Reachable.step db db1 call (.ok r) ih hrun

/-- As long as no call rejects, the messages of every chat, in storage order, go in pairs: a
message with role 'user' immediately followed by one message with role 'assistant' of the
same chat and user, so their number is even. -/
theorem resolved_messages_alternate (env : LLMEnv) (db : Store) (chatId : ObjectId)
    (h : ReachableResolved env db) :
    alternates (db.messages.filter (fun m => m.chat == chatId)) = true ∧
    Even (db.messages.filter (fun m => m.chat == chatId)).length :=
  have ha := alternates_filter_chat db.messages chatId (resolved_alternates env db h)
  ⟨ha, alternates_even _ ha⟩

theorem jsLength_replicate_a (n : Nat) : jsLength (List.replicate n 'a') = n := by
  induction n with
  | zero => rfl
  | succ n ih =>
    rw [List.replicate_succ]
    show jsLength (['a'] ++ List.replicate n 'a') = n + 1
    rw [jsLength_append, ih, Nat.add_comm]
    rfl

theorem trim_replicate_a (n : Nat) : trim (List.replicate n 'a') = List.replicate n 'a' :=
  trim_of_no_whiteSpace _ (fun c hc => by
    rw [List.eq_of_mem_replicate hc]; decide)

theorem postMessage_reply_rejected (env : LLMEnv) (db : Store) (c : ChatDoc)
    (email content : JSString) (io : ExchangeIO)
    (hnodup : (db.chats.map (·._id)).Nodup) (hc : c ∈ db.chats)
    (htrim : trim content ≠ []) (hfits : jsLength (trim content) ≤ 4000)
    (hlong : 3753 < jsLength content) :
    ChatManager.postMessage env db c.user email c._id content false io =
      ({ db with
          messages := db.messages ++
            [{ _id := db.nextId, chat := c._id, user := c.user, role := .user,
               content := trim content, createdAt := io.tUser, updatedAt := io.tUser }],
          nextId := db.nextId + 1 },
       .error .ValidationError) := by
  have hfind : ChatManager.findOwnedChat db c.user c._id = some c :=
    findOne_eq_some_of_mem db c hnodup hc
  unfold ChatManager.postMessage
  simp only [Bool.false_eq_true, if_false, hfind]
  rw [executeExchange_reply_rejected env db c c.user email content io htrim hfits hlong]

theorem storeNewChat_eq :
    storeNewChat =
      { users := [],
        chats := [{ _id := 0, user := 1, title := "New Chat".toList, lastMessageAt := 150,
                    createdAt := 151, updatedAt := 151 }],
        messages := [], nextId := 1 } := by rfl

theorem storeNewChat_chat_mem :
    ({ _id := 0, user := 1, title := "New Chat".toList, lastMessageAt := 150,
       createdAt := 151, updatedAt := 151 } : ChatDoc) ∈ storeNewChat.chats := by
  rw [storeNewChat_eq]; exact List.mem_singleton.mpr rfl

theorem postMessage_long_rejected :
    ChatManager.postMessage env0 storeNewChat 1 [] 0 (List.replicate 3754 'a') false io0 =
      ({ storeNewChat with
          messages :=
            [{ _id := 1, chat := 0, user := 1, role := .user,
               content := List.replicate 3754 'a', createdAt := 200, updatedAt := 200 }],
          nextId := 2 },
       .error .ValidationError) := by
  have h := postMessage_reply_rejected env0 storeNewChat
    { _id := 0, user := 1, title := "New Chat".toList, lastMessageAt := 150,
      createdAt := 151, updatedAt := 151 } [] (List.replicate 3754 'a') io0
    (by rw [storeNewChat_eq]; decide) storeNewChat_chat_mem
    (by rw [trim_replicate_a]; exact fun h => by
          have := congrArg List.length h
          rw [List.length_replicate, List.length_nil] at this
          omega)
    (by rw [trim_replicate_a, jsLength_replicate_a]; decide)
    (by rw [jsLength_replicate_a]; decide)
  rw [trim_replicate_a] at h
  exact h

theorem storeUnanswered_eq :
    storeUnanswered =
      { users := [],
        chats := [{ _id := 0, user := 1, title := "New Chat".toList, lastMessageAt := 150,
                    createdAt := 151, updatedAt := 151 }],
        messages :=
          [{ _id := 1, chat := 0, user := 1, role := .user,
             content := List.replicate 3754 'a', createdAt := 200, updatedAt := 200 }],
        nextId := 2 } := by
  unfold storeUnanswered
  rw [postMessage_long_rejected, storeNewChat_eq]

theorem storeUnansweredThenHi_status :
    (ChatManager.postMessage env0 storeUnanswered 1 [] 0 "hi".toList false io1).2.toOption.map
        (·.status) = some .SUCCESS_CODE := by
  rw [storeUnanswered_eq]; rfl

theorem storeUnansweredThenHi_messages :
    storeUnansweredThenHi.messages.map (fun m => (m._id, m.chat, m.user, m.role))
      = [(1, 0, 1, .user), (2, 0, 1, .user), (3, 0, 1, .assistant)] := by
  unfold storeUnansweredThenHi
  rw [storeUnanswered_eq]; rfl

theorem messageSchema_accepts (s : JSString) (hne : s ≠ []) (hmax : jsLength s ≤ 4000) :
    messageSchema (.object { content := some (.string s), unknownKeys := false }) = some s := by
  have hpos : 1 ≤ jsLength s := by
    cases s with
    | nil => exact absurd rfl hne
    | cons c t =>
      show 1 ≤ jsLength ([c] ++ t)
      rw [jsLength_append]
      have : 1 ≤ jsLength [c] := by
        show 1 ≤ (List.map utf16Size [c]).sum
        simp only [List.map_cons, List.map_nil, List.sum_cons, List.sum_nil, utf16Size]
        split <;> omega
      omega
  have hemp : s.isEmpty = false := by
    cases s with
    | nil => exact absurd rfl hne
    | cons c t => rfl
  simp only [messageSchema, StringRule.accepts, hemp, Bool.false_eq_true, if_false,
    decide_eq_true hpos, decide_eq_true hmax, Bool.not_false, Bool.true_and, Bool.and_true,
    Bool.true_or, Bool.or_true, Bool.and_self, if_true, JsonValue.toStr]

theorem postMessages_of_rejected (env : LLMEnv) (db db1 : Store) (user : Claims)
    (chatId : JSString) (body : Body MessageBody) (io : ExchangeIO) (content : JSString)
    (id : ObjectId) (e : Thrown)
    (hid : chatIdParamSchema chatId = true) (hschema : messageSchema body = some content)
    (hcast : castObjectId chatId = some id)
    (hrun : ChatManager.postMessage env db user.id user.email id content false io
      = (db1, .error e)) :
    ChatController.postMessages env db (some user) chatId body io
      = (db1,
         { status := .SERVER_ERROR_CODE, body := .message "Unable to send message".toList }) := by
  unfold ChatController.postMessages
  simp only [hid, hschema, hcast, hrun, Bool.not_true, Bool.false_eq_true, if_false]

theorem postMessages_long_content_server_error :
    ChatController.postMessages env0 storeNewChat
        (some { id := 1, email := [], iat := 0, exp := 36000 })
        "000000000000000000000000".toList
        (.object { content := some (.string (List.replicate 3754 'a')), unknownKeys := false })
        io0
      = (storeUnanswered,
         { status := .SERVER_ERROR_CODE, body := .message "Unable to send message".toList }) := by
  have hschema := messageSchema_accepts (List.replicate 3754 'a')
    (fun h => by
      have := congrArg List.length h
      rw [List.length_replicate, List.length_nil] at this
      omega)
    (by rw [jsLength_replicate_a]; decide)
  have h := postMessages_of_rejected env0 storeNewChat _
    { id := 1, email := [], iat := 0, exp := 36000 } "000000000000000000000000".toList
    _ io0 _ 0 _ (by rfl) hschema (by rfl) postMessage_long_rejected
  unfold storeUnanswered
  rw [postMessage_long_rejected]
  exact h

theorem reachable_step_fst (env : LLMEnv) (db : Store) (call : Call) (h : Reachable env db) :
    Reachable env (call.run env db).1 :=
  Reachable.step db _ call (call.run env db).2 h rfl

/-- C17 (the code at the failing input): user 1 creates a chat in the empty store and posts
3754 times the letter 'a' to it. The request passes the Joi schema, `postMessage` stores the
user message, the reply is 247 characters longer (4001), the message schema rejects it
(`maxlength: 4000`), the call rejects with the validation error and the handler answers
SERVER_ERROR_CODE. The store the call leaves is reachable and holds a user message without a
reply: chat 0 has one message. After a following post "hi", which resolves, the roles of the
chat are user, user, assistant: the messages do not alternate. -/
theorem reply_overflow_breaks_alternation :
    Reachable env0 storeUnanswered ∧ Reachable env0 storeUnansweredThenHi ∧
    messageSchema
        (.object { content := some (.string (List.replicate 3754 'a')), unknownKeys := false })
      = some (List.replicate 3754 'a') ∧
    jsLength (LLMService.generateReply env0 (List.replicate 3754 'a') 0 [] 0).message = 4001 ∧
    (ChatManager.postMessage env0 storeNewChat 1 [] 0 (List.replicate 3754 'a') false io0).2
      = .error .ValidationError ∧
    ChatController.postMessages env0 storeNewChat
        (some { id := 1, email := [], iat := 0, exp := 36000 })
        "000000000000000000000000".toList
        (.object { content := some (.string (List.replicate 3754 'a')), unknownKeys := false })
        io0
      = (storeUnanswered,
         { status := .SERVER_ERROR_CODE, body := .message "Unable to send message".toList }) ∧
    (storeUnanswered.messages.filter (fun m => m.chat == 0)).map (·.role) = [.user] ∧
    alternates (storeUnanswered.messages.filter (fun m => m.chat == 0)) = false ∧
    ¬ Even (storeUnanswered.messages.filter (fun m => m.chat == 0)).length ∧
    (ChatManager.postMessage env0 storeUnanswered 1 [] 0 "hi".toList false io1).2.toOption.map
        (·.status) = some .SUCCESS_CODE ∧
    (storeUnansweredThenHi.messages.filter (fun m => m.chat == 0)).map (·.role)
      = [.user, .user, .assistant] ∧
    alternates (storeUnansweredThenHi.messages.filter (fun m => m.chat == 0)) = false := by
  have hr0 : Reachable env0 storeNewChat :=
    reachable_step_fst env0 Store.empty (.createChat 1 [] none none createIO0) Reachable.empty
  have hr1 : Reachable env0 storeUnanswered :=
    reachable_step_fst env0 storeNewChat
      (.postMessage 1 [] 0 (List.replicate 3754 'a') false io0) hr0
  have hr2 : Reachable env0 storeUnansweredThenHi :=
    reachable_step_fst env0 storeUnanswered (.postMessage 1 [] 0 "hi".toList false io1) hr1
  refine ⟨hr1, hr2, ?_, ?_, ?_, postMessages_long_content_server_error, ?_, ?_, ?_,
    storeUnansweredThenHi_status, ?_, ?_⟩
  · exact messageSchema_accepts _
      (fun h => by
        have := congrArg List.length h
        rw [List.length_replicate, List.length_nil] at this
        omega)
      (by rw [jsLength_replicate_a]; decide)
  · show jsLength (replyPrefix ++ List.replicate 3754 'a' ++ replySuffix) = 4001
    rw [jsLength_reply, jsLength_replicate_a]
  · rw [postMessage_long_rejected]
  · rw [storeUnanswered_eq]; rfl
  · rw [storeUnanswered_eq]; rfl
  · rw [storeUnanswered_eq]; decide
  · unfold storeUnansweredThenHi
    rw [storeUnanswered_eq]; rfl
  · unfold storeUnansweredThenHi
    rw [storeUnanswered_eq]; rfl

/-! ## What a call leaves untouched -/

theorem sameBut_refl (target : ObjectId) (c : ChatDoc) : ChatDoc.sameBut target c c :=
  ⟨rfl, rfl, rfl, rfl, fun _ => rfl⟩

theorem forall₂_sameBut_self (target : ObjectId) (l : List ChatDoc) :
    List.Forall₂ (ChatDoc.sameBut target) l l :=
  List.forall₂_same.mpr (fun c _ => sameBut_refl target c)

theorem forall₂_sameBut_touch (target : ObjectId) (tA tS : Timestamp) (l : List ChatDoc) :
    List.Forall₂ (ChatDoc.sameBut target) l (l.map (touchChat target tA tS)) := by
  rw [List.forall₂_map_right_iff]
  exact List.forall₂_same.mpr (fun c _ => touchChat_frame target tA tS c)

theorem map_touch_fresh (db : Store) (hwf : db.WF) (tA tS : Timestamp) :
    db.chats.map (touchChat db.nextId tA tS) = db.chats := by
  conv_rhs => rw [← List.map_id db.chats]
  apply List.map_congr_left
  intro c hc
  have hlt : c._id < db.nextId := hwf.chats_lt c hc
  exact (touchChat_frame db.nextId tA tS c).2.2.2.2 (Nat.ne_of_lt hlt)

/-! ## C18 -/

/-- C18: in a well-formed store, whatever a call of `postMessage` or `createChat` does
(resolve or throw): the messages stored before are a prefix of the messages stored after
(messages are only appended), the users are untouched, and for `postMessage` every stored
chat keeps its `_id`, owner, title and `createdAt` and is unchanged altogether unless it is
the chat the call was run against (of which there is at most one), while `createChat`
leaves every stored chat as it is and appends at most one chat. `listChats` and
`getChatMessages` are reads: they return no store. -/
theorem createChat_postMessage_frame (env : LLMEnv) (db : Store) (hwf : db.WF) :
    (∀ userId email chatId content skip io,
      db.messages <+:
        (ChatManager.postMessage env db userId email chatId content skip io).1.messages ∧
      (ChatManager.postMessage env db userId email chatId content skip io).1.users
        = db.users ∧
      List.Forall₂ (ChatDoc.sameBut chatId) db.chats
        (ChatManager.postMessage env db userId email chatId content skip io).1.chats ∧
      (db.chats.map (·._id)).count chatId ≤ 1) ∧
    (∀ userId email title message io,
      db.messages <+:
        (ChatManager.createChat env db userId email title message io).1.messages ∧
      (ChatManager.createChat env db userId email title message io).1.users = db.users ∧
      ∃ created,
        (ChatManager.createChat env db userId email title message io).1.chats
          = db.chats ++ created ∧ created.length ≤ 1) := by
  constructor
  · intro userId email chatId content skip io
    refine ⟨?_, ?_, ?_, List.nodup_iff_count_le_one.mp hwf.chats_nodup chatId⟩
    · rcases postMessage_frame env db userId email chatId content skip io with
        ⟨h, -⟩ | ⟨-, ⟨added, hmsg, -⟩, -⟩
      · rw [h]
      · rw [hmsg]; exact List.prefix_append _ _
    · rcases postMessage_frame env db userId email chatId content skip io with
        ⟨h, -⟩ | ⟨hu, -, -⟩
      · rw [h]
      · exact hu
    · rcases postMessage_frame env db userId email chatId content skip io with
        ⟨h, -⟩ | ⟨-, -, hc | hc⟩
      · rw [h]; exact forall₂_sameBut_self chatId db.chats
      · rw [hc]; exact forall₂_sameBut_self chatId db.chats
      · rw [hc]; exact forall₂_sameBut_touch chatId _ _ db.chats
  · intro userId email title message io
    rcases createChat_frame env db userId email title message io with
      ⟨h, -⟩ | ⟨-, hu, ⟨added, hmsg, -⟩, c0, -, -, -, hc | hc⟩
    · rw [h]; exact ⟨List.prefix_refl _, rfl, [], by simp, by simp⟩
    · exact ⟨by rw [hmsg]; exact List.prefix_append _ _, hu, [c0], hc, by simp⟩
    · refine ⟨by rw [hmsg]; exact List.prefix_append _ _, hu,
        [touchChat db.nextId io.exchange.tAssistant io.exchange.tSave c0], ?_, by simp⟩
      rw [hc, List.map_append, map_touch_fresh db hwf]
      rfl

/-- C18, at a concrete store: user 1 posts "hi" to the own chat in `storeOneChat`. -/
theorem createChat_postMessage_frame_witness :
    storeOneChat.WF ∧
    storeOneChat.messages <+:
      (ChatManager.postMessage env0 storeOneChat 1 [] 0 "hi".toList false io0).1.messages ∧
    List.Forall₂ (ChatDoc.sameBut 0) storeOneChat.chats
      (ChatManager.postMessage env0 storeOneChat 1 [] 0 "hi".toList false io0).1.chats :=
  have h := (createChat_postMessage_frame env0 storeOneChat storeOneChat_wf).1 1 [] 0
    "hi".toList false io0
  ⟨storeOneChat_wf, h.1, h.2.2.1⟩

/-! ## C19 -/

/-- C19: whenever `postMessage` resolves with a result of status NOT_FOUND, the store after
the call is the store before it and the result is the 'Chat not found' object, which is
returned for every environment, email, content, clock and random draw (nothing of the
exchange, the reply generator included, has a part in it); and a `getChatMessages` of
status NOT_FOUND is that same object, returned because no owned chat was found. -/
theorem notFound_leaves_store (env : LLMEnv) (db : Store) (userId : ObjectId)
    (email : JSString) (chatId : ObjectId) (content : JSString) (skip : Bool)
    (io : ExchangeIO) :
    (∀ db1 r,
      ChatManager.postMessage env db userId email chatId content skip io = (db1, .ok r) →
      r.status = .NOT_FOUND →
      db1 = db ∧ r = chatNotFound ∧
      ∀ env2 email2 content2 io2,
        ChatManager.postMessage env2 db userId email2 chatId content2 skip io2
          = (db, .ok chatNotFound)) ∧
    ((ChatManager.getChatMessages db userId chatId).status = .NOT_FOUND →
      ChatManager.getChatMessages db userId chatId = chatNotFound ∧
      ChatManager.findOwnedChat db userId chatId = none) := by
  constructor
  · intro db1 r h hs
    rcases postMessage_frame env db userId email chatId content skip io with
      ⟨h0, hnone⟩ | ⟨-, ⟨added, -, hok⟩, -⟩
    · rw [h0] at h
      simp only [Prod.mk.injEq, Except.ok.injEq] at h
      refine ⟨h.1.symm, h.2.symm, ?_⟩
      intro env2 email2 content2 io2
      unfold ChatManager.postMessage
      rw [hnone]
    · rw [h] at hok
      have := (hok r rfl).1
      rw [this] at hs
      cases hs
  · intro hs
    unfold ChatManager.getChatMessages at hs ⊢
    cases hf : ChatManager.findOwnedChat db userId chatId with
    | none => exact ⟨rfl, rfl⟩
    | some c => rw [hf] at hs; cases hs

/-! ## The most recent chat -/

theorem head_of_sorted_strict_max (S : List ChatDoc) (x : ChatDoc)
    (hs : S.Sorted (fun a b => b.updatedAt ≤ a.updatedAt)) (hx : x ∈ S)
    (hmax : ∀ y ∈ S, y ≠ x → y.updatedAt < x.updatedAt) :
    ∃ rest, S = x :: rest := by
  cases S with
  | nil => cases hx
  | cons h rest =>
    refine ⟨rest, ?_⟩
    by_cases hh : h = x
    · rw [hh]
    · exfalso
      have hlt : h.updatedAt < x.updatedAt := hmax h (List.mem_cons_self h rest) hh
      have hxr : x ∈ rest := by
        rcases List.mem_cons.mp hx with h1 | h1
        · exact absurd h1.symm hh
        · exact h1
      have hle : x.updatedAt ≤ h.updatedAt := (List.pairwise_cons.mp hs).1 x hxr
      exact Nat.lt_irrefl _ (Nat.lt_of_lt_of_le hlt hle)

/-! ## C20 -/

/-- C20: in a store with unique chat ids whose chat timestamps are all older than the clock
readings of the call (the clock strictly increases), after a successful `postMessage` by
the owner of chat `c` on `c`, the first element of the list `listChats` returns for that
user is `c`, and its `lastMessageAt` is the `createdAt` of the assistant message the
`postMessage` call returned. -/
theorem postMessage_then_listChats_first (env : LLMEnv) (db db1 : Store) (c : ChatDoc)
    (email content : JSString) (io : ExchangeIO) (r : ChatResult)
    (hnodup : (db.chats.map (·._id)).Nodup) (hc : c ∈ db.chats)
    (hpost : ChatManager.postMessage env db c.user email c._id content false io
      = (db1, .ok r))
    (hclock : ∀ x ∈ db.chats, x.lastMessageAt < io.tAssistant ∧ x.updatedAt < io.tSave) :
    ∃ first rest userMessage assistantMessage,
      (ChatManager.listChats db1 c.user).chats = some (first :: rest) ∧
      first.id = c._id ∧ first.user = c.user ∧
      r.messages = some [userMessage, assistantMessage] ∧
      assistantMessage.role = .assistant ∧
      first.lastMessageAt = assistantMessage.createdAt := by
  obtain ⟨htrim, hlen⟩ := postMessage_ok_inv env db db1 c email content io r hnodup hc hpost
  obtain ⟨db1', saved, hex, -, -, -, hchats, -⟩ :=
    executeExchange_ok env db c c.user email content io htrim hlen (any_id_of_mem db c hc)
  have hmod : ¬ c.lastMessageAt = io.tAssistant := Nat.ne_of_lt (hclock c hc).1
  rw [if_neg hmod] at hchats
  have hrun : ChatManager.postMessage env db c.user email c._id content false io =
      (db1',
        .ok { status := .SUCCESS_CODE, message := some "Reply generated".toList,
              chat := some (ChatManager.serializeChat saved), chats := none,
              messages := some
                [{ id := db.nextId, chat := c._id, role := .user, content := trim content,
                   createdAt := io.tUser },
                 { id := db.nextId + 1, chat := c._id, role := .assistant,
                   content := replyPrefix ++ content ++ replySuffix,
                   createdAt := io.tAssistant }],
              metadata := some { delayMs := randomInt 10 21 io.entropy * 1000 } }) := by
    simp only [ChatManager.postMessage, ChatManager.findOwnedChat, Bool.false_eq_true,
      if_false, findOne_eq_some_of_mem db c hnodup hc, hex]
  rw [hrun] at hpost
  simp only [Prod.mk.injEq, Except.ok.injEq] at hpost
  obtain ⟨hdb, hr⟩ := hpost
  subst hdb
  subst hr
  have htouch : ∀ x : ChatDoc,
      (if (x._id == c._id) = true then
          ({ x with lastMessageAt := io.tAssistant, updatedAt := io.tSave } : ChatDoc)
        else x) = touchChat c._id io.tAssistant io.tSave x := fun x => rfl
  have hchats' : db1'.chats = db.chats.map (touchChat c._id io.tAssistant io.tSave) := by
    rw [hchats]; rfl
  obtain ⟨c', hc'⟩ : ∃ c', c' = touchChat c._id io.tAssistant io.tSave c := ⟨_, rfl⟩
  have hc'val : c' = { c with lastMessageAt := io.tAssistant, updatedAt := io.tSave } := by
    rw [hc']; simp [touchChat]
  have hc'mem : c' ∈ Chat.find db1' c.user := by
    apply (chatFind_perm db1' c.user).symm.subset
    rw [List.mem_filter, hchats']
    refine ⟨List.mem_map.mpr ⟨c, hc, hc'.symm⟩, ?_⟩
    rw [hc'val]; simp
  have hmax : ∀ y ∈ Chat.find db1' c.user, y ≠ c' → y.updatedAt < c'.updatedAt := by
    intro y hy hne
    have hy2 := (List.mem_filter.mp ((chatFind_perm db1' c.user).subset hy)).1
    rw [hchats'] at hy2
    obtain ⟨x, hx, rfl⟩ := List.mem_map.mp hy2
    by_cases hid : x._id = c._id
    · have hxc : x = c := List.inj_on_of_nodup_map hnodup hx hc hid
      rw [hxc, ← hc'] at hne
      exact absurd rfl hne
    · rw [(touchChat_frame c._id io.tAssistant io.tSave x).2.2.2.2 hid, hc'val]
      exact (hclock x hx).2
  obtain ⟨rest, hrest⟩ := head_of_sorted_strict_max _ c' (chatFind_sorted db1' c.user)
    hc'mem hmax
  refine ⟨ChatManager.serializeChat c', rest.map ChatManager.serializeChat, _, _, ?_,
    ?_, ?_, rfl, rfl, ?_⟩
  · simp only [ChatManager.listChats, hrest, List.map_cons]
  · rw [hc'val]; rfl
  · rw [hc'val]; rfl
  · rw [hc'val]; rfl

/-- C20, at a concrete store: user 1 posts "hi" to the own chat in `storeOneChat`. -/
theorem postMessage_then_listChats_first_witness :
    ∃ first rest,
      (ChatManager.listChats storeAfterHi 1).chats = some (first :: rest) ∧
      first.id = 0 ∧ first.lastMessageAt = 300 :=
  have h := postMessage_then_listChats_first env0 storeOneChat storeAfterHi chatOfUser1 []
    "hi".toList io0
    { status := .SUCCESS_CODE, message := some "Reply generated".toList,
      chat := some { id := 0, title := "New Chat".toList, user := 1, lastMessageAt := 300,
                     createdAt := 100, updatedAt := 400 },
      chats := none,
      messages := some
        [{ id := 3, chat := 0, role := .user, content := "hi".toList, createdAt := 200 },
         { id := 4, chat := 0, role := .assistant,
           content := (LLMService.generateReply env0 "hi".toList 0 [] 0).message,
           createdAt := 300 }],
      metadata := some { delayMs := 10000 } }
    (by decide) (by decide) (by rfl) (by decide)
  match h with
  | ⟨first, rest, _, a, h1, h2, _, h4, _, h6⟩ =>
    ⟨first, rest, h1, h2, by
      simp only [Option.some.injEq, List.cons.injEq, and_true] at h4
      rw [h6, ← h4.2]⟩

end TuringTech
